import Mathlib

/-!
Verification of the AES engine in `Convery/AYRIA` (`src/unnamed/part_007`).

The file shallowly embeds the portable (word-oriented) AES path, a model of
the hardware path (the AES-NI instructions, written from their architectural
definition, i.e. the FIPS-197 round operations), and the mode/padding layer,
and proves or refutes the frozen specification claims about them.

Machine integers are embedded as `Nat` with explicit `% 2^w` truncation
wherever the C++ computation can wrap.  A 128-bit block is embedded in the
two representations the source uses: four 32-bit words (`PBlock`, the
portable `Block_t`) and sixteen bytes (`HBlock`, the `__m128i` byte view);
`ofH` is the `bit_cast` between them.  Out-of-bounds array accesses in the
source are modelled with `Option`-valued functions that return `none` at
the first invalid access.
-/

set_option maxRecDepth 16000

set_option maxHeartbeats 2000000

namespace AESVerify

/-! ## Little-endian byte views of 32-bit words -/

/-- The 32-bit word whose little-endian bytes are `a, b, c, d`
(the `std::bit_cast` between `uint32_t` and `std::array<uint8_t,4>`). -/
def ofBytes4 (a b c d : Nat) : Nat := a + 256 * (b + 256 * (c + 256 * d))

/-! ## Portable path (`AES::Implementation::Portable`)

`Block_t = std::array<uint32_t, 4>`, embedded as the four-field structure
`PBlock`.  All byte/word arithmetic is `Nat` with explicit truncation where
the C++ computation narrows to `uint8_t`/`uint32_t`. -/

/-- Portable `Block_t`: four 32-bit words. -/
structure PBlock where
  w0 : Nat
  w1 : Nat
  w2 : Nat
  w3 : Nat
deriving DecidableEq, Repr

def pzero : PBlock := ⟨0, 0, 0, 0⟩

namespace Portable

/-- `constexpr uint8_t Mul2(uint8_t)`: `(Input << 1) ^ ((Input >> 7) * 0x1B)`,
truncated to a byte on return. -/
def Mul2b (b : Nat) : Nat := ((b <<< 1) ^^^ ((b >>> 7) * 0x1B)) % 256

/-- `constexpr uint8_t Mul3(uint8_t)`: `Mul2(Input) ^ Input`. -/
def Mul3b (b : Nat) : Nat := (Mul2b b ^^^ b) % 256

/-- `constexpr uint8_t Div3(uint8_t)`: three shift-xor folds then the
conditional `0x09` correction; each `^=` assignment truncates to a byte. -/
def Div3b (b : Nat) : Nat :=
  let b1 := (b ^^^ (b <<< 1)) % 256
  let b2 := (b1 ^^^ (b1 <<< 2)) % 256
  let b3 := (b2 ^^^ (b2 <<< 4)) % 256
  (b3 ^^^ ((b3 >>> 7) * 0x09)) % 256

/-- `constexpr uint32_t Mul2(uint32_t)` (SWAR multiply-by-2 on packed bytes). -/
def Mul2w (w : Nat) : Nat :=
  ((w &&& 0x7F7F7F7F) <<< 1) ^^^ ((w &&& 0x80808080) >>> 7) * 0x1B

/-- `constexpr uint32_t Mul3(uint32_t)` (SWAR; despite the name it multiplies
each packed byte by 4 in GF(2^8), see the consistency lemmas below). -/
def Mul3w (w : Nat) : Nat :=
  ((w &&& 0x3F3F3F3F) <<< 2) ^^^ ((w &&& 0x80808080) >>> 7) * 0x36 ^^^
    ((w &&& 0x40404040) >>> 6) * 0x1B

/-- `std::rotr` on `uint32_t`. -/
def rotr32 (w n : Nat) : Nat := (w >>> n) ||| ((w <<< (32 - n)) % 2 ^ 32)

/-- `std::rotl` on `uint8_t`. -/
def rotl8 (b n : Nat) : Nat := ((b <<< n) % 256) ||| (b >>> (8 - n))

/-- `XOR` on `Block_t`. -/
def pxor (A B : PBlock) : PBlock :=
  ⟨A.w0 ^^^ B.w0, A.w1 ^^^ B.w1, A.w2 ^^^ B.w2, A.w3 ^^^ B.w3⟩

/-- `Shift4` (the portable `_mm_slli_si128(Input, 4)`). -/
def Shift4 (B : PBlock) : PBlock := ⟨0, B.w0, B.w1, B.w2⟩

/-- Word selector used by `Shuffle4` (`Input[i]` for `i < 4`). -/
def pIdx (B : PBlock) : Nat → Nat
  | 0 => B.w0
  | 1 => B.w1
  | 2 => B.w2
  | _ => B.w3

/-- `Shuffle4` (the portable `_mm_shuffle_epi32(Input, Control)`). -/
def Shuffle4 (B : PBlock) (c : Nat) : PBlock :=
  ⟨pIdx B ((c &&& 0x03) >>> 0), pIdx B ((c &&& 0x0C) >>> 2),
    pIdx B ((c &&& 0x30) >>> 4), pIdx B ((c &&& 0xC0) >>> 6)⟩

/-- The affine transform inside the S-box generator:
`0x63 ^ (Q ^ rotl(Q,1) ^ rotl(Q,2) ^ rotl(Q,3) ^ rotl(Q,4))`. -/
def affine (q : Nat) : Nat :=
  (0x63 ^^^ (q ^^^ rotl8 q 1 ^^^ rotl8 q 2 ^^^ rotl8 q 3 ^^^ rotl8 q 4)) % 256

/-- The S-box generator's do-while loop
(`P = Mul3(P); Q = Div3(Q); Buffer[P] = affine(Q);` until `P == 1`),
with explicit fuel.  Returns the final `P`, the number of iterations
executed, and the buffer. -/
def sboxLoop : Nat → Nat → Nat → Nat → List Nat → Nat × Nat × List Nat
  | 0, P, _, cnt, buf => (P, cnt, buf)
  | fuel + 1, P, Q, cnt, buf =>
    let P' := Mul3b P
    let Q' := Div3b Q
    let buf' := buf.set P' (affine Q')
    if P' = 1 then (P', cnt + 1, buf') else sboxLoop fuel P' Q' (cnt + 1) buf'

/-- Result of running the generator loop from `P = Q = 1` on a
zero-initialised 256-byte buffer. -/
def SBoxRun : Nat × Nat × List Nat := sboxLoop 255 1 1 0 (List.replicate 256 0)

/-- `Portable::SBox` (generator output with `Buffer[0] = 0x63`). -/
def SBoxL : List Nat := SBoxRun.2.2.set 0 0x63

/-- `Portable::INVSBox`: `Buffer[SBox[i]] = i` for every `i < 256`. -/
def INVSBoxL : List Nat :=
  (List.range 256).foldl (fun buf i => buf.set (SBoxL.getD i 0) i) (List.replicate 256 0)

/-- Byte `i` of a word under the little-endian `bit_cast` view. -/
def byte0 (w : Nat) : Nat := w % 256
def byte1 (w : Nat) : Nat := w / 256 % 256
def byte2 (w : Nat) : Nat := w / 65536 % 256
def byte3 (w : Nat) : Nat := w / 16777216 % 256

/-- `constexpr uint32_t Substitute(uint32_t)`: S-box each byte of the word. -/
def SubstituteW (w : Nat) : Nat :=
  ofBytes4 (SBoxL.getD (byte0 w) 0) (SBoxL.getD (byte1 w) 0)
    (SBoxL.getD (byte2 w) 0) (SBoxL.getD (byte3 w) 0)

def INVSubstituteW (w : Nat) : Nat :=
  ofBytes4 (INVSBoxL.getD (byte0 w) 0) (INVSBoxL.getD (byte1 w) 0)
    (INVSBoxL.getD (byte2 w) 0) (INVSBoxL.getD (byte3 w) 0)

/-- Block-level `Substitute`. -/
def SubstituteB (B : PBlock) : PBlock :=
  ⟨SubstituteW B.w0, SubstituteW B.w1, SubstituteW B.w2, SubstituteW B.w3⟩

def INVSubstituteB (B : PBlock) : PBlock :=
  ⟨INVSubstituteW B.w0, INVSubstituteW B.w1, INVSubstituteW B.w2, INVSubstituteW B.w3⟩

/-- `Portable::Shiftrow`: the byte permutation written in the source as a
`bit_cast` to a 4x4 byte matrix followed by the literal re-arrangement. -/
def Shiftrow (B : PBlock) : PBlock :=
  ⟨ofBytes4 (byte0 B.w0) (byte1 B.w1) (byte2 B.w2) (byte3 B.w3),
    ofBytes4 (byte0 B.w1) (byte1 B.w2) (byte2 B.w3) (byte3 B.w0),
    ofBytes4 (byte0 B.w2) (byte1 B.w3) (byte2 B.w0) (byte3 B.w1),
    ofBytes4 (byte0 B.w3) (byte1 B.w0) (byte2 B.w1) (byte3 B.w2)⟩

def INVShiftrow (B : PBlock) : PBlock :=
  ⟨ofBytes4 (byte0 B.w0) (byte1 B.w3) (byte2 B.w2) (byte3 B.w1),
    ofBytes4 (byte0 B.w1) (byte1 B.w0) (byte2 B.w3) (byte3 B.w2),
    ofBytes4 (byte0 B.w2) (byte1 B.w1) (byte2 B.w0) (byte3 B.w3),
    ofBytes4 (byte0 B.w3) (byte1 B.w2) (byte2 B.w1) (byte3 B.w0)⟩

/-- `constexpr uint32_t Mix(uint32_t)` (`Temp = Mul2(Word) ^ rotr(Word, 16)`
inlined). -/
def Mixw (w : Nat) : Nat :=
  (Mul2w w ^^^ rotr32 w 16) ^^^ rotr32 (w ^^^ (Mul2w w ^^^ rotr32 w 16)) 8

/-- `constexpr uint32_t INVMix(uint32_t)` (`Temp = Mul3(Word)` inlined). -/
def INVMixw (w : Nat) : Nat :=
  Mixw (w ^^^ Mul3w w ^^^ rotr32 (Mul3w w) 16)

def MixB (B : PBlock) : PBlock := ⟨Mixw B.w0, Mixw B.w1, Mixw B.w2, Mixw B.w3⟩

def INVMixB (B : PBlock) : PBlock :=
  ⟨INVMixw B.w0, INVMixw B.w1, INVMixw B.w2, INVMixw B.w3⟩

/-- The shared `Roundconstants` table. -/
def Roundconstants : List Nat := [0x01, 0x02, 0x04, 0x08, 0x10, 0x20, 0x40, 0x80, 0x1b, 0x36]

/-- `Portable::Keygenassist` (word-level replacement for
`_mm_aeskeygenassist_si128`). -/
def Keygenassist (B : PBlock) (i : Nat) : PBlock :=
  let RCON := Roundconstants.getD i 0
  ⟨SubstituteW B.w1, rotr32 (SubstituteW B.w1) 8 ^^^ RCON,
    SubstituteW B.w3, rotr32 (SubstituteW B.w3) 8 ^^^ RCON⟩

/-- One AES-128 key-expansion step (`Schedule[i] -> Schedule[i+1]`). -/
def keyStep128 (i : Nat) (cur : PBlock) : PBlock :=
  let A := Shuffle4 (Keygenassist cur i) 0xFF
  let T1 := pxor cur (Shift4 cur)
  let T2 := pxor T1 (Shift4 T1)
  let T3 := pxor T2 (Shift4 T2)
  pxor A T3

/-- The AES-128 schedule from `Schedule[i]` on, driven by fuel. -/
def keyGo128 : Nat → Nat → PBlock → List PBlock
  | 0, _, cur => [cur]
  | fuel + 1, i, cur => cur :: keyGo128 fuel (i + 1) (keyStep128 i cur)

/-- `Portable::Keyexpansion<4, 10>`: the key bytes fill `Schedule[0]`,
then ten recurrence steps. -/
def Keyexpansion128 (key : List Nat) : List PBlock :=
  keyGo128 10 0
    ⟨ofBytes4 (key.getD 0 0) (key.getD 1 0) (key.getD 2 0) (key.getD 3 0),
      ofBytes4 (key.getD 4 0) (key.getD 5 0) (key.getD 6 0) (key.getD 7 0),
      ofBytes4 (key.getD 8 0) (key.getD 9 0) (key.getD 10 0) (key.getD 11 0),
      ofBytes4 (key.getD 12 0) (key.getD 13 0) (key.getD 14 0) (key.getD 15 0)⟩

/-- One AES-192 iteration: from (`Schedule[i-1]`, `Schedule[i]`) produce the
final `Schedule[i]` and the next `Schedule[i+1]` (the `i == 12` branch of the
source is dead: the loop runs `i = 1 .. 11`). -/
def keyStep192 (i : Nat) (prev cur : PBlock) : PBlock × PBlock :=
  let A := Shuffle4 (Keygenassist cur (i / 2)) 0x55
  let T1 := pxor prev (Shift4 prev)
  let T2 := pxor T1 (Shift4 T1)
  let T3 := pxor T2 (Shift4 T2)
  let T := pxor A T3
  let B := Shuffle4 T 0xFF
  let U1 := pxor cur (Shift4 cur)
  let U := pxor B U1
  (⟨cur.w0, cur.w1, T.w0, T.w1⟩, ⟨T.w2, T.w3, U.w0, U.w1⟩)

/-- Drive the AES-192 iterations: `prev` is the finalised `Schedule[i-1]`,
`cur` the still-partial `Schedule[i]`; emits `Schedule[i] ..`. -/
def keyGo192 : Nat → Nat → PBlock → PBlock → List PBlock
  | 0, _, _, cur => [cur]
  | fuel + 1, i, prev, cur =>
    let s := keyStep192 i prev cur
    s.1 :: keyGo192 fuel (i + 1) s.1 s.2

/-- `Portable::Keyexpansion<6, 12>`: 24 key bytes fill `Schedule[0]` and the
low half of `Schedule[1]`, then eleven irregular iterations. -/
def Keyexpansion192 (key : List Nat) : List PBlock :=
  let S0 : PBlock :=
    ⟨ofBytes4 (key.getD 0 0) (key.getD 1 0) (key.getD 2 0) (key.getD 3 0),
      ofBytes4 (key.getD 4 0) (key.getD 5 0) (key.getD 6 0) (key.getD 7 0),
      ofBytes4 (key.getD 8 0) (key.getD 9 0) (key.getD 10 0) (key.getD 11 0),
      ofBytes4 (key.getD 12 0) (key.getD 13 0) (key.getD 14 0) (key.getD 15 0)⟩
  let S1 : PBlock :=
    ⟨ofBytes4 (key.getD 16 0) (key.getD 17 0) (key.getD 18 0) (key.getD 19 0),
      ofBytes4 (key.getD 20 0) (key.getD 21 0) (key.getD 22 0) (key.getD 23 0), 0, 0⟩
  S0 :: keyGo192 11 1 S0 S1

/-- One AES-256 step producing `Schedule[i+1]` from
(`Schedule[i-1]`, `Schedule[i]`). -/
def keyStep256 (i : Nat) (prev cur : PBlock) : PBlock :=
  let A := if i % 2 = 1 then Shuffle4 (Keygenassist cur (i / 2)) 0xFF
    else Shuffle4 (Keygenassist cur 0) 0xAA
  let T1 := pxor prev (Shift4 prev)
  let T2 := pxor T1 (Shift4 T1)
  let T3 := pxor T2 (Shift4 T2)
  pxor A T3

def keyGo256 : Nat → Nat → PBlock → PBlock → List PBlock
  | 0, _, _, _ => []
  | fuel + 1, i, prev, cur =>
    let next := keyStep256 i prev cur
    next :: keyGo256 fuel (i + 1) cur next

/-- `Portable::Keyexpansion<8, 14>`. -/
def Keyexpansion256 (key : List Nat) : List PBlock :=
  let S0 : PBlock :=
    ⟨ofBytes4 (key.getD 0 0) (key.getD 1 0) (key.getD 2 0) (key.getD 3 0),
      ofBytes4 (key.getD 4 0) (key.getD 5 0) (key.getD 6 0) (key.getD 7 0),
      ofBytes4 (key.getD 8 0) (key.getD 9 0) (key.getD 10 0) (key.getD 11 0),
      ofBytes4 (key.getD 12 0) (key.getD 13 0) (key.getD 14 0) (key.getD 15 0)⟩
  let S1 : PBlock :=
    ⟨ofBytes4 (key.getD 16 0) (key.getD 17 0) (key.getD 18 0) (key.getD 19 0),
      ofBytes4 (key.getD 20 0) (key.getD 21 0) (key.getD 22 0) (key.getD 23 0),
      ofBytes4 (key.getD 24 0) (key.getD 25 0) (key.getD 26 0) (key.getD 27 0),
      ofBytes4 (key.getD 28 0) (key.getD 29 0) (key.getD 30 0) (key.getD 31 0)⟩
  S0 :: S1 :: keyGo256 13 1 S0 S1

/-- `Portable::INVKeyexpansion`: interior keys inverse-mixed, first/last
swapped.  Parameterised by the forward-expansion function and `Rounds`. -/
def INVKeyexpansionOf (keys : List PBlock) (R : Nat) : List PBlock :=
  (List.range (R + 1)).map fun i =>
    if i = 0 then keys.getD R pzero
    else if i = R then keys.getD 0 pzero
    else INVMixB (keys.getD (R - i) pzero)

def INVKeyexpansion128 (key : List Nat) : List PBlock :=
  INVKeyexpansionOf (Keyexpansion128 key) 10

def INVKeyexpansion192 (key : List Nat) : List PBlock :=
  INVKeyexpansionOf (Keyexpansion192 key) 12

def INVKeyexpansion256 (key : List Nat) : List PBlock :=
  INVKeyexpansionOf (Keyexpansion256 key) 14

/-- `Portable::Encryptblock<Rounds>`. -/
def Encryptblock (R : Nat) (input : PBlock) (keys : List PBlock) : PBlock :=
  let b0 := pxor input (keys.getD 0 pzero)
  let bmid := (List.range (R - 1)).foldl
    (fun b j => pxor (MixB (SubstituteB (Shiftrow b))) (keys.getD (j + 1) pzero)) b0
  pxor (SubstituteB (Shiftrow bmid)) (keys.getD R pzero)

/-- `Portable::Decryptblock<Rounds>`. -/
def Decryptblock (R : Nat) (input : PBlock) (keys : List PBlock) : PBlock :=
  let b0 := pxor input (keys.getD 0 pzero)
  let bmid := (List.range (R - 1)).foldl
    (fun b j => pxor (INVMixB (INVSubstituteB (INVShiftrow b))) (keys.getD (j + 1) pzero)) b0
  pxor (INVSubstituteB (INVShiftrow bmid)) (keys.getD R pzero)

end Portable

/-! ## Hardware path (`AES::Implementation::HW`)

`Block_t = __m128i`, embedded as sixteen bytes (`HBlock`, matching the
`m128i_i8` view).  The vector-cipher intrinsics are not part of the
repository; they are modelled here from their architectural definition:
`AESENC` performs ShiftRows, SubBytes, MixColumns and a round-key XOR of
FIPS-197 (`AESDEC` the inverses with InvMixColumns, `AESIMC` InvMixColumns,
`AESKEYGENASSIST` SubWord/RotWord with the round constant), using the
published FIPS-197 substitution tables and the `{02,03,01,01}` /
`{0e,0b,0d,09}` column matrices. -/

/-- `__m128i` as its sixteen bytes (`m128i_i8[0..15]`). -/
structure HBlock where
  b0 : Nat
  b1 : Nat
  b2 : Nat
  b3 : Nat
  b4 : Nat
  b5 : Nat
  b6 : Nat
  b7 : Nat
  b8 : Nat
  b9 : Nat
  b10 : Nat
  b11 : Nat
  b12 : Nat
  b13 : Nat
  b14 : Nat
  b15 : Nat
deriving DecidableEq, Repr

def hzero : HBlock := ⟨0, 0, 0, 0, 0, 0, 0, 0, 0, 0, 0, 0, 0, 0, 0, 0⟩

/-- All sixteen bytes are in range. -/
def HBounded (h : HBlock) : Prop :=
  h.b0 < 256 ∧ h.b1 < 256 ∧ h.b2 < 256 ∧ h.b3 < 256 ∧ h.b4 < 256 ∧ h.b5 < 256 ∧
    h.b6 < 256 ∧ h.b7 < 256 ∧ h.b8 < 256 ∧ h.b9 < 256 ∧ h.b10 < 256 ∧ h.b11 < 256 ∧
    h.b12 < 256 ∧ h.b13 < 256 ∧ h.b14 < 256 ∧ h.b15 < 256

instance (h : HBlock) : Decidable (HBounded h) := by unfold HBounded; infer_instance

/-- The `bit_cast` from the byte view to the portable four-word view. -/
def ofH (h : HBlock) : PBlock :=
  ⟨ofBytes4 h.b0 h.b1 h.b2 h.b3, ofBytes4 h.b4 h.b5 h.b6 h.b7,
    ofBytes4 h.b8 h.b9 h.b10 h.b11, ofBytes4 h.b12 h.b13 h.b14 h.b15⟩

namespace HW

/-- The published FIPS-197 substitution table. -/
def fipsSBox : List Nat :=
  [0x63, 0x7c, 0x77, 0x7b, 0xf2, 0x6b, 0x6f, 0xc5, 0x30, 0x01, 0x67, 0x2b, 0xfe, 0xd7, 0xab, 0x76,
    0xca, 0x82, 0xc9, 0x7d, 0xfa, 0x59, 0x47, 0xf0, 0xad, 0xd4, 0xa2, 0xaf, 0x9c, 0xa4, 0x72, 0xc0,
    0xb7, 0xfd, 0x93, 0x26, 0x36, 0x3f, 0xf7, 0xcc, 0x34, 0xa5, 0xe5, 0xf1, 0x71, 0xd8, 0x31, 0x15,
    0x04, 0xc7, 0x23, 0xc3, 0x18, 0x96, 0x05, 0x9a, 0x07, 0x12, 0x80, 0xe2, 0xeb, 0x27, 0xb2, 0x75,
    0x09, 0x83, 0x2c, 0x1a, 0x1b, 0x6e, 0x5a, 0xa0, 0x52, 0x3b, 0xd6, 0xb3, 0x29, 0xe3, 0x2f, 0x84,
    0x53, 0xd1, 0x00, 0xed, 0x20, 0xfc, 0xb1, 0x5b, 0x6a, 0xcb, 0xbe, 0x39, 0x4a, 0x4c, 0x58, 0xcf,
    0xd0, 0xef, 0xaa, 0xfb, 0x43, 0x4d, 0x33, 0x85, 0x45, 0xf9, 0x02, 0x7f, 0x50, 0x3c, 0x9f, 0xa8,
    0x51, 0xa3, 0x40, 0x8f, 0x92, 0x9d, 0x38, 0xf5, 0xbc, 0xb6, 0xda, 0x21, 0x10, 0xff, 0xf3, 0xd2,
    0xcd, 0x0c, 0x13, 0xec, 0x5f, 0x97, 0x44, 0x17, 0xc4, 0xa7, 0x7e, 0x3d, 0x64, 0x5d, 0x19, 0x73,
    0x60, 0x81, 0x4f, 0xdc, 0x22, 0x2a, 0x90, 0x88, 0x46, 0xee, 0xb8, 0x14, 0xde, 0x5e, 0x0b, 0xdb,
    0xe0, 0x32, 0x3a, 0x0a, 0x49, 0x06, 0x24, 0x5c, 0xc2, 0xd3, 0xac, 0x62, 0x91, 0x95, 0xe4, 0x79,
    0xe7, 0xc8, 0x37, 0x6d, 0x8d, 0xd5, 0x4e, 0xa9, 0x6c, 0x56, 0xf4, 0xea, 0x65, 0x7a, 0xae, 0x08,
    0xba, 0x78, 0x25, 0x2e, 0x1c, 0xa6, 0xb4, 0xc6, 0xe8, 0xdd, 0x74, 0x1f, 0x4b, 0xbd, 0x8b, 0x8a,
    0x70, 0x3e, 0xb5, 0x66, 0x48, 0x03, 0xf6, 0x0e, 0x61, 0x35, 0x57, 0xb9, 0x86, 0xc1, 0x1d, 0x9e,
    0xe1, 0xf8, 0x98, 0x11, 0x69, 0xd9, 0x8e, 0x94, 0x9b, 0x1e, 0x87, 0xe9, 0xce, 0x55, 0x28, 0xdf,
    0x8c, 0xa1, 0x89, 0x0d, 0xbf, 0xe6, 0x42, 0x68, 0x41, 0x99, 0x2d, 0x0f, 0xb0, 0x54, 0xbb, 0x16]

/-- The published FIPS-197 inverse substitution table. -/
def fipsInvSBox : List Nat :=
  [0x52, 0x09, 0x6a, 0xd5, 0x30, 0x36, 0xa5, 0x38, 0xbf, 0x40, 0xa3, 0x9e, 0x81, 0xf3, 0xd7, 0xfb,
    0x7c, 0xe3, 0x39, 0x82, 0x9b, 0x2f, 0xff, 0x87, 0x34, 0x8e, 0x43, 0x44, 0xc4, 0xde, 0xe9, 0xcb,
    0x54, 0x7b, 0x94, 0x32, 0xa6, 0xc2, 0x23, 0x3d, 0xee, 0x4c, 0x95, 0x0b, 0x42, 0xfa, 0xc3, 0x4e,
    0x08, 0x2e, 0xa1, 0x66, 0x28, 0xd9, 0x24, 0xb2, 0x76, 0x5b, 0xa2, 0x49, 0x6d, 0x8b, 0xd1, 0x25,
    0x72, 0xf8, 0xf6, 0x64, 0x86, 0x68, 0x98, 0x16, 0xd4, 0xa4, 0x5c, 0xcc, 0x5d, 0x65, 0xb6, 0x92,
    0x6c, 0x70, 0x48, 0x50, 0xfd, 0xed, 0xb9, 0xda, 0x5e, 0x15, 0x46, 0x57, 0xa7, 0x8d, 0x9d, 0x84,
    0x90, 0xd8, 0xab, 0x00, 0x8c, 0xbc, 0xd3, 0x0a, 0xf7, 0xe4, 0x58, 0x05, 0xb8, 0xb3, 0x45, 0x06,
    0xd0, 0x2c, 0x1e, 0x8f, 0xca, 0x3f, 0x0f, 0x02, 0xc1, 0xaf, 0xbd, 0x03, 0x01, 0x13, 0x8a, 0x6b,
    0x3a, 0x91, 0x11, 0x41, 0x4f, 0x67, 0xdc, 0xea, 0x97, 0xf2, 0xcf, 0xce, 0xf0, 0xb4, 0xe6, 0x73,
    0x96, 0xac, 0x74, 0x22, 0xe7, 0xad, 0x35, 0x85, 0xe2, 0xf9, 0x37, 0xe8, 0x1c, 0x75, 0xdf, 0x6e,
    0x47, 0xf1, 0x1a, 0x71, 0x1d, 0x29, 0xc5, 0x89, 0x6f, 0xb7, 0x62, 0x0e, 0xaa, 0x18, 0xbe, 0x1b,
    0xfc, 0x56, 0x3e, 0x4b, 0xc6, 0xd2, 0x79, 0x20, 0x9a, 0xdb, 0xc0, 0xfe, 0x78, 0xcd, 0x5a, 0xf4,
    0x1f, 0xdd, 0xa8, 0x33, 0x88, 0x07, 0xc7, 0x31, 0xb1, 0x12, 0x10, 0x59, 0x27, 0x80, 0xec, 0x5f,
    0x60, 0x51, 0x7f, 0xa9, 0x19, 0xb5, 0x4a, 0x0d, 0x2d, 0xe5, 0x7a, 0x9f, 0x93, 0xc9, 0x9c, 0xef,
    0xa0, 0xe0, 0x3b, 0x4d, 0xae, 0x2a, 0xf5, 0xb0, 0xc8, 0xeb, 0xbb, 0x3c, 0x83, 0x53, 0x99, 0x61,
    0x17, 0x2b, 0x04, 0x7e, 0xba, 0x77, 0xd6, 0x26, 0xe1, 0x69, 0x14, 0x63, 0x55, 0x21, 0x0c, 0x7d]

/-- S-box lookup. -/
def S (b : Nat) : Nat := fipsSBox.getD b 0

/-- Inverse S-box lookup. -/
def Si (b : Nat) : Nat := fipsInvSBox.getD b 0

/-- FIPS-197 `xtime`: multiply by `x` in GF(2^8). -/
def xtime (b : Nat) : Nat :=
  if b.testBit 7 then ((2 * b) % 256) ^^^ 0x1B else (2 * b) % 256

def gfmul3 (b : Nat) : Nat := xtime b ^^^ b
def gfmul9 (b : Nat) : Nat := xtime (xtime (xtime b)) ^^^ b
def gfmul11 (b : Nat) : Nat := xtime (xtime (xtime b)) ^^^ xtime b ^^^ b
def gfmul13 (b : Nat) : Nat := xtime (xtime (xtime b)) ^^^ xtime (xtime b) ^^^ b
def gfmul14 (b : Nat) : Nat := xtime (xtime (xtime b)) ^^^ xtime (xtime b) ^^^ xtime b

/-- `_mm_xor_si128`. -/
def hxor (a b : HBlock) : HBlock :=
  ⟨a.b0 ^^^ b.b0, a.b1 ^^^ b.b1, a.b2 ^^^ b.b2, a.b3 ^^^ b.b3,
    a.b4 ^^^ b.b4, a.b5 ^^^ b.b5, a.b6 ^^^ b.b6, a.b7 ^^^ b.b7,
    a.b8 ^^^ b.b8, a.b9 ^^^ b.b9, a.b10 ^^^ b.b10, a.b11 ^^^ b.b11,
    a.b12 ^^^ b.b12, a.b13 ^^^ b.b13, a.b14 ^^^ b.b14, a.b15 ^^^ b.b15⟩

/-- FIPS-197 SubBytes (state byte `i` is `r + 4c` with `r` the row). -/
def subBytes (h : HBlock) : HBlock :=
  ⟨S h.b0, S h.b1, S h.b2, S h.b3, S h.b4, S h.b5, S h.b6, S h.b7,
    S h.b8, S h.b9, S h.b10, S h.b11, S h.b12, S h.b13, S h.b14, S h.b15⟩

def invSubBytes (h : HBlock) : HBlock :=
  ⟨Si h.b0, Si h.b1, Si h.b2, Si h.b3, Si h.b4, Si h.b5, Si h.b6, Si h.b7,
    Si h.b8, Si h.b9, Si h.b10, Si h.b11, Si h.b12, Si h.b13, Si h.b14, Si h.b15⟩

/-- FIPS-197 ShiftRows: `out[r + 4c] = in[r + 4((c + r) mod 4)]`. -/
def shiftRows (h : HBlock) : HBlock :=
  ⟨h.b0, h.b5, h.b10, h.b15, h.b4, h.b9, h.b14, h.b3,
    h.b8, h.b13, h.b2, h.b7, h.b12, h.b1, h.b6, h.b11⟩

/-- FIPS-197 InvShiftRows: `out[r + 4c] = in[r + 4((c - r) mod 4)]`. -/
def invShiftRows (h : HBlock) : HBlock :=
  ⟨h.b0, h.b13, h.b10, h.b7, h.b4, h.b1, h.b14, h.b11,
    h.b8, h.b5, h.b2, h.b15, h.b12, h.b9, h.b6, h.b3⟩

/-- FIPS-197 MixColumns, column matrix `{02,03,01,01}`. -/
def mixColumns (h : HBlock) : HBlock :=
  ⟨xtime h.b0 ^^^ gfmul3 h.b1 ^^^ h.b2 ^^^ h.b3,
    h.b0 ^^^ xtime h.b1 ^^^ gfmul3 h.b2 ^^^ h.b3,
    h.b0 ^^^ h.b1 ^^^ xtime h.b2 ^^^ gfmul3 h.b3,
    gfmul3 h.b0 ^^^ h.b1 ^^^ h.b2 ^^^ xtime h.b3,
    xtime h.b4 ^^^ gfmul3 h.b5 ^^^ h.b6 ^^^ h.b7,
    h.b4 ^^^ xtime h.b5 ^^^ gfmul3 h.b6 ^^^ h.b7,
    h.b4 ^^^ h.b5 ^^^ xtime h.b6 ^^^ gfmul3 h.b7,
    gfmul3 h.b4 ^^^ h.b5 ^^^ h.b6 ^^^ xtime h.b7,
    xtime h.b8 ^^^ gfmul3 h.b9 ^^^ h.b10 ^^^ h.b11,
    h.b8 ^^^ xtime h.b9 ^^^ gfmul3 h.b10 ^^^ h.b11,
    h.b8 ^^^ h.b9 ^^^ xtime h.b10 ^^^ gfmul3 h.b11,
    gfmul3 h.b8 ^^^ h.b9 ^^^ h.b10 ^^^ xtime h.b11,
    xtime h.b12 ^^^ gfmul3 h.b13 ^^^ h.b14 ^^^ h.b15,
    h.b12 ^^^ xtime h.b13 ^^^ gfmul3 h.b14 ^^^ h.b15,
    h.b12 ^^^ h.b13 ^^^ xtime h.b14 ^^^ gfmul3 h.b15,
    gfmul3 h.b12 ^^^ h.b13 ^^^ h.b14 ^^^ xtime h.b15⟩

/-- FIPS-197 InvMixColumns, column matrix `{0e,0b,0d,09}`. -/
def invMixColumns (h : HBlock) : HBlock :=
  ⟨gfmul14 h.b0 ^^^ gfmul11 h.b1 ^^^ gfmul13 h.b2 ^^^ gfmul9 h.b3,
    gfmul9 h.b0 ^^^ gfmul14 h.b1 ^^^ gfmul11 h.b2 ^^^ gfmul13 h.b3,
    gfmul13 h.b0 ^^^ gfmul9 h.b1 ^^^ gfmul14 h.b2 ^^^ gfmul11 h.b3,
    gfmul11 h.b0 ^^^ gfmul13 h.b1 ^^^ gfmul9 h.b2 ^^^ gfmul14 h.b3,
    gfmul14 h.b4 ^^^ gfmul11 h.b5 ^^^ gfmul13 h.b6 ^^^ gfmul9 h.b7,
    gfmul9 h.b4 ^^^ gfmul14 h.b5 ^^^ gfmul11 h.b6 ^^^ gfmul13 h.b7,
    gfmul13 h.b4 ^^^ gfmul9 h.b5 ^^^ gfmul14 h.b6 ^^^ gfmul11 h.b7,
    gfmul11 h.b4 ^^^ gfmul13 h.b5 ^^^ gfmul9 h.b6 ^^^ gfmul14 h.b7,
    gfmul14 h.b8 ^^^ gfmul11 h.b9 ^^^ gfmul13 h.b10 ^^^ gfmul9 h.b11,
    gfmul9 h.b8 ^^^ gfmul14 h.b9 ^^^ gfmul11 h.b10 ^^^ gfmul13 h.b11,
    gfmul13 h.b8 ^^^ gfmul9 h.b9 ^^^ gfmul14 h.b10 ^^^ gfmul11 h.b11,
    gfmul11 h.b8 ^^^ gfmul13 h.b9 ^^^ gfmul9 h.b10 ^^^ gfmul14 h.b11,
    gfmul14 h.b12 ^^^ gfmul11 h.b13 ^^^ gfmul13 h.b14 ^^^ gfmul9 h.b15,
    gfmul9 h.b12 ^^^ gfmul14 h.b13 ^^^ gfmul11 h.b14 ^^^ gfmul13 h.b15,
    gfmul13 h.b12 ^^^ gfmul9 h.b13 ^^^ gfmul14 h.b14 ^^^ gfmul11 h.b15,
    gfmul11 h.b12 ^^^ gfmul13 h.b13 ^^^ gfmul9 h.b14 ^^^ gfmul14 h.b15⟩

/-- `_mm_aesenc_si128`: ShiftRows, SubBytes, MixColumns, round-key XOR. -/
def aesenc (s k : HBlock) : HBlock := hxor (mixColumns (subBytes (shiftRows s))) k

/-- `_mm_aesenclast_si128`. -/
def aesenclast (s k : HBlock) : HBlock := hxor (subBytes (shiftRows s)) k

/-- `_mm_aesdec_si128`: InvShiftRows, InvSubBytes, InvMixColumns, key XOR. -/
def aesdec (s k : HBlock) : HBlock := hxor (invMixColumns (invSubBytes (invShiftRows s))) k

/-- `_mm_aesdeclast_si128`. -/
def aesdeclast (s k : HBlock) : HBlock := hxor (invSubBytes (invShiftRows s)) k

/-- `_mm_aesimc_si128`. -/
def aesimc (s : HBlock) : HBlock := invMixColumns s

/-- `_mm_aeskeygenassist_si128`: per 32-bit lane `[SubWord(w1),
RotWord(SubWord(w1)) ^ rcon, SubWord(w3), RotWord(SubWord(w3)) ^ rcon]`,
written out on the little-endian byte view. -/
def aeskeygenassist (h : HBlock) (rcon : Nat) : HBlock :=
  ⟨S h.b4, S h.b5, S h.b6, S h.b7,
    S h.b5 ^^^ rcon, S h.b6, S h.b7, S h.b4,
    S h.b12, S h.b13, S h.b14, S h.b15,
    S h.b13 ^^^ rcon, S h.b14, S h.b15, S h.b12⟩

/-- `HW::Keygenassist` (the `switch` selecting `Roundconstants[i]`). -/
def Keygenassist (h : HBlock) (i : Nat) : HBlock :=
  aeskeygenassist h (Portable.Roundconstants.getD i 0)

/-- The 32-bit lanes of a block, as byte quadruples (for `_mm_shuffle_epi32`). -/
def lane (h : HBlock) : Nat → Nat × Nat × Nat × Nat
  | 0 => (h.b0, h.b1, h.b2, h.b3)
  | 1 => (h.b4, h.b5, h.b6, h.b7)
  | 2 => (h.b8, h.b9, h.b10, h.b11)
  | _ => (h.b12, h.b13, h.b14, h.b15)

/-- `_mm_shuffle_epi32`. -/
def pshufd (h : HBlock) (c : Nat) : HBlock :=
  let l0 := lane h ((c >>> 0) &&& 3)
  let l1 := lane h ((c >>> 2) &&& 3)
  let l2 := lane h ((c >>> 4) &&& 3)
  let l3 := lane h ((c >>> 6) &&& 3)
  ⟨l0.1, l0.2.1, l0.2.2.1, l0.2.2.2, l1.1, l1.2.1, l1.2.2.1, l1.2.2.2,
    l2.1, l2.2.1, l2.2.2.1, l2.2.2.2, l3.1, l3.2.1, l3.2.2.1, l3.2.2.2⟩

/-- `_mm_slli_si128(x, 4)`: shift the whole register left by four bytes. -/
def pslldq4 (h : HBlock) : HBlock :=
  ⟨0, 0, 0, 0, h.b0, h.b1, h.b2, h.b3, h.b4, h.b5, h.b6, h.b7,
    h.b8, h.b9, h.b10, h.b11⟩

/-- `_mm_shuffle_pd(a, b, 0)` (both low 64-bit halves). -/
def shufpd0 (a b : HBlock) : HBlock :=
  ⟨a.b0, a.b1, a.b2, a.b3, a.b4, a.b5, a.b6, a.b7,
    b.b0, b.b1, b.b2, b.b3, b.b4, b.b5, b.b6, b.b7⟩

/-- `_mm_shuffle_pd(a, b, 1)` (high half of `a`, low half of `b`). -/
def shufpd1 (a b : HBlock) : HBlock :=
  ⟨a.b8, a.b9, a.b10, a.b11, a.b12, a.b13, a.b14, a.b15,
    b.b0, b.b1, b.b2, b.b3, b.b4, b.b5, b.b6, b.b7⟩

/-- One AES-128 HW key-expansion step. -/
def keyStep128 (i : Nat) (cur : HBlock) : HBlock :=
  let A := pshufd (Keygenassist cur i) 0xFF
  let T1 := hxor cur (pslldq4 cur)
  let T2 := hxor T1 (pslldq4 T1)
  let T3 := hxor T2 (pslldq4 T2)
  hxor A T3

def keyGo128 : Nat → Nat → HBlock → List HBlock
  | 0, _, cur => [cur]
  | fuel + 1, i, cur => cur :: keyGo128 fuel (i + 1) (keyStep128 i cur)

/-- `HW::Keyexpansion<4, 10>`. -/
def Keyexpansion128 (key : List Nat) : List HBlock :=
  keyGo128 10 0
    ⟨key.getD 0 0, key.getD 1 0, key.getD 2 0, key.getD 3 0,
      key.getD 4 0, key.getD 5 0, key.getD 6 0, key.getD 7 0,
      key.getD 8 0, key.getD 9 0, key.getD 10 0, key.getD 11 0,
      key.getD 12 0, key.getD 13 0, key.getD 14 0, key.getD 15 0⟩

/-- One AES-192 HW iteration (`_mm_shuffle_pd` recombination; the `i == 12`
branch is dead as the loop runs `i = 1 .. 11`). -/
def keyStep192 (i : Nat) (prev cur : HBlock) : HBlock × HBlock :=
  let A := pshufd (Keygenassist cur (i / 2)) 0x55
  let T1 := hxor prev (pslldq4 prev)
  let T2 := hxor T1 (pslldq4 T1)
  let T3 := hxor T2 (pslldq4 T2)
  let T := hxor A T3
  let B := pshufd T 0xFF
  let U1 := hxor cur (pslldq4 cur)
  let U := hxor B U1
  (shufpd0 cur T, shufpd1 T U)

def keyGo192 : Nat → Nat → HBlock → HBlock → List HBlock
  | 0, _, _, cur => [cur]
  | fuel + 1, i, prev, cur =>
    let s := keyStep192 i prev cur
    s.1 :: keyGo192 fuel (i + 1) s.1 s.2

/-- `HW::Keyexpansion<6, 12>`. -/
def Keyexpansion192 (key : List Nat) : List HBlock :=
  let S0 : HBlock :=
    ⟨key.getD 0 0, key.getD 1 0, key.getD 2 0, key.getD 3 0,
      key.getD 4 0, key.getD 5 0, key.getD 6 0, key.getD 7 0,
      key.getD 8 0, key.getD 9 0, key.getD 10 0, key.getD 11 0,
      key.getD 12 0, key.getD 13 0, key.getD 14 0, key.getD 15 0⟩
  let S1 : HBlock :=
    ⟨key.getD 16 0, key.getD 17 0, key.getD 18 0, key.getD 19 0,
      key.getD 20 0, key.getD 21 0, key.getD 22 0, key.getD 23 0,
      0, 0, 0, 0, 0, 0, 0, 0⟩
  S0 :: keyGo192 11 1 S0 S1

/-- One AES-256 HW step (`i` odd: rcon-assist on lane 3; `i` even:
`_mm_aeskeygenassist_si128(x, 0)` with lane 2). -/
def keyStep256 (i : Nat) (prev cur : HBlock) : HBlock :=
  let A := if i % 2 = 1 then pshufd (Keygenassist cur (i / 2)) 0xFF
    else pshufd (aeskeygenassist cur 0) 0xAA
  let T1 := hxor prev (pslldq4 prev)
  let T2 := hxor T1 (pslldq4 T1)
  let T3 := hxor T2 (pslldq4 T2)
  hxor A T3

def keyGo256 : Nat → Nat → HBlock → HBlock → List HBlock
  | 0, _, _, _ => []
  | fuel + 1, i, prev, cur =>
    let next := keyStep256 i prev cur
    next :: keyGo256 fuel (i + 1) cur next

/-- `HW::Keyexpansion<8, 14>`. -/
def Keyexpansion256 (key : List Nat) : List HBlock :=
  let S0 : HBlock :=
    ⟨key.getD 0 0, key.getD 1 0, key.getD 2 0, key.getD 3 0,
      key.getD 4 0, key.getD 5 0, key.getD 6 0, key.getD 7 0,
      key.getD 8 0, key.getD 9 0, key.getD 10 0, key.getD 11 0,
      key.getD 12 0, key.getD 13 0, key.getD 14 0, key.getD 15 0⟩
  let S1 : HBlock :=
    ⟨key.getD 16 0, key.getD 17 0, key.getD 18 0, key.getD 19 0,
      key.getD 20 0, key.getD 21 0, key.getD 22 0, key.getD 23 0,
      key.getD 24 0, key.getD 25 0, key.getD 26 0, key.getD 27 0,
      key.getD 28 0, key.getD 29 0, key.getD 30 0, key.getD 31 0⟩
  S0 :: S1 :: keyGo256 13 1 S0 S1

/-- `HW::INVKeyexpansion` (generic in the forward schedule). -/
def INVKeyexpansionOf (keys : List HBlock) (R : Nat) : List HBlock :=
  (List.range (R + 1)).map fun i =>
    if i = 0 then keys.getD R hzero
    else if i = R then keys.getD 0 hzero
    else aesimc (keys.getD (R - i) hzero)

def INVKeyexpansion128 (key : List Nat) : List HBlock :=
  INVKeyexpansionOf (Keyexpansion128 key) 10

def INVKeyexpansion192 (key : List Nat) : List HBlock :=
  INVKeyexpansionOf (Keyexpansion192 key) 12

def INVKeyexpansion256 (key : List Nat) : List HBlock :=
  INVKeyexpansionOf (Keyexpansion256 key) 14

/-- `HW::Encryptblock<Rounds>`. -/
def Encryptblock (R : Nat) (input : HBlock) (keys : List HBlock) : HBlock :=
  let b0 := hxor input (keys.getD 0 hzero)
  let bmid := (List.range (R - 1)).foldl (fun b j => aesenc b (keys.getD (j + 1) hzero)) b0
  aesenclast bmid (keys.getD R hzero)

/-- `HW::Decryptblock<Rounds>`. -/
def Decryptblock (R : Nat) (input : HBlock) (keys : List HBlock) : HBlock :=
  let b0 := hxor input (keys.getD 0 hzero)
  let bmid := (List.range (R - 1)).foldl (fun b j => aesdec b (keys.getD (j + 1) hzero)) b0
  aesdeclast bmid (keys.getD R hzero)

end HW

/-! ## Block conversions and the shared CTR increment -/

namespace Portable

/-- `bit_cast` of the portable `Block_t` to its sixteen bytes. -/
def pToBytes (B : PBlock) : List Nat :=
  [byte0 B.w0, byte1 B.w0, byte2 B.w0, byte3 B.w0,
    byte0 B.w1, byte1 B.w1, byte2 B.w1, byte3 B.w1,
    byte0 B.w2, byte1 B.w2, byte2 B.w2, byte3 B.w2,
    byte0 B.w3, byte1 B.w3, byte2 B.w3, byte3 B.w3]

/-- `bit_cast` / `cmp::memcpy` of (up to) sixteen bytes into a `Block_t`
(missing bytes read as the zero-initialised block). -/
def bytesToPBlock (l : List Nat) : PBlock :=
  ⟨ofBytes4 (l.getD 0 0) (l.getD 1 0) (l.getD 2 0) (l.getD 3 0),
    ofBytes4 (l.getD 4 0) (l.getD 5 0) (l.getD 6 0) (l.getD 7 0),
    ofBytes4 (l.getD 8 0) (l.getD 9 0) (l.getD 10 0) (l.getD 11 0),
    ofBytes4 (l.getD 12 0) (l.getD 13 0) (l.getD 14 0) (l.getD 15 0)⟩

end Portable

/-- The big-endian CTR increment loop body shared (textually identical) by the
HW and portable `Encryptblock_CTR`: `NC[15] += 1;` then for `i < n`
(`n = Countersize / 8`): `if (NC[15 - i] == 0) NC[14 - i] += 1;`.
For `i = 15` the write index `14 - i` is `-1` in C++ — out of bounds —
modelled by `none`. -/
def ctrIncBE (n : Nat) (nc : List Nat) : Option (List Nat) :=
  let nc0 := nc.set 15 ((nc.getD 15 0 + 1) % 256)
  (List.range n).foldlM
    (fun b i =>
      if b.getD (15 - i) 0 = 0 then
        if i ≤ 14 then some (b.set (14 - i) ((b.getD (14 - i) 0 + 1) % 256)) else none
      else some b)
    nc0

/-- The little-endian CTR increment loop: `NC[0] += 1;` then for `i < n`:
`if (NC[i] == 0) NC[i + 1] += 1;` (for `i = 15` the write index 16 is out of
bounds). -/
def ctrIncLE (n : Nat) (nc : List Nat) : Option (List Nat) :=
  let nc0 := nc.set 0 ((nc.getD 0 0 + 1) % 256)
  (List.range n).foldlM
    (fun b i =>
      if b.getD i 0 = 0 then
        if i + 1 ≤ 15 then some (b.set (i + 1) ((b.getD (i + 1) 0 + 1) % 256)) else none
      else some b)
    nc0

/-- Counter increment dispatch on `Countersize` and `Bigendian`. -/
def ctrInc (cs : Nat) (be : Bool) (nc : List Nat) : Option (List Nat) :=
  if be then ctrIncBE (cs / 8) nc else ctrIncLE (cs / 8) nc

/-! ## Mode helpers (`AES::Implementation`, active code) -/

namespace Portable

def Encryptblock_ECB (R : Nat) (input : PBlock) (keys : List PBlock) : PBlock :=
  Encryptblock R input keys

def Decryptblock_ECB (R : Nat) (input : PBlock) (keys : List PBlock) : PBlock :=
  Decryptblock R input keys

/-- `Encryptblock_CBC`: returns (new state, output). -/
def Encryptblock_CBC (R : Nat) (St input : PBlock) (keys : List PBlock) : PBlock × PBlock :=
  let T := Encryptblock R (pxor St input) keys
  (T, T)

def Decryptblock_CBC (R : Nat) (St input : PBlock) (keys : List PBlock) : PBlock × PBlock :=
  (input, pxor St (Decryptblock R input keys))

def Encryptblock_CFB (R : Nat) (St input : PBlock) (keys : List PBlock) : PBlock × PBlock :=
  let T := pxor input (Encryptblock R St keys)
  (T, T)

def Decryptblock_CFB (R : Nat) (St input : PBlock) (keys : List PBlock) : PBlock × PBlock :=
  (input, pxor input (Encryptblock R St keys))

/-- `Portable::Encryptblock_CTR<Rounds, Countersize, Bigendian>`. -/
def Encryptblock_CTR (R cs : Nat) (be : Bool) (St input : PBlock) (keys : List PBlock) :
    Option (PBlock × PBlock) :=
  let T := pxor input (Encryptblock R St keys)
  (ctrInc cs be (pToBytes St)).map fun nc => (bytesToPBlock nc, T)

def Decryptblock_CTR (R cs : Nat) (be : Bool) (St input : PBlock) (keys : List PBlock) :
    Option (PBlock × PBlock) :=
  Encryptblock_CTR R cs be St input keys

/-- Checked read of `Block_t` element `i` (`Result[i]` for a 4-word array). -/
def pget? (B : PBlock) : Nat → Option Nat
  | 0 => some B.w0
  | 1 => some B.w1
  | 2 => some B.w2
  | 3 => some B.w3
  | _ => none

/-- Checked write of `Block_t` element `i`. -/
def pset? (B : PBlock) : Nat → Nat → Option PBlock
  | 0, v => some ⟨v, B.w1, B.w2, B.w3⟩
  | 1, v => some ⟨B.w0, v, B.w2, B.w3⟩
  | 2, v => some ⟨B.w0, B.w1, v, B.w3⟩
  | 3, v => some ⟨B.w0, B.w1, B.w2, v⟩
  | _, _ => none

/-- One iteration of the `Portable::Mul128` loop at index `i`:
`Temp = uint8_t(Result[i] & 0x80); Result[i] = uint8_t(Result[i] << 1) | Carry;
Carry = Temp >> 7;`.  The loop runs `i = 15 .. 0` over the FOUR-element word
array, so the accesses at `i >= 4` are out of bounds (`none`). -/
def mul128Step (st : PBlock × Nat) (i : Nat) : Option (PBlock × Nat) := do
  let v ← pget? st.1 i
  let temp := (v &&& 0x80) % 256
  let r ← pset? st.1 i (((v <<< 1) % 256) ||| st.2)
  pure (r, temp >>> 7)

/-- `Portable::Mul128` (GF(2^128) multiply-by-alpha as commented, but indexing
`Result[15] .. Result[0]` on `std::array<uint32_t, 4>`). -/
def Mul128 (B : PBlock) : Option PBlock := do
  let st ← (List.range 16).foldlM (fun st j => mul128Step st (15 - j)) (B, 0)
  let m := if st.2 = 0 then 0 else 0x87
  let v ← pget? st.1 0
  pset? st.1 0 (v ^^^ m)

/-- `Portable::Encryptblock_XEX`: returns (new state, output); the state
update calls `Mul128`. -/
def Encryptblock_XEX (R : Nat) (St input : PBlock) (keys : List PBlock) :
    Option (PBlock × PBlock) :=
  let T := Encryptblock R (pxor input St) keys
  let Res := pxor T St
  (Mul128 St).map fun ns => (ns, Res)

def Decryptblock_XEX (R : Nat) (St input : PBlock) (keys : List PBlock) :
    Option (PBlock × PBlock) :=
  let T := Decryptblock R (pxor input St) keys
  let Res := pxor T St
  (Mul128 St).map fun ns => (ns, Res)

end Portable

namespace HW

def hBytesL (h : HBlock) : List Nat :=
  [h.b0, h.b1, h.b2, h.b3, h.b4, h.b5, h.b6, h.b7,
    h.b8, h.b9, h.b10, h.b11, h.b12, h.b13, h.b14, h.b15]

def hOfBytesL (l : List Nat) : HBlock :=
  ⟨l.getD 0 0, l.getD 1 0, l.getD 2 0, l.getD 3 0, l.getD 4 0, l.getD 5 0,
    l.getD 6 0, l.getD 7 0, l.getD 8 0, l.getD 9 0, l.getD 10 0, l.getD 11 0,
    l.getD 12 0, l.getD 13 0, l.getD 14 0, l.getD 15 0⟩

/-- `HW::Mul128` (ascending byte loop with the running carry; the signed
`m128i_i8` arithmetic reduces to plain byte operations modulo 256). -/
def Mul128 (h : HBlock) : HBlock :=
  let st := (List.range 16).foldl
    (fun (st : List Nat × Nat) i =>
      let v := st.1.getD i 0
      (st.1.set i (((v <<< 1) % 256) ||| st.2), (v &&& 0x80) >>> 7))
    (hBytesL h, 0)
  let m := if st.2 = 0 then 0 else 0x87
  hOfBytesL (st.1.set 0 (st.1.getD 0 0 ^^^ m))

def Encryptblock_ECB (R : Nat) (input : HBlock) (keys : List HBlock) : HBlock :=
  Encryptblock R input keys

def Decryptblock_ECB (R : Nat) (input : HBlock) (keys : List HBlock) : HBlock :=
  Decryptblock R input keys

def Encryptblock_CBC (R : Nat) (St input : HBlock) (keys : List HBlock) : HBlock × HBlock :=
  let T := Encryptblock R (hxor St input) keys
  (T, T)

def Decryptblock_CBC (R : Nat) (St input : HBlock) (keys : List HBlock) : HBlock × HBlock :=
  (input, hxor St (Decryptblock R input keys))

def Encryptblock_CFB (R : Nat) (St input : HBlock) (keys : List HBlock) : HBlock × HBlock :=
  let T := hxor input (Encryptblock R St keys)
  (T, T)

def Decryptblock_CFB (R : Nat) (St input : HBlock) (keys : List HBlock) : HBlock × HBlock :=
  (input, hxor input (Encryptblock R St keys))

/-- `HW::Encryptblock_CTR<Rounds, Countersize, Bigendian>` (the increment is
textually the same code as the portable one). -/
def Encryptblock_CTR (R cs : Nat) (be : Bool) (St input : HBlock) (keys : List HBlock) :
    Option (HBlock × HBlock) :=
  let T := hxor input (Encryptblock R St keys)
  (ctrInc cs be (hBytesL St)).map fun nc => (hOfBytesL nc, T)

end HW

/-! ## `AES::Modes` -/

namespace Modes

/-- `AES::Modes::MUL128` (the `Portable::Block_t` overload): `bit_cast` to
sixteen bytes, shift every byte left through the neighbour's top bit, with
the `0x87` reduction driven by byte 15's top bit. -/
def MUL128 (B : PBlock) : PBlock :=
  let bs := Portable.pToBytes B
  let carry := bs.getD 15 0 >>> 7
  let out := (List.range 16).map fun i =>
    if i = 0 then ((bs.getD 0 0 <<< 1) ^^^ carry * 0x87) % 256
    else ((bs.getD i 0 <<< 1) ||| (bs.getD (i - 1) 0 >>> 7)) % 256
  Portable.bytesToPBlock out

/-- Keysize/Rounds dispatch of `Portable::Keyexpansion` as instantiated by the
mode drivers (any other template instantiation leaves the `memcpy`-filled
schedule untouched). -/
def KeyexpansionP (ks R : Nat) (key : List Nat) : List PBlock :=
  if ks = 4 ∧ R = 10 then Portable.Keyexpansion128 key
  else if ks = 6 ∧ R = 12 then Portable.Keyexpansion192 key
  else if ks = 8 ∧ R = 14 then Portable.Keyexpansion256 key
  else (List.range (R + 1)).map fun j => Portable.bytesToPBlock ((key.drop (16 * j)).take 16)

/-- `cmp::memcpy(&Block, &Input[i], 16)`: sixteen bytes read at offset `i`;
reading past the end of the input is out of bounds (`none`). -/
def readBlock? (input : List Nat) (i : Nat) : Option PBlock :=
  if i + 16 ≤ input.length then some (Portable.bytesToPBlock ((input.drop i).take 16))
  else none

/-- Write sixteen block bytes into the buffer at offset `i`. -/
def writeBlock (buf : List Nat) (i : Nat) (B : PBlock) : List Nat :=
  buf.take i ++ Portable.pToBytes B ++ buf.drop (i + 16)

/-- `AES::Modes::Unpadded::Encrypt<AES_CBC>` (portable branch; the template
requires a block-aligned extent). -/
def UnpaddedEncryptCBC (ks R : Nat) (input key iv : List Nat) : Option (List Nat) :=
  if input.length % 16 ≠ 0 then none
  else
    let keys := KeyexpansionP ks R key
    let n := input.length / 16
    let st := (List.range n).foldl
      (fun (st : PBlock × List Nat) j =>
        let B := Portable.bytesToPBlock ((input.drop (16 * j)).take 16)
        let S := Portable.Encryptblock R (Portable.pxor st.1 B) keys
        (S, writeBlock st.2 (16 * j) S))
      (Portable.bytesToPBlock iv, List.replicate input.length 0)
    some st.2

/-- `AES::Modes::Unpadded::Decrypt<AES_CBC>` (portable branch).  Note: the
source derives the FORWARD schedule (`Keyexpansion`, not `INVKeyexpansion`)
and passes it to `Decryptblock`. -/
def UnpaddedDecryptCBC (ks R : Nat) (input key iv : List Nat) : Option (List Nat) :=
  if input.length % 16 ≠ 0 then none
  else
    let keys := KeyexpansionP ks R key
    let n := input.length / 16
    let st := (List.range n).foldl
      (fun (st : PBlock × List Nat) j =>
        let B := Portable.bytesToPBlock ((input.drop (16 * j)).take 16)
        let out := Portable.pxor st.1 (Portable.Decryptblock R B keys)
        (B, writeBlock st.2 (16 * j) out))
      (Portable.bytesToPBlock iv, List.replicate input.length 0)
    some st.2

/-- The final partial/padding block of the padded encrypts: a block of
`Padding`-valued bytes with the trailing `len mod 16` input bytes copied over
its front. -/
def lastPaddedBlock (input : List Nat) : PBlock :=
  let rem := input.length % 16
  let pad := 16 - rem
  Portable.bytesToPBlock (input.drop (input.length - rem) ++ List.replicate pad pad)

/-- `AES::Modes::Padded::Encrypt<AES_ECB>` (portable branch).  The regular
loop steps `i` by 16 while `i < len`, so for unaligned input its final
iteration reads past the end of the input (`none`); the padding block is then
encrypted into the tail of the `len + (16 - len mod 16)` byte buffer. -/
def PaddedEncryptECB (ks R : Nat) (input key : List Nat) : Option (List Nat) := do
  let len := input.length
  let padding := 16 - len % 16
  let keys := KeyexpansionP ks R key
  let buf0 := List.replicate (len + padding) 0
  let buf ← (List.range ((len + 15) / 16)).foldlM
    (fun buf j => (readBlock? input (16 * j)).map
      fun B => writeBlock buf (16 * j) (Portable.Encryptblock R B keys))
    buf0
  pure (writeBlock buf (len - len % 16) (Portable.Encryptblock R (lastPaddedBlock input) keys))

/-- `AES::Modes::Padded::Decrypt<AES_ECB>` (portable branch): asserts block
alignment, decrypts block-wise with the forward schedule, then executes
`Buffer.resize(Buffer.size() - Buffer.back())`; `Buffer.back()` on an empty
buffer and a size_t-underflowing resize are modelled as `none`. -/
def PaddedDecryptECB (ks R : Nat) (input key : List Nat) : Option (List Nat) := do
  if input.length % 16 ≠ 0 then none
  else
    let keys := KeyexpansionP ks R key
    let n := input.length / 16
    let buf := (List.range n).foldl
      (fun buf j =>
        let B := Portable.bytesToPBlock ((input.drop (16 * j)).take 16)
        writeBlock buf (16 * j) (Portable.Decryptblock R B keys))
      (List.replicate input.length 0)
    if h0 : buf.length = 0 then none
    else
      let k := buf.getLast (by simpa using h0)
      if k ≤ buf.length then some (buf.take (buf.length - k)) else none

/-- `AES::Modes::Padded::Decrypt<AES_CBC>` (portable branch). -/
def PaddedDecryptCBC (ks R : Nat) (input key iv : List Nat) : Option (List Nat) := do
  if input.length % 16 ≠ 0 then none
  else
    let keys := KeyexpansionP ks R key
    let n := input.length / 16
    let st := (List.range n).foldl
      (fun (st : PBlock × List Nat) j =>
        let B := Portable.bytesToPBlock ((input.drop (16 * j)).take 16)
        let out := Portable.pxor st.1 (Portable.Decryptblock R B keys)
        (B, writeBlock st.2 (16 * j) out))
      (Portable.bytesToPBlock iv, List.replicate input.length 0)
    let buf := st.2
    if h0 : buf.length = 0 then none
    else
      let k := buf.getLast (by simpa using h0)
      if k ≤ buf.length then some (buf.take (buf.length - k)) else none

/-- The XTS tweak state seeded from the sector id (`memcpy(&State[0],
SectorID)` on a little-endian host). -/
def xtsState0 (sector : Nat) : PBlock :=
  ⟨sector % 2 ^ 32, sector / 2 ^ 32 % 2 ^ 32, 0, 0⟩

/-- `for (; BlockID; BlockID--) State = Mul128(State);` -/
def mulLoop : Nat → PBlock → Option PBlock
  | 0, s => some s
  | n + 1, s => (Portable.Mul128 s).bind (mulLoop n)

/-- `AES::Modes::Padded::Encrypt<AES_XTS>` (portable branch).  There is no
last-block section: the allocated padding bytes of the buffer are never
written.  The per-block tweak update calls `Portable::Mul128`. -/
def PaddedEncryptXTS (ks R : Nat) (input key tweakkey : List Nat) (sector blockid : Nat) :
    Option (List Nat) := do
  let len := input.length
  let padding := 16 - len % 16
  let tweakkeys := KeyexpansionP ks R tweakkey
  let keys := KeyexpansionP ks R key
  let st0 ← mulLoop blockid (Portable.Encryptblock R (xtsState0 sector) tweakkeys)
  let st ← (List.range ((len + 15) / 16)).foldlM
    (fun (st : PBlock × List Nat) j => do
      let B ← readBlock? input (16 * j)
      let T := Portable.Encryptblock R (Portable.pxor B st.1) keys
      let buf := writeBlock st.2 (16 * j) (Portable.pxor T st.1)
      let ns ← Portable.Mul128 st.1
      pure (ns, buf))
    (st0, List.replicate (len + padding) 0)
  pure st.2

/-- `AES::Modes::Padded::Decrypt<AES_XTS>` (portable branch): no alignment
assertion and no padding removal; the per-block tweak update calls
`Portable::Mul128`. -/
def PaddedDecryptXTS (ks R : Nat) (input key tweakkey : List Nat) (sector blockid : Nat) :
    Option (List Nat) := do
  let len := input.length
  let tweakkeys := KeyexpansionP ks R tweakkey
  let keys := KeyexpansionP ks R key
  let st0 ← mulLoop blockid (Portable.Encryptblock R (xtsState0 sector) tweakkeys)
  let st ← (List.range ((len + 15) / 16)).foldlM
    (fun (st : PBlock × List Nat) j => do
      let B ← readBlock? input (16 * j)
      let T := Portable.Decryptblock R (Portable.pxor B st.1) keys
      let buf := writeBlock st.2 (16 * j) (Portable.pxor T st.1)
      let ns ← Portable.Mul128 st.1
      pure (ns, buf))
    (st0, List.replicate len 0)
  pure st.2

end Modes

/-- Bytewise GF(2^8) multiplication by 4 (what the word-level `Mul3`
actually computes per byte). -/
def gf4 (x : Nat) : Nat := Portable.Mul2b (Portable.Mul2b x)

/-- The `P` sequence of the S-box generator loop (`P = Mul3(P)` from 1). -/
def pIter : Nat → Nat
  | 0 => 1
  | k + 1 => Portable.Mul3b (pIter k)

/-- The `Q` sequence of the S-box generator loop (`Q = Div3(Q)` from 1). -/
def qIter : Nat → Nat
  | 0 => 1
  | k + 1 => Portable.Div3b (qIter k)

namespace Modes

/-- The block-wise decryption loop of `Padded::Decrypt<AES_ECB>` before the
`resize` (exactly the fold inside `PaddedDecryptECB`). -/
def blockDecryptECB (ks R : Nat) (input key : List Nat) : List Nat :=
  (List.range (input.length / 16)).foldl
    (fun buf j =>
      writeBlock buf (16 * j)
        (Portable.Decryptblock R (Portable.bytesToPBlock ((input.drop (16 * j)).take 16))
          (KeyexpansionP ks R key)))
    (List.replicate input.length 0)

/-- The block-wise decryption loop of `Padded::Decrypt<AES_CBC>` before the
`resize` (exactly the fold inside `PaddedDecryptCBC`). -/
def blockDecryptCBC (ks R : Nat) (input key iv : List Nat) : List Nat :=
  ((List.range (input.length / 16)).foldl
    (fun (st : PBlock × List Nat) j =>
      let B := Portable.bytesToPBlock ((input.drop (16 * j)).take 16)
      let out := Portable.pxor st.1 (Portable.Decryptblock R B (KeyexpansionP ks R key))
      (B, writeBlock st.2 (16 * j) out))
    (Portable.bytesToPBlock iv, List.replicate input.length 0)).2

end Modes

/-- The GF(2^128) multiply-by-alpha of the SPEC'S wording (for the C4
refinement comparison): shift the 128-bit value left one bit with byte 0 as
the low-order byte (the carry out of byte `i` entering byte `i + 1`), XORing
`0x87` into byte 0 exactly when the shifted-out top bit (of byte 15) was 1. -/
def mulAlphaSpec (bs : List Nat) : List Nat :=
  (List.range 16).map fun i =>
    if i = 0 then ((bs.getD 0 0 <<< 1) % 256) ^^^ (bs.getD 15 0 >>> 7) * 0x87
    else ((bs.getD i 0 <<< 1) % 256) ^^^ (bs.getD (i - 1) 0 >>> 7)

/-! ## Concrete data (unittest constants, FIPS-197 vectors, counterexamples) -/

/-- `Unittests::AESData`. -/
def AESData : List Nat := [0, 1, 2, 3, 4, 5, 6, 7, 8, 9, 10, 11, 12, 13, 14, 15]

/-- `Unittests::AESIV`. -/
def AESIV : List Nat :=
  [0x16, 0x15, 0x7e, 0x2b, 0xa6, 0xd2, 0xae, 0x28, 0x88, 0x15, 0xf7, 0xab, 0x3c, 0x4f,
    0xcf, 0x09]

/-- `Unittests::AES128Key`. -/
def AES128Key : List Nat :=
  [0x2b, 0x7e, 0x15, 0x16, 0x28, 0xae, 0xd2, 0xa6, 0xab, 0xf7, 0x15, 0x88, 0x09, 0xcf,
    0x4f, 0x3c]

/-- FIPS-197 Appendix C plaintext `00112233445566778899aabbccddeeff`. -/
def FIPSPT : List Nat :=
  [0x00, 0x11, 0x22, 0x33, 0x44, 0x55, 0x66, 0x77, 0x88, 0x99, 0xaa, 0xbb, 0xcc, 0xdd,
    0xee, 0xff]

/-- FIPS-197 Appendix C.1 key `000102...0f`. -/
def FIPSKey128 : List Nat :=
  [0x00, 0x01, 0x02, 0x03, 0x04, 0x05, 0x06, 0x07, 0x08, 0x09, 0x0a, 0x0b, 0x0c, 0x0d,
    0x0e, 0x0f]

/-- FIPS-197 Appendix C.2 key `000102...17`. -/
def FIPSKey192 : List Nat :=
  [0x00, 0x01, 0x02, 0x03, 0x04, 0x05, 0x06, 0x07, 0x08, 0x09, 0x0a, 0x0b, 0x0c, 0x0d,
    0x0e, 0x0f, 0x10, 0x11, 0x12, 0x13, 0x14, 0x15, 0x16, 0x17]

/-- FIPS-197 Appendix C.3 key `000102...1f`. -/
def FIPSKey256 : List Nat :=
  [0x00, 0x01, 0x02, 0x03, 0x04, 0x05, 0x06, 0x07, 0x08, 0x09, 0x0a, 0x0b, 0x0c, 0x0d,
    0x0e, 0x0f, 0x10, 0x11, 0x12, 0x13, 0x14, 0x15, 0x16, 0x17, 0x18, 0x19, 0x1a, 0x1b,
    0x1c, 0x1d, 0x1e, 0x1f]

/-- FIPS-197 Appendix C.1 ciphertext. -/
def FIPSCT128 : List Nat :=
  [0x69, 0xc4, 0xe0, 0xd8, 0x6a, 0x7b, 0x04, 0x30, 0xd8, 0xcd, 0xb7, 0x80, 0x70, 0xb4,
    0xc5, 0x5a]

/-- FIPS-197 Appendix C.2 ciphertext. -/
def FIPSCT192 : List Nat :=
  [0xdd, 0xa9, 0x7c, 0xa4, 0x86, 0x4c, 0xdf, 0xe0, 0x6e, 0xaf, 0x70, 0xa0, 0xec, 0x0d,
    0x71, 0x91]

/-- FIPS-197 Appendix C.3 ciphertext. -/
def FIPSCT256 : List Nat :=
  [0x8e, 0xa2, 0xb7, 0xca, 0x51, 0x67, 0x45, 0xbf, 0xea, 0xfc, 0x49, 0x90, 0x4b, 0x49,
    0x60, 0x89]

/-- The all-zero 16-byte key used for the padding counterexamples. -/
def zeroKey16 : List Nat := List.replicate 16 0

/-- A block-aligned ciphertext whose block-wise decryption under `zeroKey16`
(forward schedule, as the source passes it) ends in byte 0. -/
def padCiphertext0 : List Nat :=
  [213, 0, 0, 0, 0, 0, 0, 0, 0, 0, 0, 0, 0, 0, 0, 0]

/-- A block-aligned ciphertext whose block-wise decryption under `zeroKey16`
ends in byte 7. -/
def padCiphertext7 : List Nat :=
  [1, 0, 0, 0, 0, 0, 0, 0, 0, 0, 0, 0, 0, 0, 0, 0]

/-! ## Bit-level toolkit: splitting numbers at a `2^k` boundary -/

/-- Bits of `a + 2^k * x` below `k` come from `a`, the rest from `x`. -/
theorem testBit_split {k : Nat} (a x i : Nat) (ha : a < 2 ^ k) :
    (a + 2 ^ k * x).testBit i = if i < k then a.testBit i else x.testBit (i - k) := by
  have h := Nat.testBit_mul_pow_two_add x ha i
  simpa [Nat.add_comm] using h

theorem land_split {k : Nat} (a m x y : Nat) (ha : a < 2 ^ k) (hm : m < 2 ^ k) :
    (a + 2 ^ k * x) &&& (m + 2 ^ k * y) = (a &&& m) + 2 ^ k * (x &&& y) := by
  apply Nat.eq_of_testBit_eq
  intro i
  have hb : a &&& m < 2 ^ k := Nat.lt_of_le_of_lt Nat.and_le_left ha
  rw [Nat.testBit_land, testBit_split a x i ha, testBit_split m y i hm,
    testBit_split (a &&& m) (x &&& y) i hb, Nat.testBit_land]
  by_cases h : i < k <;> simp [h]

theorem xor_split {k : Nat} (a m x y : Nat) (ha : a < 2 ^ k) (hm : m < 2 ^ k) :
    (a + 2 ^ k * x) ^^^ (m + 2 ^ k * y) = (a ^^^ m) + 2 ^ k * (x ^^^ y) := by
  apply Nat.eq_of_testBit_eq
  intro i
  have hb : a ^^^ m < 2 ^ k := Nat.xor_lt_two_pow ha hm
  rw [Nat.testBit_xor, testBit_split a x i ha, testBit_split m y i hm,
    testBit_split (a ^^^ m) (x ^^^ y) i hb, Nat.testBit_xor]
  by_cases h : i < k <;> simp [h]

theorem lor_split_low {k : Nat} (a x : Nat) (ha : a < 2 ^ k) :
    a ||| 2 ^ k * x = a + 2 ^ k * x := by
  apply Nat.eq_of_testBit_eq
  intro i
  have h0 : (2 ^ k * x).testBit i = if i < k then false else x.testBit (i - k) := by
    have := testBit_split (k := k) 0 x i (Nat.pos_pow_of_pos k (by norm_num))
    simpa using this
  rw [Nat.testBit_lor, testBit_split a x i ha, h0]
  by_cases h : i < k <;> simp [h]
  have : a < 2 ^ i :=
    Nat.lt_of_lt_of_le ha (Nat.pow_le_pow_right (by norm_num) (Nat.le_of_not_lt h))
  simp [Nat.testBit_lt_two_pow this]

theorem ofBytes4_lt (a b c d : Nat) (ha : a < 256) (hb : b < 256) (hc : c < 256)
    (hd : d < 256) : ofBytes4 a b c d < 2 ^ 32 := by
  unfold ofBytes4; omega

/-- Every 32-bit word is the little-endian combination of its four bytes. -/
theorem word_decomp (w : Nat) (h : w < 2 ^ 32) :
    w = ofBytes4 (w % 256) (w / 256 % 256) (w / 65536 % 256) (w / 16777216 % 256) := by
  unfold ofBytes4; omega

theorem xor4 (a b c d a' b' c' d' : Nat)
    (ha : a < 256) (hb : b < 256) (hc : c < 256)
    (ha' : a' < 256) (hb' : b' < 256) (hc' : c' < 256) :
    ofBytes4 a b c d ^^^ ofBytes4 a' b' c' d' =
      ofBytes4 (a ^^^ a') (b ^^^ b') (c ^^^ c') (d ^^^ d') := by
  unfold ofBytes4
  rw [show (256 : Nat) = 2 ^ 8 from rfl]
  rw [xor_split a a' _ _ ha ha', xor_split b b' _ _ hb hb', xor_split c c' _ _ hc hc']

theorem land4 (a b c d a' b' c' d' : Nat)
    (ha : a < 256) (hb : b < 256) (hc : c < 256)
    (ha' : a' < 256) (hb' : b' < 256) (hc' : c' < 256) :
    ofBytes4 a b c d &&& ofBytes4 a' b' c' d' =
      ofBytes4 (a &&& a') (b &&& b') (c &&& c') (d &&& d') := by
  unfold ofBytes4
  rw [show (256 : Nat) = 2 ^ 8 from rfl]
  rw [land_split a a' _ _ ha ha', land_split b b' _ _ hb hb', land_split c c' _ _ hc hc']

/-! ## Auxiliary bitwise lemmas -/

theorem xor_left_comm (a b c : Nat) : a ^^^ (b ^^^ c) = b ^^^ (a ^^^ c) := by
  rw [← Nat.xor_assoc, Nat.xor_comm a b, Nat.xor_assoc]

theorem xor_shiftLeft_distrib (x y n : Nat) : (x ^^^ y) <<< n = x <<< n ^^^ y <<< n := by
  apply Nat.eq_of_testBit_eq
  intro i
  simp [Nat.testBit_shiftLeft, Nat.testBit_xor]
  by_cases h : i ≥ n <;> simp [h]

theorem xor_shiftRight_distrib (x y n : Nat) : (x ^^^ y) >>> n = x >>> n ^^^ y >>> n := by
  apply Nat.eq_of_testBit_eq
  intro i
  simp [Nat.testBit_shiftRight, Nat.testBit_xor]

theorem xor_mod_two_pow (x y n : Nat) : (x ^^^ y) % 2 ^ n = x % 2 ^ n ^^^ y % 2 ^ n := by
  apply Nat.eq_of_testBit_eq
  intro i
  simp [Nat.testBit_mod_two_pow, Nat.testBit_xor]
  by_cases h : i < n <;> simp [h]

theorem land_xor_distrib (x y m : Nat) : (x ^^^ y) &&& m = (x &&& m) ^^^ (y &&& m) := by
  apply Nat.eq_of_testBit_eq
  intro i
  simp [Nat.testBit_land, Nat.testBit_xor]
  by_cases h : m.testBit i <;> simp [h]

theorem shiftRight7_le_one {x : Nat} (hx : x < 256) : x >>> 7 ≤ 1 := by
  rw [Nat.shiftRight_eq_div_pow]
  omega

/-- `Mul2b` is linear over XOR on bytes. -/
theorem Mul2b_xor {x y : Nat} (hx : x < 256) (hy : y < 256) :
    Portable.Mul2b (x ^^^ y) = Portable.Mul2b x ^^^ Portable.Mul2b y := by
  unfold Portable.Mul2b
  rw [xor_shiftLeft_distrib, xor_shiftRight_distrib]
  have hs := shiftRight7_le_one hx
  have ht := shiftRight7_le_one hy
  have hmul : (x >>> 7 ^^^ y >>> 7) * 0x1B = (x >>> 7) * 0x1B ^^^ (y >>> 7) * 0x1B := by
    interval_cases h1 : x >>> 7 <;> interval_cases h2 : y >>> 7 <;> rfl
  rw [hmul, show (256 : Nat) = 2 ^ 8 from rfl, ← xor_mod_two_pow]
  congr 1
  ac_rfl

theorem Mul2b_lt (x : Nat) : Portable.Mul2b x < 256 := by
  unfold Portable.Mul2b
  omega

theorem gf4_lt (x : Nat) : gf4 x < 256 := Mul2b_lt _

theorem gf4_xor {x y : Nat} (hx : x < 256) (hy : y < 256) :
    gf4 (x ^^^ y) = gf4 x ^^^ gf4 y := by
  unfold gf4
  rw [Mul2b_xor hx hy, Mul2b_xor (Mul2b_lt x) (Mul2b_lt y)]

/-! ## Byte views of the word-level portable operations -/

theorem byte0_of {a b c d : Nat} (ha : a < 256) :
    Portable.byte0 (ofBytes4 a b c d) = a := by
  unfold Portable.byte0 ofBytes4; omega

theorem byte1_of {a b c d : Nat} (ha : a < 256) (hb : b < 256) :
    Portable.byte1 (ofBytes4 a b c d) = b := by
  unfold Portable.byte1 ofBytes4; omega

theorem byte2_of {a b c d : Nat} (ha : a < 256) (hb : b < 256) (hc : c < 256) :
    Portable.byte2 (ofBytes4 a b c d) = c := by
  unfold Portable.byte2 ofBytes4; omega

theorem byte3_of {a b c d : Nat} (ha : a < 256) (hb : b < 256) (hc : c < 256)
    (hd : d < 256) : Portable.byte3 (ofBytes4 a b c d) = d := by
  unfold Portable.byte3 ofBytes4; omega

theorem and127 (x : Nat) (hx : x < 256) : x &&& 0x7F = x % 128 :=
  (by decide : ∀ y : Fin 256, y.1 &&& 0x7F = y.1 % 128) ⟨x, hx⟩

theorem and128 (x : Nat) (hx : x < 256) : x &&& 0x80 = 128 * (x / 128) :=
  (by decide : ∀ y : Fin 256, y.1 &&& 0x80 = 128 * (y.1 / 128)) ⟨x, hx⟩

theorem and63 (x : Nat) (hx : x < 256) : x &&& 0x3F = x % 64 :=
  (by decide : ∀ y : Fin 256, y.1 &&& 0x3F = y.1 % 64) ⟨x, hx⟩

theorem and64 (x : Nat) (hx : x < 256) : x &&& 0x40 = 64 * (x / 64 % 2) :=
  (by decide : ∀ y : Fin 256, y.1 &&& 0x40 = 64 * (y.1 / 64 % 2)) ⟨x, hx⟩

theorem mul2b_shape (x : Nat) (hx : x < 256) :
    x % 128 * 2 ^^^ x / 128 * 27 = Portable.Mul2b x :=
  (by decide : ∀ y : Fin 256, y.1 % 128 * 2 ^^^ y.1 / 128 * 27 = Portable.Mul2b y.1) ⟨x, hx⟩

theorem gf4_shape (x : Nat) (hx : x < 256) :
    x % 64 * 4 ^^^ x / 128 * 54 ^^^ x / 64 % 2 * 27 = gf4 x :=
  (by decide :
    ∀ y : Fin 256, y.1 % 64 * 4 ^^^ y.1 / 128 * 54 ^^^ y.1 / 64 % 2 * 27 = gf4 y.1) ⟨x, hx⟩

theorem ofBytes4_mul (p q r s k : Nat) :
    ofBytes4 p q r s * k = ofBytes4 (p * k) (q * k) (r * k) (s * k) := by
  unfold ofBytes4; ring

/-- Byte view of the word-level `Mul2`. -/
theorem Mul2w_bytes {a b c d : Nat} (ha : a < 256) (hb : b < 256) (hc : c < 256)
    (hd : d < 256) :
    Portable.Mul2w (ofBytes4 a b c d) =
      ofBytes4 (Portable.Mul2b a) (Portable.Mul2b b) (Portable.Mul2b c) (Portable.Mul2b d) := by
  have h1 : ofBytes4 a b c d &&& 0x7F7F7F7F =
      ofBytes4 (a % 128) (b % 128) (c % 128) (d % 128) := by
    rw [show (0x7F7F7F7F : Nat) = ofBytes4 0x7F 0x7F 0x7F 0x7F from by norm_num [ofBytes4],
      land4 a b c d _ _ _ _ ha hb hc (by norm_num) (by norm_num) (by norm_num),
      and127 a ha, and127 b hb, and127 c hc, and127 d hd]
  have h2 : (ofBytes4 a b c d &&& 0x80808080) >>> 7 =
      ofBytes4 (a / 128) (b / 128) (c / 128) (d / 128) := by
    rw [show (0x80808080 : Nat) = ofBytes4 0x80 0x80 0x80 0x80 from by norm_num [ofBytes4],
      land4 a b c d _ _ _ _ ha hb hc (by norm_num) (by norm_num) (by norm_num),
      and128 a ha, and128 b hb, and128 c hc, and128 d hd, Nat.shiftRight_eq_div_pow]
    unfold ofBytes4
    omega
  rw [Portable.Mul2w, h1, h2, Nat.shiftLeft_eq, pow_one, ofBytes4_mul, ofBytes4_mul]
  rw [xor4 _ _ _ _ _ _ _ _ (by omega) (by omega) (by omega) (by omega) (by omega) (by omega)]
  rw [mul2b_shape a ha, mul2b_shape b hb, mul2b_shape c hc, mul2b_shape d hd]

/-- Byte view of the word-level `Mul3` (bytewise multiply-by-4). -/
theorem Mul3w_bytes {a b c d : Nat} (ha : a < 256) (hb : b < 256) (hc : c < 256)
    (hd : d < 256) :
    Portable.Mul3w (ofBytes4 a b c d) = ofBytes4 (gf4 a) (gf4 b) (gf4 c) (gf4 d) := by
  have h1 : (ofBytes4 a b c d &&& 0x3F3F3F3F) <<< 2 =
      ofBytes4 (a % 64 * 4) (b % 64 * 4) (c % 64 * 4) (d % 64 * 4) := by
    rw [show (0x3F3F3F3F : Nat) = ofBytes4 0x3F 0x3F 0x3F 0x3F from by norm_num [ofBytes4],
      land4 a b c d _ _ _ _ ha hb hc (by norm_num) (by norm_num) (by norm_num),
      and63 a ha, and63 b hb, and63 c hc, and63 d hd, Nat.shiftLeft_eq]
    unfold ofBytes4
    ring
  have h2 : (ofBytes4 a b c d &&& 0x80808080) >>> 7 =
      ofBytes4 (a / 128) (b / 128) (c / 128) (d / 128) := by
    rw [show (0x80808080 : Nat) = ofBytes4 0x80 0x80 0x80 0x80 from by norm_num [ofBytes4],
      land4 a b c d _ _ _ _ ha hb hc (by norm_num) (by norm_num) (by norm_num),
      and128 a ha, and128 b hb, and128 c hc, and128 d hd, Nat.shiftRight_eq_div_pow]
    unfold ofBytes4
    omega
  have h3 : (ofBytes4 a b c d &&& 0x40404040) >>> 6 =
      ofBytes4 (a / 64 % 2) (b / 64 % 2) (c / 64 % 2) (d / 64 % 2) := by
    rw [show (0x40404040 : Nat) = ofBytes4 0x40 0x40 0x40 0x40 from by norm_num [ofBytes4],
      land4 a b c d _ _ _ _ ha hb hc (by norm_num) (by norm_num) (by norm_num),
      and64 a ha, and64 b hb, and64 c hc, and64 d hd, Nat.shiftRight_eq_div_pow]
    unfold ofBytes4
    omega
  rw [Portable.Mul3w, h1, h2, h3, ofBytes4_mul, ofBytes4_mul]
  rw [xor4 _ _ _ _ _ _ _ _ (by omega) (by omega) (by omega) (by omega) (by omega) (by omega)]
  rw [xor4 _ _ _ _ _ _ _ _
    (Nat.xor_lt_two_pow (n := 8) (by omega) (by omega))
    (Nat.xor_lt_two_pow (n := 8) (by omega) (by omega))
    (Nat.xor_lt_two_pow (n := 8) (by omega) (by omega))
    (by omega) (by omega) (by omega)]
  rw [gf4_shape a ha, gf4_shape b hb, gf4_shape c hc, gf4_shape d hd]

/-- Byte view of `std::rotr(w, 16)`. -/
theorem rotr16_bytes {a b c d : Nat} (ha : a < 256) (hb : b < 256) (hc : c < 256)
    (hd : d < 256) :
    Portable.rotr32 (ofBytes4 a b c d) 16 = ofBytes4 c d a b := by
  unfold Portable.rotr32
  rw [Nat.shiftRight_eq_div_pow, Nat.shiftLeft_eq,
    show ofBytes4 a b c d / 2 ^ 16 = c + 256 * d from by unfold ofBytes4; omega,
    show ofBytes4 a b c d * 2 ^ 16 % 2 ^ 32 = 2 ^ 16 * (a + 256 * b) from by
      unfold ofBytes4; push_cast; omega,
    lor_split_low _ _ (by omega)]
  unfold ofBytes4; ring

/-- Byte view of `std::rotr(w, 8)`. -/
theorem rotr8_bytes {a b c d : Nat} (ha : a < 256) (hb : b < 256) (hc : c < 256)
    (hd : d < 256) :
    Portable.rotr32 (ofBytes4 a b c d) 8 = ofBytes4 b c d a := by
  unfold Portable.rotr32
  rw [Nat.shiftRight_eq_div_pow, Nat.shiftLeft_eq,
    show ofBytes4 a b c d / 2 ^ 8 = b + 256 * (c + 256 * d) from by unfold ofBytes4; omega,
    show ofBytes4 a b c d * 2 ^ 24 % 2 ^ 32 = 2 ^ 24 * a from by unfold ofBytes4; omega,
    lor_split_low _ _ (by omega)]
  unfold ofBytes4; ring

/-! ## The generated tables equal the published FIPS-197 tables -/

/-- The generated S-box is the published FIPS-197 table. -/
theorem SBoxL_eq_fips : Portable.SBoxL = HW.fipsSBox := by decide

/-- The generated inverse S-box is the published FIPS-197 inverse table. -/
theorem INVSBoxL_eq_fips : Portable.INVSBoxL = HW.fipsInvSBox := by
  unfold Portable.INVSBoxL
  rw [SBoxL_eq_fips]
  decide

theorem S_lt (b : Nat) : HW.S b < 256 := by
  by_cases h : b < 256
  · exact (by decide : ∀ y : Fin 256, HW.S y.1 < 256) ⟨b, h⟩
  · rw [HW.S, List.getD_eq_default]
    · norm_num
    · rw [show HW.fipsSBox.length = 256 from by decide]; omega

theorem Si_lt (b : Nat) : HW.Si b < 256 := by
  by_cases h : b < 256
  · exact (by decide : ∀ y : Fin 256, HW.Si y.1 < 256) ⟨b, h⟩
  · rw [HW.Si, List.getD_eq_default]
    · norm_num
    · rw [show HW.fipsInvSBox.length = 256 from by decide]; omega

theorem xtime_lt (b : Nat) : HW.xtime b < 256 := by
  unfold HW.xtime
  have h1 : 2 * b % 256 < 256 := Nat.mod_lt _ (by norm_num)
  by_cases h : b.testBit 7 <;> simp [h]
  · exact Nat.xor_lt_two_pow (n := 8) h1 (by norm_num)
  · exact h1

theorem gfmul3_lt (b : Nat) (hb : b < 256) : HW.gfmul3 b < 256 :=
  Nat.xor_lt_two_pow (n := 8) (xtime_lt b) hb

theorem gfmul9_lt (b : Nat) (hb : b < 256) : HW.gfmul9 b < 256 :=
  Nat.xor_lt_two_pow (n := 8) (xtime_lt _) hb

theorem gfmul11_lt (b : Nat) (hb : b < 256) : HW.gfmul11 b < 256 :=
  Nat.xor_lt_two_pow (n := 8) (Nat.xor_lt_two_pow (xtime_lt _) (xtime_lt _)) hb

theorem gfmul13_lt (b : Nat) (hb : b < 256) : HW.gfmul13 b < 256 :=
  Nat.xor_lt_two_pow (n := 8) (Nat.xor_lt_two_pow (xtime_lt _) (xtime_lt _)) hb

theorem gfmul14_lt (b : Nat) : HW.gfmul14 b < 256 :=
  Nat.xor_lt_two_pow (n := 8) (Nat.xor_lt_two_pow (xtime_lt _) (xtime_lt _)) (xtime_lt _)

/-- The source's byte-level `Mul2` agrees with FIPS `xtime` on bytes. -/
theorem mul2_eq_xtime (x : Nat) (hx : x < 256) : Portable.Mul2b x = HW.xtime x :=
  (by decide : ∀ y : Fin 256, Portable.Mul2b y.1 = HW.xtime y.1) ⟨x, hx⟩

/-- `xtime` is linear over XOR on bytes. -/
theorem xtime_xor {x y : Nat} (hx : x < 256) (hy : y < 256) :
    HW.xtime (x ^^^ y) = HW.xtime x ^^^ HW.xtime y := by
  rw [← mul2_eq_xtime _ (Nat.xor_lt_two_pow (n := 8) hx hy), ← mul2_eq_xtime x hx,
    ← mul2_eq_xtime y hy, Mul2b_xor hx hy]

/-! ## Word-level portable operations in terms of the FIPS model, per column -/

/-- `Portable::Substitute` on a word is the FIPS S-box per byte. -/
theorem SubstituteW_col {a b c d : Nat} (ha : a < 256) (hb : b < 256) (hc : c < 256)
    (hd : d < 256) :
    Portable.SubstituteW (ofBytes4 a b c d) =
      ofBytes4 (HW.S a) (HW.S b) (HW.S c) (HW.S d) := by
  unfold Portable.SubstituteW
  rw [byte0_of ha, byte1_of ha hb, byte2_of ha hb hc, byte3_of ha hb hc hd,
    SBoxL_eq_fips]
  rfl

theorem INVSubstituteW_col {a b c d : Nat} (ha : a < 256) (hb : b < 256) (hc : c < 256)
    (hd : d < 256) :
    Portable.INVSubstituteW (ofBytes4 a b c d) =
      ofBytes4 (HW.Si a) (HW.Si b) (HW.Si c) (HW.Si d) := by
  unfold Portable.INVSubstituteW
  rw [byte0_of ha, byte1_of ha hb, byte2_of ha hb hc, byte3_of ha hb hc hd,
    INVSBoxL_eq_fips]
  rfl

/-- `Portable::Mix` on a word is the FIPS MixColumns row formulas. -/
theorem Mixw_col {a b c d : Nat} (ha : a < 256) (hb : b < 256) (hc : c < 256)
    (hd : d < 256) :
    Portable.Mixw (ofBytes4 a b c d) =
      ofBytes4 (HW.xtime a ^^^ HW.gfmul3 b ^^^ c ^^^ d)
        (a ^^^ HW.xtime b ^^^ HW.gfmul3 c ^^^ d)
        (a ^^^ b ^^^ HW.xtime c ^^^ HW.gfmul3 d)
        (HW.gfmul3 a ^^^ b ^^^ c ^^^ HW.xtime d) := by
  have m2a := Mul2b_lt a
  have m2b := Mul2b_lt b
  have m2c := Mul2b_lt c
  have m2d := Mul2b_lt d
  unfold Portable.Mixw
  rw [Mul2w_bytes ha hb hc hd, rotr16_bytes ha hb hc hd,
    xor4 _ _ _ _ _ _ _ _ m2a m2b m2c hc hd ha,
    xor4 _ _ _ _ _ _ _ _ ha hb hc
      (Nat.xor_lt_two_pow (n := 8) m2a hc) (Nat.xor_lt_two_pow (n := 8) m2b hd)
      (Nat.xor_lt_two_pow (n := 8) m2c ha),
    rotr8_bytes
      (Nat.xor_lt_two_pow (n := 8) ha (Nat.xor_lt_two_pow m2a hc))
      (Nat.xor_lt_two_pow (n := 8) hb (Nat.xor_lt_two_pow m2b hd))
      (Nat.xor_lt_two_pow (n := 8) hc (Nat.xor_lt_two_pow m2c ha))
      (Nat.xor_lt_two_pow (n := 8) hd (Nat.xor_lt_two_pow m2d hb)),
    xor4 _ _ _ _ _ _ _ _
      (Nat.xor_lt_two_pow (n := 8) m2a hc) (Nat.xor_lt_two_pow (n := 8) m2b hd)
      (Nat.xor_lt_two_pow (n := 8) m2c ha)
      (Nat.xor_lt_two_pow (n := 8) hb (Nat.xor_lt_two_pow m2b hd))
      (Nat.xor_lt_two_pow (n := 8) hc (Nat.xor_lt_two_pow m2c ha))
      (Nat.xor_lt_two_pow (n := 8) hd (Nat.xor_lt_two_pow m2d hb))]
  have e0 : Portable.Mul2b a ^^^ c ^^^ (b ^^^ (Portable.Mul2b b ^^^ d)) =
      HW.xtime a ^^^ HW.gfmul3 b ^^^ c ^^^ d := by
    rw [HW.gfmul3, ← mul2_eq_xtime a ha, ← mul2_eq_xtime b hb]
    ac_rfl
  have e1 : Portable.Mul2b b ^^^ d ^^^ (c ^^^ (Portable.Mul2b c ^^^ a)) =
      a ^^^ HW.xtime b ^^^ HW.gfmul3 c ^^^ d := by
    rw [HW.gfmul3, ← mul2_eq_xtime b hb, ← mul2_eq_xtime c hc]
    ac_rfl
  have e2 : Portable.Mul2b c ^^^ a ^^^ (d ^^^ (Portable.Mul2b d ^^^ b)) =
      a ^^^ b ^^^ HW.xtime c ^^^ HW.gfmul3 d := by
    rw [HW.gfmul3, ← mul2_eq_xtime c hc, ← mul2_eq_xtime d hd]
    ac_rfl
  have e3 : Portable.Mul2b d ^^^ b ^^^ (a ^^^ (Portable.Mul2b a ^^^ c)) =
      HW.gfmul3 a ^^^ b ^^^ c ^^^ HW.xtime d := by
    rw [HW.gfmul3, ← mul2_eq_xtime d hd, ← mul2_eq_xtime a ha]
    ac_rfl
  rw [e0, e1, e2, e3]

theorem d14 (x : Nat) (hx : x < 256) :
    HW.xtime x ^^^ HW.xtime (gf4 x) ^^^ gf4 x = HW.gfmul14 x :=
  (by decide : ∀ y : Fin 256,
    HW.xtime y.1 ^^^ HW.xtime (gf4 y.1) ^^^ gf4 y.1 = HW.gfmul14 y.1) ⟨x, hx⟩

theorem d13 (x : Nat) (hx : x < 256) :
    HW.xtime (gf4 x) ^^^ x ^^^ gf4 x = HW.gfmul13 x :=
  (by decide : ∀ y : Fin 256,
    HW.xtime (gf4 y.1) ^^^ y.1 ^^^ gf4 y.1 = HW.gfmul13 y.1) ⟨x, hx⟩

theorem d11 (x : Nat) (hx : x < 256) :
    HW.xtime x ^^^ HW.xtime (gf4 x) ^^^ x = HW.gfmul11 x :=
  (by decide : ∀ y : Fin 256,
    HW.xtime y.1 ^^^ HW.xtime (gf4 y.1) ^^^ y.1 = HW.gfmul11 y.1) ⟨x, hx⟩

theorem d9 (x : Nat) (hx : x < 256) : HW.xtime (gf4 x) ^^^ x = HW.gfmul9 x :=
  (by decide : ∀ y : Fin 256, HW.xtime (gf4 y.1) ^^^ y.1 = HW.gfmul9 y.1) ⟨x, hx⟩

/-- The correction column of the portable `INVMix`, hit with `xtime` and
completed by its rotated partner, is the `{0e,.. ,0d}` pair of InvMixColumns
coefficients. -/
theorem invmix_pair1 {x y : Nat} (hx : x < 256) (hy : y < 256) :
    HW.xtime (x ^^^ gf4 x ^^^ gf4 y) ^^^ (y ^^^ gf4 y ^^^ gf4 x) =
      HW.gfmul14 x ^^^ HW.gfmul13 y := by
  rw [xtime_xor (Nat.xor_lt_two_pow (n := 8) hx (gf4_lt x)) (gf4_lt y),
    xtime_xor hx (gf4_lt x)]
  calc HW.xtime x ^^^ HW.xtime (gf4 x) ^^^ HW.xtime (gf4 y) ^^^ (y ^^^ gf4 y ^^^ gf4 x)
      = (HW.xtime x ^^^ HW.xtime (gf4 x) ^^^ gf4 x) ^^^
          (HW.xtime (gf4 y) ^^^ y ^^^ gf4 y) := by ac_rfl
    _ = HW.gfmul14 x ^^^ HW.gfmul13 y := by rw [d14 x hx, d13 y hy]

/-- As `invmix_pair1`, for the `gfmul3` position: the `{0b, 09}` pair. -/
theorem invmix_pair2 {x y : Nat} (hx : x < 256) (hy : y < 256) :
    HW.gfmul3 (x ^^^ gf4 x ^^^ gf4 y) ^^^ (y ^^^ gf4 y ^^^ gf4 x) =
      HW.gfmul11 x ^^^ HW.gfmul9 y := by
  rw [HW.gfmul3, xtime_xor (Nat.xor_lt_two_pow (n := 8) hx (gf4_lt x)) (gf4_lt y),
    xtime_xor hx (gf4_lt x)]
  calc HW.xtime x ^^^ HW.xtime (gf4 x) ^^^ HW.xtime (gf4 y) ^^^
        (x ^^^ gf4 x ^^^ gf4 y) ^^^ (y ^^^ gf4 y ^^^ gf4 x)
      = (HW.xtime x ^^^ HW.xtime (gf4 x) ^^^ x) ^^^ ((HW.xtime (gf4 y) ^^^ y) ^^^
          ((gf4 x ^^^ gf4 x) ^^^ (gf4 y ^^^ gf4 y))) := by ac_rfl
    _ = HW.gfmul11 x ^^^ HW.gfmul9 y := by
        rw [Nat.xor_self, Nat.xor_self, d11 x hx, d9 y hy]
        simp

/-- `Portable::INVMix` on a word is the FIPS InvMixColumns row formulas. -/
theorem INVMixw_col {a b c d : Nat} (ha : a < 256) (hb : b < 256) (hc : c < 256)
    (hd : d < 256) :
    Portable.INVMixw (ofBytes4 a b c d) =
      ofBytes4 (HW.gfmul14 a ^^^ HW.gfmul11 b ^^^ HW.gfmul13 c ^^^ HW.gfmul9 d)
        (HW.gfmul9 a ^^^ HW.gfmul14 b ^^^ HW.gfmul11 c ^^^ HW.gfmul13 d)
        (HW.gfmul13 a ^^^ HW.gfmul9 b ^^^ HW.gfmul14 c ^^^ HW.gfmul11 d)
        (HW.gfmul11 a ^^^ HW.gfmul13 b ^^^ HW.gfmul9 c ^^^ HW.gfmul14 d) := by
  have g4a := gf4_lt a
  have g4b := gf4_lt b
  have g4c := gf4_lt c
  have g4d := gf4_lt d
  have hA0 : a ^^^ gf4 a ^^^ gf4 c < 256 :=
    Nat.xor_lt_two_pow (n := 8) (Nat.xor_lt_two_pow ha g4a) g4c
  have hA1 : b ^^^ gf4 b ^^^ gf4 d < 256 :=
    Nat.xor_lt_two_pow (n := 8) (Nat.xor_lt_two_pow hb g4b) g4d
  have hA2 : c ^^^ gf4 c ^^^ gf4 a < 256 :=
    Nat.xor_lt_two_pow (n := 8) (Nat.xor_lt_two_pow hc g4c) g4a
  have hA3 : d ^^^ gf4 d ^^^ gf4 b < 256 :=
    Nat.xor_lt_two_pow (n := 8) (Nat.xor_lt_two_pow hd g4d) g4b
  rw [Portable.INVMixw, Mul3w_bytes ha hb hc hd, rotr16_bytes g4a g4b g4c g4d,
    xor4 _ _ _ _ _ _ _ _ ha hb hc g4a g4b g4c,
    xor4 _ _ _ _ _ _ _ _ (Nat.xor_lt_two_pow (n := 8) ha g4a)
      (Nat.xor_lt_two_pow (n := 8) hb g4b) (Nat.xor_lt_two_pow (n := 8) hc g4c)
      g4c g4d g4a,
    Mixw_col hA0 hA1 hA2 hA3]
  have e0 : HW.xtime (a ^^^ gf4 a ^^^ gf4 c) ^^^ HW.gfmul3 (b ^^^ gf4 b ^^^ gf4 d) ^^^
      (c ^^^ gf4 c ^^^ gf4 a) ^^^ (d ^^^ gf4 d ^^^ gf4 b) =
      HW.gfmul14 a ^^^ HW.gfmul11 b ^^^ HW.gfmul13 c ^^^ HW.gfmul9 d := by
    calc HW.xtime (a ^^^ gf4 a ^^^ gf4 c) ^^^ HW.gfmul3 (b ^^^ gf4 b ^^^ gf4 d) ^^^
        (c ^^^ gf4 c ^^^ gf4 a) ^^^ (d ^^^ gf4 d ^^^ gf4 b)
        = (HW.xtime (a ^^^ gf4 a ^^^ gf4 c) ^^^ (c ^^^ gf4 c ^^^ gf4 a)) ^^^
            (HW.gfmul3 (b ^^^ gf4 b ^^^ gf4 d) ^^^ (d ^^^ gf4 d ^^^ gf4 b)) := by ac_rfl
      _ = (HW.gfmul14 a ^^^ HW.gfmul13 c) ^^^ (HW.gfmul11 b ^^^ HW.gfmul9 d) := by
          rw [invmix_pair1 ha hc, invmix_pair2 hb hd]
      _ = HW.gfmul14 a ^^^ HW.gfmul11 b ^^^ HW.gfmul13 c ^^^ HW.gfmul9 d := by ac_rfl
  have e1 : (a ^^^ gf4 a ^^^ gf4 c) ^^^ HW.xtime (b ^^^ gf4 b ^^^ gf4 d) ^^^
      HW.gfmul3 (c ^^^ gf4 c ^^^ gf4 a) ^^^ (d ^^^ gf4 d ^^^ gf4 b) =
      HW.gfmul9 a ^^^ HW.gfmul14 b ^^^ HW.gfmul11 c ^^^ HW.gfmul13 d := by
    calc (a ^^^ gf4 a ^^^ gf4 c) ^^^ HW.xtime (b ^^^ gf4 b ^^^ gf4 d) ^^^
        HW.gfmul3 (c ^^^ gf4 c ^^^ gf4 a) ^^^ (d ^^^ gf4 d ^^^ gf4 b)
        = (HW.xtime (b ^^^ gf4 b ^^^ gf4 d) ^^^ (d ^^^ gf4 d ^^^ gf4 b)) ^^^
            (HW.gfmul3 (c ^^^ gf4 c ^^^ gf4 a) ^^^ (a ^^^ gf4 a ^^^ gf4 c)) := by ac_rfl
      _ = (HW.gfmul14 b ^^^ HW.gfmul13 d) ^^^ (HW.gfmul11 c ^^^ HW.gfmul9 a) := by
          rw [invmix_pair1 hb hd, invmix_pair2 hc ha]
      _ = HW.gfmul9 a ^^^ HW.gfmul14 b ^^^ HW.gfmul11 c ^^^ HW.gfmul13 d := by ac_rfl
  have e2 : (a ^^^ gf4 a ^^^ gf4 c) ^^^ (b ^^^ gf4 b ^^^ gf4 d) ^^^
      HW.xtime (c ^^^ gf4 c ^^^ gf4 a) ^^^ HW.gfmul3 (d ^^^ gf4 d ^^^ gf4 b) =
      HW.gfmul13 a ^^^ HW.gfmul9 b ^^^ HW.gfmul14 c ^^^ HW.gfmul11 d := by
    calc (a ^^^ gf4 a ^^^ gf4 c) ^^^ (b ^^^ gf4 b ^^^ gf4 d) ^^^
        HW.xtime (c ^^^ gf4 c ^^^ gf4 a) ^^^ HW.gfmul3 (d ^^^ gf4 d ^^^ gf4 b)
        = (HW.xtime (c ^^^ gf4 c ^^^ gf4 a) ^^^ (a ^^^ gf4 a ^^^ gf4 c)) ^^^
            (HW.gfmul3 (d ^^^ gf4 d ^^^ gf4 b) ^^^ (b ^^^ gf4 b ^^^ gf4 d)) := by ac_rfl
      _ = (HW.gfmul14 c ^^^ HW.gfmul13 a) ^^^ (HW.gfmul11 d ^^^ HW.gfmul9 b) := by
          rw [invmix_pair1 hc ha, invmix_pair2 hd hb]
      _ = HW.gfmul13 a ^^^ HW.gfmul9 b ^^^ HW.gfmul14 c ^^^ HW.gfmul11 d := by ac_rfl
  have e3 : HW.gfmul3 (a ^^^ gf4 a ^^^ gf4 c) ^^^ (b ^^^ gf4 b ^^^ gf4 d) ^^^
      (c ^^^ gf4 c ^^^ gf4 a) ^^^ HW.xtime (d ^^^ gf4 d ^^^ gf4 b) =
      HW.gfmul11 a ^^^ HW.gfmul13 b ^^^ HW.gfmul9 c ^^^ HW.gfmul14 d := by
    calc HW.gfmul3 (a ^^^ gf4 a ^^^ gf4 c) ^^^ (b ^^^ gf4 b ^^^ gf4 d) ^^^
        (c ^^^ gf4 c ^^^ gf4 a) ^^^ HW.xtime (d ^^^ gf4 d ^^^ gf4 b)
        = (HW.xtime (d ^^^ gf4 d ^^^ gf4 b) ^^^ (b ^^^ gf4 b ^^^ gf4 d)) ^^^
            (HW.gfmul3 (a ^^^ gf4 a ^^^ gf4 c) ^^^ (c ^^^ gf4 c ^^^ gf4 a)) := by ac_rfl
      _ = (HW.gfmul14 d ^^^ HW.gfmul13 b) ^^^ (HW.gfmul11 a ^^^ HW.gfmul9 c) := by
          rw [invmix_pair1 hd hb, invmix_pair2 ha hc]
      _ = HW.gfmul11 a ^^^ HW.gfmul13 b ^^^ HW.gfmul9 c ^^^ HW.gfmul14 d := by ac_rfl
  rw [e0, e1, e2, e3]

/-! ## Range preservation on the byte view -/

theorem hxor_bounded {x y : HBlock} (hx : HBounded x) (hy : HBounded y) :
    HBounded (HW.hxor x y) := by
  obtain ⟨x0, x1, x2, x3, x4, x5, x6, x7, x8, x9, x10, x11, x12, x13, x14, x15⟩ := hx
  obtain ⟨y0, y1, y2, y3, y4, y5, y6, y7, y8, y9, y10, y11, y12, y13, y14, y15⟩ := hy
  exact ⟨Nat.xor_lt_two_pow (n := 8) x0 y0, Nat.xor_lt_two_pow (n := 8) x1 y1,
    Nat.xor_lt_two_pow (n := 8) x2 y2, Nat.xor_lt_two_pow (n := 8) x3 y3,
    Nat.xor_lt_two_pow (n := 8) x4 y4, Nat.xor_lt_two_pow (n := 8) x5 y5,
    Nat.xor_lt_two_pow (n := 8) x6 y6, Nat.xor_lt_two_pow (n := 8) x7 y7,
    Nat.xor_lt_two_pow (n := 8) x8 y8, Nat.xor_lt_two_pow (n := 8) x9 y9,
    Nat.xor_lt_two_pow (n := 8) x10 y10, Nat.xor_lt_two_pow (n := 8) x11 y11,
    Nat.xor_lt_two_pow (n := 8) x12 y12, Nat.xor_lt_two_pow (n := 8) x13 y13,
    Nat.xor_lt_two_pow (n := 8) x14 y14, Nat.xor_lt_two_pow (n := 8) x15 y15⟩

theorem subBytes_bounded (h : HBlock) : HBounded (HW.subBytes h) :=
  ⟨S_lt _, S_lt _, S_lt _, S_lt _, S_lt _, S_lt _, S_lt _, S_lt _,
    S_lt _, S_lt _, S_lt _, S_lt _, S_lt _, S_lt _, S_lt _, S_lt _⟩

theorem invSubBytes_bounded (h : HBlock) : HBounded (HW.invSubBytes h) :=
  ⟨Si_lt _, Si_lt _, Si_lt _, Si_lt _, Si_lt _, Si_lt _, Si_lt _, Si_lt _,
    Si_lt _, Si_lt _, Si_lt _, Si_lt _, Si_lt _, Si_lt _, Si_lt _, Si_lt _⟩

theorem shiftRows_bounded {h : HBlock} (hb : HBounded h) : HBounded (HW.shiftRows h) := by
  obtain ⟨h0, h1, h2, h3, h4, h5, h6, h7, h8, h9, h10, h11, h12, h13, h14, h15⟩ := hb
  exact ⟨h0, h5, h10, h15, h4, h9, h14, h3, h8, h13, h2, h7, h12, h1, h6, h11⟩

theorem invShiftRows_bounded {h : HBlock} (hb : HBounded h) :
    HBounded (HW.invShiftRows h) := by
  obtain ⟨h0, h1, h2, h3, h4, h5, h6, h7, h8, h9, h10, h11, h12, h13, h14, h15⟩ := hb
  exact ⟨h0, h13, h10, h7, h4, h1, h14, h11, h8, h5, h2, h15, h12, h9, h6, h3⟩

theorem mixColumns_bounded {h : HBlock} (hb : HBounded h) :
    HBounded (HW.mixColumns h) := by
  obtain ⟨h0, h1, h2, h3, h4, h5, h6, h7, h8, h9, h10, h11, h12, h13, h14, h15⟩ := hb
  refine ⟨?_, ?_, ?_, ?_, ?_, ?_, ?_, ?_, ?_, ?_, ?_, ?_, ?_, ?_, ?_, ?_⟩ <;>
    repeat'
      first
        | assumption
        | exact xtime_lt _
        | apply gfmul3_lt
        | apply Nat.xor_lt_two_pow (n := 8)

theorem invMixColumns_bounded {h : HBlock} (hb : HBounded h) :
    HBounded (HW.invMixColumns h) := by
  obtain ⟨h0, h1, h2, h3, h4, h5, h6, h7, h8, h9, h10, h11, h12, h13, h14, h15⟩ := hb
  refine ⟨?_, ?_, ?_, ?_, ?_, ?_, ?_, ?_, ?_, ?_, ?_, ?_, ?_, ?_, ?_, ?_⟩ <;>
    repeat'
      first
        | assumption
        | exact gfmul14_lt _
        | apply gfmul9_lt
        | apply gfmul11_lt
        | apply gfmul13_lt
        | apply Nat.xor_lt_two_pow (n := 8)

theorem hzero_bounded : HBounded hzero := by decide

/-! ## Block-level bridges between the portable and hardware paths -/

theorem ofH_w0 (h : HBlock) : (ofH h).w0 = ofBytes4 h.b0 h.b1 h.b2 h.b3 := rfl

theorem pxor_bridge {x y : HBlock} (hx : HBounded x) (hy : HBounded y) :
    Portable.pxor (ofH x) (ofH y) = ofH (HW.hxor x y) := by
  obtain ⟨x0, x1, x2, x3, x4, x5, x6, x7, x8, x9, x10, x11, x12, x13, x14, x15⟩ := hx
  obtain ⟨y0, y1, y2, y3, y4, y5, y6, y7, y8, y9, y10, y11, y12, y13, y14, y15⟩ := hy
  simp only [Portable.pxor, ofH, HW.hxor]
  rw [xor4 _ _ _ _ _ _ _ _ x0 x1 x2 y0 y1 y2, xor4 _ _ _ _ _ _ _ _ x4 x5 x6 y4 y5 y6,
    xor4 _ _ _ _ _ _ _ _ x8 x9 x10 y8 y9 y10, xor4 _ _ _ _ _ _ _ _ x12 x13 x14 y12 y13 y14]

theorem Shift4_bridge (h : HBlock) : Portable.Shift4 (ofH h) = ofH (HW.pslldq4 h) := by
  unfold Portable.Shift4 ofH HW.pslldq4
  norm_num [ofBytes4]

theorem Shuffle4_FF_bridge (h : HBlock) :
    Portable.Shuffle4 (ofH h) 0xFF = ofH (HW.pshufd h 0xFF) := rfl

theorem Shuffle4_55_bridge (h : HBlock) :
    Portable.Shuffle4 (ofH h) 0x55 = ofH (HW.pshufd h 0x55) := rfl

theorem Shuffle4_AA_bridge (h : HBlock) :
    Portable.Shuffle4 (ofH h) 0xAA = ofH (HW.pshufd h 0xAA) := rfl

theorem SubstituteB_bridge {h : HBlock} (hb : HBounded h) :
    Portable.SubstituteB (ofH h) = ofH (HW.subBytes h) := by
  obtain ⟨h0, h1, h2, h3, h4, h5, h6, h7, h8, h9, h10, h11, h12, h13, h14, h15⟩ := hb
  unfold Portable.SubstituteB ofH HW.subBytes
  rw [SubstituteW_col h0 h1 h2 h3, SubstituteW_col h4 h5 h6 h7,
    SubstituteW_col h8 h9 h10 h11, SubstituteW_col h12 h13 h14 h15]

theorem INVSubstituteB_bridge {h : HBlock} (hb : HBounded h) :
    Portable.INVSubstituteB (ofH h) = ofH (HW.invSubBytes h) := by
  obtain ⟨h0, h1, h2, h3, h4, h5, h6, h7, h8, h9, h10, h11, h12, h13, h14, h15⟩ := hb
  unfold Portable.INVSubstituteB ofH HW.invSubBytes
  rw [INVSubstituteW_col h0 h1 h2 h3, INVSubstituteW_col h4 h5 h6 h7,
    INVSubstituteW_col h8 h9 h10 h11, INVSubstituteW_col h12 h13 h14 h15]

theorem Shiftrow_bridge {h : HBlock} (hb : HBounded h) :
    Portable.Shiftrow (ofH h) = ofH (HW.shiftRows h) := by
  obtain ⟨h0, h1, h2, h3, h4, h5, h6, h7, h8, h9, h10, h11, h12, h13, h14, h15⟩ := hb
  unfold Portable.Shiftrow ofH HW.shiftRows
  rw [byte0_of h0, byte0_of h4, byte0_of h8, byte0_of h12,
    byte1_of h0 h1, byte1_of h4 h5, byte1_of h8 h9, byte1_of h12 h13,
    byte2_of h0 h1 h2, byte2_of h4 h5 h6, byte2_of h8 h9 h10, byte2_of h12 h13 h14,
    byte3_of h0 h1 h2 h3, byte3_of h4 h5 h6 h7, byte3_of h8 h9 h10 h11,
    byte3_of h12 h13 h14 h15]

theorem INVShiftrow_bridge {h : HBlock} (hb : HBounded h) :
    Portable.INVShiftrow (ofH h) = ofH (HW.invShiftRows h) := by
  obtain ⟨h0, h1, h2, h3, h4, h5, h6, h7, h8, h9, h10, h11, h12, h13, h14, h15⟩ := hb
  unfold Portable.INVShiftrow ofH HW.invShiftRows
  rw [byte0_of h0, byte0_of h4, byte0_of h8, byte0_of h12,
    byte1_of h0 h1, byte1_of h4 h5, byte1_of h8 h9, byte1_of h12 h13,
    byte2_of h0 h1 h2, byte2_of h4 h5 h6, byte2_of h8 h9 h10, byte2_of h12 h13 h14,
    byte3_of h0 h1 h2 h3, byte3_of h4 h5 h6 h7, byte3_of h8 h9 h10 h11,
    byte3_of h12 h13 h14 h15]

theorem MixB_bridge {h : HBlock} (hb : HBounded h) :
    Portable.MixB (ofH h) = ofH (HW.mixColumns h) := by
  obtain ⟨h0, h1, h2, h3, h4, h5, h6, h7, h8, h9, h10, h11, h12, h13, h14, h15⟩ := hb
  unfold Portable.MixB ofH HW.mixColumns
  rw [Mixw_col h0 h1 h2 h3, Mixw_col h4 h5 h6 h7, Mixw_col h8 h9 h10 h11,
    Mixw_col h12 h13 h14 h15]

theorem INVMixB_bridge {h : HBlock} (hb : HBounded h) :
    Portable.INVMixB (ofH h) = ofH (HW.invMixColumns h) := by
  obtain ⟨h0, h1, h2, h3, h4, h5, h6, h7, h8, h9, h10, h11, h12, h13, h14, h15⟩ := hb
  unfold Portable.INVMixB ofH HW.invMixColumns
  rw [INVMixw_col h0 h1 h2 h3, INVMixw_col h4 h5 h6 h7, INVMixw_col h8 h9 h10 h11,
    INVMixw_col h12 h13 h14 h15]

/-! ## Key-expansion equivalence -/

theorem rcon_lt (i : Nat) : Portable.Roundconstants.getD i 0 < 256 := by
  by_cases h : i < 10
  · exact (by decide : ∀ j : Fin 10, Portable.Roundconstants.getD j.1 0 < 256) ⟨i, h⟩
  · rw [List.getD_eq_default]
    · norm_num
    · rw [show Portable.Roundconstants.length = 10 from rfl]
      omega

theorem xor_rcon {p q r s t : Nat} (hp : p < 256) (hq : q < 256) (hr : r < 256)
    (ht : t < 256) : ofBytes4 p q r s ^^^ t = ofBytes4 (p ^^^ t) q r s := by
  conv_lhs => rw [show t = ofBytes4 t 0 0 0 from by simp [ofBytes4]]
  rw [xor4 _ _ _ _ _ _ _ _ hp hq hr ht (by norm_num) (by norm_num)]
  simp

theorem lane_bounded {h : HBlock} (hb : HBounded h) (j : Nat) :
    (HW.lane h j).1 < 256 ∧ (HW.lane h j).2.1 < 256 ∧ (HW.lane h j).2.2.1 < 256 ∧
      (HW.lane h j).2.2.2 < 256 := by
  obtain ⟨h0, h1, h2, h3, h4, h5, h6, h7, h8, h9, h10, h11, h12, h13, h14, h15⟩ := hb
  rcases j with _ | _ | _ | j
  · exact ⟨h0, h1, h2, h3⟩
  · exact ⟨h4, h5, h6, h7⟩
  · exact ⟨h8, h9, h10, h11⟩
  · exact ⟨h12, h13, h14, h15⟩

theorem pshufd_bounded {h : HBlock} (hb : HBounded h) (c : Nat) :
    HBounded (HW.pshufd h c) := by
  unfold HW.pshufd
  exact ⟨(lane_bounded hb _).1, (lane_bounded hb _).2.1, (lane_bounded hb _).2.2.1,
    (lane_bounded hb _).2.2.2, (lane_bounded hb _).1, (lane_bounded hb _).2.1,
    (lane_bounded hb _).2.2.1, (lane_bounded hb _).2.2.2, (lane_bounded hb _).1,
    (lane_bounded hb _).2.1, (lane_bounded hb _).2.2.1, (lane_bounded hb _).2.2.2,
    (lane_bounded hb _).1, (lane_bounded hb _).2.1, (lane_bounded hb _).2.2.1,
    (lane_bounded hb _).2.2.2⟩

theorem pslldq4_bounded {h : HBlock} (hb : HBounded h) : HBounded (HW.pslldq4 h) := by
  obtain ⟨h0, h1, h2, h3, h4, h5, h6, h7, h8, h9, h10, h11, h12, h13, h14, h15⟩ := hb
  unfold HW.pslldq4
  exact ⟨by norm_num, by norm_num, by norm_num, by norm_num, h0, h1, h2, h3, h4, h5,
    h6, h7, h8, h9, h10, h11⟩

theorem shufpd0_bounded {a b : HBlock} (ha : HBounded a) (hb : HBounded b) :
    HBounded (HW.shufpd0 a b) := by
  obtain ⟨a0, a1, a2, a3, a4, a5, a6, a7, a8, a9, a10, a11, a12, a13, a14, a15⟩ := ha
  obtain ⟨b0, b1, b2, b3, b4, b5, b6, b7, b8, b9, b10, b11, b12, b13, b14, b15⟩ := hb
  exact ⟨a0, a1, a2, a3, a4, a5, a6, a7, b0, b1, b2, b3, b4, b5, b6, b7⟩

theorem shufpd1_bounded {a b : HBlock} (ha : HBounded a) (hb : HBounded b) :
    HBounded (HW.shufpd1 a b) := by
  obtain ⟨a0, a1, a2, a3, a4, a5, a6, a7, a8, a9, a10, a11, a12, a13, a14, a15⟩ := ha
  obtain ⟨b0, b1, b2, b3, b4, b5, b6, b7, b8, b9, b10, b11, b12, b13, b14, b15⟩ := hb
  exact ⟨a8, a9, a10, a11, a12, a13, a14, a15, b0, b1, b2, b3, b4, b5, b6, b7⟩

theorem aeskeygenassist_bounded {h : HBlock} (rcon : Nat) (hr : rcon < 256) :
    HBounded (HW.aeskeygenassist h rcon) :=
  ⟨S_lt _, S_lt _, S_lt _, S_lt _, Nat.xor_lt_two_pow (n := 8) (S_lt _) hr, S_lt _,
    S_lt _, S_lt _, S_lt _, S_lt _, S_lt _, S_lt _,
    Nat.xor_lt_two_pow (n := 8) (S_lt _) hr, S_lt _, S_lt _, S_lt _⟩

theorem Keygenassist_bounded (h : HBlock) (i : Nat) :
    HBounded (HW.Keygenassist h i) :=
  aeskeygenassist_bounded _ (rcon_lt i)

/-- The portable `Keygenassist` agrees with the modelled
`_mm_aeskeygenassist_si128` through the byte view. -/
theorem Keygenassist_bridge {h : HBlock} (hb : HBounded h) (i : Nat) :
    Portable.Keygenassist (ofH h) i = ofH (HW.Keygenassist h i) := by
  obtain ⟨h0, h1, h2, h3, h4, h5, h6, h7, h8, h9, h10, h11, h12, h13, h14, h15⟩ := hb
  have hr := rcon_lt i
  simp only [Portable.Keygenassist, HW.Keygenassist, HW.aeskeygenassist, ofH]
  rw [SubstituteW_col h4 h5 h6 h7, SubstituteW_col h12 h13 h14 h15,
    rotr8_bytes (S_lt _) (S_lt _) (S_lt _) (S_lt _),
    rotr8_bytes (S_lt _) (S_lt _) (S_lt _) (S_lt _),
    xor_rcon (S_lt _) (S_lt _) (S_lt _) hr, xor_rcon (S_lt _) (S_lt _) (S_lt _) hr]

theorem keyStep128_bounded (i : Nat) {cur : HBlock} (hc : HBounded cur) :
    HBounded (HW.keyStep128 i cur) := by
  unfold HW.keyStep128
  exact hxor_bounded (pshufd_bounded (Keygenassist_bounded cur i) _)
    (hxor_bounded (hxor_bounded (hxor_bounded hc (pslldq4_bounded hc))
        (pslldq4_bounded (hxor_bounded hc (pslldq4_bounded hc))))
      (pslldq4_bounded (hxor_bounded (hxor_bounded hc (pslldq4_bounded hc))
        (pslldq4_bounded (hxor_bounded hc (pslldq4_bounded hc))))))

theorem keyStep128_bridge (i : Nat) {cur : HBlock} (hc : HBounded cur) :
    Portable.keyStep128 i (ofH cur) = ofH (HW.keyStep128 i cur) := by
  simp only [Portable.keyStep128, HW.keyStep128]
  rw [Keygenassist_bridge hc i, Shuffle4_FF_bridge, Shift4_bridge,
    pxor_bridge hc (pslldq4_bounded hc), Shift4_bridge,
    pxor_bridge (hxor_bounded hc (pslldq4_bounded hc))
      (pslldq4_bounded (hxor_bounded hc (pslldq4_bounded hc))),
    Shift4_bridge,
    pxor_bridge (hxor_bounded (hxor_bounded hc (pslldq4_bounded hc))
        (pslldq4_bounded (hxor_bounded hc (pslldq4_bounded hc))))
      (pslldq4_bounded (hxor_bounded (hxor_bounded hc (pslldq4_bounded hc))
        (pslldq4_bounded (hxor_bounded hc (pslldq4_bounded hc))))),
    pxor_bridge (pshufd_bounded (Keygenassist_bounded cur i) _)
      (hxor_bounded (hxor_bounded (hxor_bounded hc (pslldq4_bounded hc))
          (pslldq4_bounded (hxor_bounded hc (pslldq4_bounded hc))))
        (pslldq4_bounded (hxor_bounded (hxor_bounded hc (pslldq4_bounded hc))
          (pslldq4_bounded (hxor_bounded hc (pslldq4_bounded hc))))))]

theorem keyGo128_bridge (fuel : Nat) : ∀ (i : Nat) {cur : HBlock}, HBounded cur →
    Portable.keyGo128 fuel i (ofH cur) = (HW.keyGo128 fuel i cur).map ofH := by
  induction fuel with
  | zero => intro i cur hc; rfl
  | succ fuel ih =>
    intro i cur hc
    simp only [Portable.keyGo128, HW.keyGo128, List.map]
    rw [keyStep128_bridge i hc, ih (i + 1) (keyStep128_bounded i hc)]

theorem keyGo128_bounded (fuel : Nat) : ∀ (i : Nat) {cur : HBlock}, HBounded cur →
    ∀ blk ∈ HW.keyGo128 fuel i cur, HBounded blk := by
  induction fuel with
  | zero =>
    intro i cur hc blk hblk
    simp only [HW.keyGo128, List.mem_singleton] at hblk
    exact hblk ▸ hc
  | succ fuel ih =>
    intro i cur hc blk hblk
    simp only [HW.keyGo128, List.mem_cons] at hblk
    rcases hblk with h | h
    · exact h ▸ hc
    · exact ih (i + 1) (keyStep128_bounded i hc) blk h

theorem chain1_bounded {x : HBlock} (hx : HBounded x) :
    HBounded (HW.hxor x (HW.pslldq4 x)) :=
  hxor_bounded hx (pslldq4_bounded hx)

theorem chain1_bridge {x : HBlock} (hx : HBounded x) :
    Portable.pxor (ofH x) (Portable.Shift4 (ofH x)) = ofH (HW.hxor x (HW.pslldq4 x)) := by
  rw [Shift4_bridge, pxor_bridge hx (pslldq4_bounded hx)]

theorem keyStep192_bounded (i : Nat) {prev cur : HBlock} (hp : HBounded prev)
    (hc : HBounded cur) :
    HBounded (HW.keyStep192 i prev cur).1 ∧ HBounded (HW.keyStep192 i prev cur).2 := by
  simp only [HW.keyStep192]
  have hT : HBounded (HW.hxor (HW.pshufd (HW.Keygenassist cur (i / 2)) 0x55)
      (HW.hxor (HW.hxor (HW.hxor prev (HW.pslldq4 prev))
          (HW.pslldq4 (HW.hxor prev (HW.pslldq4 prev))))
        (HW.pslldq4 (HW.hxor (HW.hxor prev (HW.pslldq4 prev))
          (HW.pslldq4 (HW.hxor prev (HW.pslldq4 prev))))))) :=
    hxor_bounded (pshufd_bounded (Keygenassist_bounded cur (i / 2)) _)
      (chain1_bounded (chain1_bounded (chain1_bounded hp)))
  have hU : HBounded (HW.hxor (HW.pshufd _ 0xFF) (HW.hxor cur (HW.pslldq4 cur))) :=
    hxor_bounded (pshufd_bounded hT _) (chain1_bounded hc)
  exact ⟨shufpd0_bounded hc hT, shufpd1_bounded hT hU⟩

theorem shufpd0_bridge (a b : HBlock) :
    PBlock.mk (ofH a).w0 (ofH a).w1 (ofH b).w0 (ofH b).w1 = ofH (HW.shufpd0 a b) := rfl

theorem shufpd1_bridge (a b : HBlock) :
    PBlock.mk (ofH a).w2 (ofH a).w3 (ofH b).w0 (ofH b).w1 = ofH (HW.shufpd1 a b) := rfl

theorem keyStep192_bridge (i : Nat) {prev cur : HBlock} (hp : HBounded prev)
    (hc : HBounded cur) :
    Portable.keyStep192 i (ofH prev) (ofH cur) =
      (ofH (HW.keyStep192 i prev cur).1, ofH (HW.keyStep192 i prev cur).2) := by
  simp only [Portable.keyStep192, HW.keyStep192]
  rw [Keygenassist_bridge hc (i / 2), Shuffle4_55_bridge,
    chain1_bridge hp, chain1_bridge (chain1_bounded hp),
    chain1_bridge (chain1_bounded (chain1_bounded hp)),
    pxor_bridge (pshufd_bounded (Keygenassist_bounded cur (i / 2)) _)
      (chain1_bounded (chain1_bounded (chain1_bounded hp))),
    Shuffle4_FF_bridge, chain1_bridge hc,
    pxor_bridge
      (pshufd_bounded (hxor_bounded (pshufd_bounded (Keygenassist_bounded cur (i / 2)) _)
        (chain1_bounded (chain1_bounded (chain1_bounded hp)))) _)
      (chain1_bounded hc),
    shufpd0_bridge, shufpd1_bridge]

theorem keyGo192_bridge (fuel : Nat) : ∀ (i : Nat) {prev cur : HBlock}, HBounded prev →
    HBounded cur →
    Portable.keyGo192 fuel i (ofH prev) (ofH cur) =
      (HW.keyGo192 fuel i prev cur).map ofH := by
  induction fuel with
  | zero => intro i prev cur hp hc; rfl
  | succ fuel ih =>
    intro i prev cur hp hc
    simp only [Portable.keyGo192, HW.keyGo192, List.map]
    rw [keyStep192_bridge i hp hc]
    exact congrArg _ (ih (i + 1) (keyStep192_bounded i hp hc).1 (keyStep192_bounded i hp hc).2)

theorem keyGo192_bounded (fuel : Nat) : ∀ (i : Nat) {prev cur : HBlock}, HBounded prev →
    HBounded cur → ∀ blk ∈ HW.keyGo192 fuel i prev cur, HBounded blk := by
  induction fuel with
  | zero =>
    intro i prev cur hp hc blk hblk
    simp only [HW.keyGo192, List.mem_singleton] at hblk
    exact hblk ▸ hc
  | succ fuel ih =>
    intro i prev cur hp hc blk hblk
    simp only [HW.keyGo192, List.mem_cons] at hblk
    rcases hblk with h | h
    · exact h ▸ (keyStep192_bounded i hp hc).1
    · exact ih (i + 1) (keyStep192_bounded i hp hc).1 (keyStep192_bounded i hp hc).2 blk h

theorem keyStep256_bounded (i : Nat) {prev cur : HBlock} (hp : HBounded prev)
    (hc : HBounded cur) : HBounded (HW.keyStep256 i prev cur) := by
  simp only [HW.keyStep256]
  by_cases h : i % 2 = 1
  · rw [if_pos h]
    exact hxor_bounded (pshufd_bounded (Keygenassist_bounded cur (i / 2)) _)
      (chain1_bounded (chain1_bounded (chain1_bounded hp)))
  · rw [if_neg h]
    exact hxor_bounded (pshufd_bounded (aeskeygenassist_bounded 0 (by norm_num)) _)
      (chain1_bounded (chain1_bounded (chain1_bounded hp)))

theorem aeskeygenassist0_bridge {h : HBlock} (hb : HBounded h) :
    Portable.Keygenassist (ofH h) 0 = ofH (HW.aeskeygenassist h 0x01) := by
  have h1 := Keygenassist_bridge hb 0
  rw [show HW.Keygenassist h 0 = HW.aeskeygenassist h 0x01 from rfl] at h1
  exact h1

theorem keyStep256_bridge (i : Nat) {prev cur : HBlock} (hp : HBounded prev)
    (hc : HBounded cur) :
    Portable.keyStep256 i (ofH prev) (ofH cur) = ofH (HW.keyStep256 i prev cur) := by
  simp only [Portable.keyStep256, HW.keyStep256]
  by_cases h : i % 2 = 1 <;> simp only [h, if_true, if_false, reduceIte] <;>
    rw [chain1_bridge hp, chain1_bridge (chain1_bounded hp),
      chain1_bridge (chain1_bounded (chain1_bounded hp))]
  · rw [Keygenassist_bridge hc (i / 2), Shuffle4_FF_bridge,
      pxor_bridge (pshufd_bounded (Keygenassist_bounded cur (i / 2)) _)
        (chain1_bounded (chain1_bounded (chain1_bounded hp)))]
  · rw [aeskeygenassist0_bridge hc, Shuffle4_AA_bridge,
      show HW.pshufd (HW.aeskeygenassist cur 0x01) 0xAA =
        HW.pshufd (HW.aeskeygenassist cur 0) 0xAA from rfl,
      pxor_bridge (pshufd_bounded (aeskeygenassist_bounded 0 (by norm_num)) _)
        (chain1_bounded (chain1_bounded (chain1_bounded hp)))]

theorem keyGo256_bridge (fuel : Nat) : ∀ (i : Nat) {prev cur : HBlock}, HBounded prev →
    HBounded cur →
    Portable.keyGo256 fuel i (ofH prev) (ofH cur) =
      (HW.keyGo256 fuel i prev cur).map ofH := by
  induction fuel with
  | zero => intro i prev cur hp hc; rfl
  | succ fuel ih =>
    intro i prev cur hp hc
    simp only [Portable.keyGo256, HW.keyGo256, List.map]
    rw [keyStep256_bridge i hp hc]
    exact congrArg _ (ih (i + 1) hc (keyStep256_bounded i hp hc))

theorem keyGo256_bounded (fuel : Nat) : ∀ (i : Nat) {prev cur : HBlock}, HBounded prev →
    HBounded cur → ∀ blk ∈ HW.keyGo256 fuel i prev cur, HBounded blk := by
  induction fuel with
  | zero => intro i prev cur _ _ blk hblk; simp [HW.keyGo256] at hblk
  | succ fuel ih =>
    intro i prev cur hp hc blk hblk
    simp only [HW.keyGo256, List.mem_cons] at hblk
    rcases hblk with h | h
    · exact h ▸ keyStep256_bounded i hp hc
    · exact ih (i + 1) hc (keyStep256_bounded i hp hc) blk h

theorem cons_map_ofH {a : HBlock} {l1 : List PBlock} {l2 : List HBlock}
    (h : l1 = l2.map ofH) : ofH a :: l1 = (a :: l2).map ofH := by
  rw [List.map_cons, h]

theorem getD_lt {l : List Nat} (hl : ∀ b ∈ l, b < 256) (i : Nat) : l.getD i 0 < 256 := by
  induction l generalizing i with
  | nil => simp [List.getD_nil]
  | cons a t ih =>
    cases i with
    | zero => simpa using hl a (by simp)
    | succ n =>
      simp only [List.getD_cons_succ]
      exact ih (fun b hb => hl b (by simp [hb])) n

theorem Keyexpansion128_bridge {key : List Nat} (hk : ∀ b ∈ key, b < 256) :
    Portable.Keyexpansion128 key = (HW.Keyexpansion128 key).map ofH := by
  have hb : HBounded ⟨key.getD 0 0, key.getD 1 0, key.getD 2 0, key.getD 3 0,
      key.getD 4 0, key.getD 5 0, key.getD 6 0, key.getD 7 0,
      key.getD 8 0, key.getD 9 0, key.getD 10 0, key.getD 11 0,
      key.getD 12 0, key.getD 13 0, key.getD 14 0, key.getD 15 0⟩ :=
    ⟨getD_lt hk 0, getD_lt hk 1, getD_lt hk 2, getD_lt hk 3, getD_lt hk 4,
      getD_lt hk 5, getD_lt hk 6, getD_lt hk 7, getD_lt hk 8, getD_lt hk 9,
      getD_lt hk 10, getD_lt hk 11, getD_lt hk 12, getD_lt hk 13,
      getD_lt hk 14, getD_lt hk 15⟩
  exact keyGo128_bridge 10 0 hb

theorem Keyexpansion128_bounded {key : List Nat} (hk : ∀ b ∈ key, b < 256) :
    ∀ blk ∈ HW.Keyexpansion128 key, HBounded blk := by
  have hb : HBounded ⟨key.getD 0 0, key.getD 1 0, key.getD 2 0, key.getD 3 0,
      key.getD 4 0, key.getD 5 0, key.getD 6 0, key.getD 7 0,
      key.getD 8 0, key.getD 9 0, key.getD 10 0, key.getD 11 0,
      key.getD 12 0, key.getD 13 0, key.getD 14 0, key.getD 15 0⟩ :=
    ⟨getD_lt hk 0, getD_lt hk 1, getD_lt hk 2, getD_lt hk 3, getD_lt hk 4,
      getD_lt hk 5, getD_lt hk 6, getD_lt hk 7, getD_lt hk 8, getD_lt hk 9,
      getD_lt hk 10, getD_lt hk 11, getD_lt hk 12, getD_lt hk 13,
      getD_lt hk 14, getD_lt hk 15⟩
  exact keyGo128_bounded 10 0 hb

theorem Keyexpansion192_bridge {key : List Nat} (hk : ∀ b ∈ key, b < 256) :
    Portable.Keyexpansion192 key = (HW.Keyexpansion192 key).map ofH := by
  have hb0 : HBounded ⟨key.getD 0 0, key.getD 1 0, key.getD 2 0, key.getD 3 0,
      key.getD 4 0, key.getD 5 0, key.getD 6 0, key.getD 7 0,
      key.getD 8 0, key.getD 9 0, key.getD 10 0, key.getD 11 0,
      key.getD 12 0, key.getD 13 0, key.getD 14 0, key.getD 15 0⟩ :=
    ⟨getD_lt hk 0, getD_lt hk 1, getD_lt hk 2, getD_lt hk 3, getD_lt hk 4,
      getD_lt hk 5, getD_lt hk 6, getD_lt hk 7, getD_lt hk 8, getD_lt hk 9,
      getD_lt hk 10, getD_lt hk 11, getD_lt hk 12, getD_lt hk 13,
      getD_lt hk 14, getD_lt hk 15⟩
  have hb1 : HBounded ⟨key.getD 16 0, key.getD 17 0, key.getD 18 0, key.getD 19 0,
      key.getD 20 0, key.getD 21 0, key.getD 22 0, key.getD 23 0,
      0, 0, 0, 0, 0, 0, 0, 0⟩ :=
    ⟨getD_lt hk 16, getD_lt hk 17, getD_lt hk 18, getD_lt hk 19, getD_lt hk 20,
      getD_lt hk 21, getD_lt hk 22, getD_lt hk 23, by norm_num, by norm_num,
      by norm_num, by norm_num, by norm_num, by norm_num, by norm_num, by norm_num⟩
  exact cons_map_ofH
    (a := ⟨key.getD 0 0, key.getD 1 0, key.getD 2 0, key.getD 3 0,
      key.getD 4 0, key.getD 5 0, key.getD 6 0, key.getD 7 0,
      key.getD 8 0, key.getD 9 0, key.getD 10 0, key.getD 11 0,
      key.getD 12 0, key.getD 13 0, key.getD 14 0, key.getD 15 0⟩)
    (keyGo192_bridge 11 1 hb0 hb1)

theorem Keyexpansion192_bounded {key : List Nat} (hk : ∀ b ∈ key, b < 256) :
    ∀ blk ∈ HW.Keyexpansion192 key, HBounded blk := by
  have hb0 : HBounded ⟨key.getD 0 0, key.getD 1 0, key.getD 2 0, key.getD 3 0,
      key.getD 4 0, key.getD 5 0, key.getD 6 0, key.getD 7 0,
      key.getD 8 0, key.getD 9 0, key.getD 10 0, key.getD 11 0,
      key.getD 12 0, key.getD 13 0, key.getD 14 0, key.getD 15 0⟩ :=
    ⟨getD_lt hk 0, getD_lt hk 1, getD_lt hk 2, getD_lt hk 3, getD_lt hk 4,
      getD_lt hk 5, getD_lt hk 6, getD_lt hk 7, getD_lt hk 8, getD_lt hk 9,
      getD_lt hk 10, getD_lt hk 11, getD_lt hk 12, getD_lt hk 13,
      getD_lt hk 14, getD_lt hk 15⟩
  have hb1 : HBounded ⟨key.getD 16 0, key.getD 17 0, key.getD 18 0, key.getD 19 0,
      key.getD 20 0, key.getD 21 0, key.getD 22 0, key.getD 23 0,
      0, 0, 0, 0, 0, 0, 0, 0⟩ :=
    ⟨getD_lt hk 16, getD_lt hk 17, getD_lt hk 18, getD_lt hk 19, getD_lt hk 20,
      getD_lt hk 21, getD_lt hk 22, getD_lt hk 23, by norm_num, by norm_num,
      by norm_num, by norm_num, by norm_num, by norm_num, by norm_num, by norm_num⟩
  intro blk hblk
  simp only [HW.Keyexpansion192, List.mem_cons] at hblk
  rcases hblk with h | h
  · exact h ▸ hb0
  · exact keyGo192_bounded 11 1 hb0 hb1 blk h

theorem Keyexpansion256_bridge {key : List Nat} (hk : ∀ b ∈ key, b < 256) :
    Portable.Keyexpansion256 key = (HW.Keyexpansion256 key).map ofH := by
  have hb0 : HBounded ⟨key.getD 0 0, key.getD 1 0, key.getD 2 0, key.getD 3 0,
      key.getD 4 0, key.getD 5 0, key.getD 6 0, key.getD 7 0,
      key.getD 8 0, key.getD 9 0, key.getD 10 0, key.getD 11 0,
      key.getD 12 0, key.getD 13 0, key.getD 14 0, key.getD 15 0⟩ :=
    ⟨getD_lt hk 0, getD_lt hk 1, getD_lt hk 2, getD_lt hk 3, getD_lt hk 4,
      getD_lt hk 5, getD_lt hk 6, getD_lt hk 7, getD_lt hk 8, getD_lt hk 9,
      getD_lt hk 10, getD_lt hk 11, getD_lt hk 12, getD_lt hk 13,
      getD_lt hk 14, getD_lt hk 15⟩
  have hb1 : HBounded ⟨key.getD 16 0, key.getD 17 0, key.getD 18 0, key.getD 19 0,
      key.getD 20 0, key.getD 21 0, key.getD 22 0, key.getD 23 0,
      key.getD 24 0, key.getD 25 0, key.getD 26 0, key.getD 27 0,
      key.getD 28 0, key.getD 29 0, key.getD 30 0, key.getD 31 0⟩ :=
    ⟨getD_lt hk 16, getD_lt hk 17, getD_lt hk 18, getD_lt hk 19, getD_lt hk 20,
      getD_lt hk 21, getD_lt hk 22, getD_lt hk 23, getD_lt hk 24, getD_lt hk 25,
      getD_lt hk 26, getD_lt hk 27, getD_lt hk 28, getD_lt hk 29,
      getD_lt hk 30, getD_lt hk 31⟩
  have h := keyGo256_bridge 13 1 hb0 hb1
  simp only [ofH] at h
  simp only [Portable.Keyexpansion256, HW.Keyexpansion256, List.map_cons, ofH]
  rw [h]

theorem Keyexpansion256_bounded {key : List Nat} (hk : ∀ b ∈ key, b < 256) :
    ∀ blk ∈ HW.Keyexpansion256 key, HBounded blk := by
  have hb0 : HBounded ⟨key.getD 0 0, key.getD 1 0, key.getD 2 0, key.getD 3 0,
      key.getD 4 0, key.getD 5 0, key.getD 6 0, key.getD 7 0,
      key.getD 8 0, key.getD 9 0, key.getD 10 0, key.getD 11 0,
      key.getD 12 0, key.getD 13 0, key.getD 14 0, key.getD 15 0⟩ :=
    ⟨getD_lt hk 0, getD_lt hk 1, getD_lt hk 2, getD_lt hk 3, getD_lt hk 4,
      getD_lt hk 5, getD_lt hk 6, getD_lt hk 7, getD_lt hk 8, getD_lt hk 9,
      getD_lt hk 10, getD_lt hk 11, getD_lt hk 12, getD_lt hk 13,
      getD_lt hk 14, getD_lt hk 15⟩
  have hb1 : HBounded ⟨key.getD 16 0, key.getD 17 0, key.getD 18 0, key.getD 19 0,
      key.getD 20 0, key.getD 21 0, key.getD 22 0, key.getD 23 0,
      key.getD 24 0, key.getD 25 0, key.getD 26 0, key.getD 27 0,
      key.getD 28 0, key.getD 29 0, key.getD 30 0, key.getD 31 0⟩ :=
    ⟨getD_lt hk 16, getD_lt hk 17, getD_lt hk 18, getD_lt hk 19, getD_lt hk 20,
      getD_lt hk 21, getD_lt hk 22, getD_lt hk 23, getD_lt hk 24, getD_lt hk 25,
      getD_lt hk 26, getD_lt hk 27, getD_lt hk 28, getD_lt hk 29,
      getD_lt hk 30, getD_lt hk 31⟩
  intro blk hblk
  simp only [HW.Keyexpansion256, List.mem_cons] at hblk
  rcases hblk with h | h | h
  · exact h ▸ hb0
  · exact h ▸ hb1
  · exact keyGo256_bounded 13 1 hb0 hb1 blk h

/-! ## Inverse-schedule and block-transform equivalence -/

theorem getD_HB {l : List HBlock} (hl : ∀ b ∈ l, HBounded b) (i : Nat) :
    HBounded (l.getD i hzero) := by
  induction l generalizing i with
  | nil => simpa [List.getD_nil] using hzero_bounded
  | cons a t ih =>
    cases i with
    | zero => simpa using hl a (by simp)
    | succ n =>
      simp only [List.getD_cons_succ]
      exact ih (fun b hb => hl b (by simp [hb])) n

theorem getD_map_ofH (l : List HBlock) (i : Nat) :
    (l.map ofH).getD i pzero = ofH (l.getD i hzero) := by
  induction l generalizing i with
  | nil => cases i <;> rfl
  | cons a t ih =>
    cases i with
    | zero => rfl
    | succ n => simpa only [List.map_cons, List.getD_cons_succ] using ih n

theorem aesimc_bounded {h : HBlock} (hb : HBounded h) : HBounded (HW.aesimc h) :=
  invMixColumns_bounded hb

theorem INVKeyexpansionOf_bridge {l : List HBlock} (hl : ∀ b ∈ l, HBounded b) (R : Nat) :
    Portable.INVKeyexpansionOf (l.map ofH) R = (HW.INVKeyexpansionOf l R).map ofH := by
  simp only [Portable.INVKeyexpansionOf, HW.INVKeyexpansionOf, List.map_map]
  refine List.map_congr_left fun i _ => ?_
  by_cases h0 : i = 0
  · rw [if_pos h0, Function.comp_apply, if_pos h0, getD_map_ofH]
  · by_cases hR : i = R
    · rw [if_neg h0, if_pos hR, Function.comp_apply, if_neg h0, if_pos hR, getD_map_ofH]
    · rw [if_neg h0, if_neg hR, Function.comp_apply, if_neg h0, if_neg hR, getD_map_ofH,
        INVMixB_bridge (getD_HB hl (R - i))]
      rfl

theorem INVKeyexpansionOf_bounded {l : List HBlock} (hl : ∀ b ∈ l, HBounded b) (R : Nat) :
    ∀ blk ∈ HW.INVKeyexpansionOf l R, HBounded blk := by
  intro blk hblk
  simp only [HW.INVKeyexpansionOf, List.mem_map] at hblk
  obtain ⟨i, _, rfl⟩ := hblk
  by_cases h0 : i = 0
  · rw [if_pos h0]; exact getD_HB hl R
  · by_cases hR : i = R
    · rw [if_neg h0, if_pos hR]; exact getD_HB hl 0
    · rw [if_neg h0, if_neg hR]; exact aesimc_bounded (getD_HB hl (R - i))

theorem INVKeyexpansion128_bridge {key : List Nat} (hk : ∀ b ∈ key, b < 256) :
    Portable.INVKeyexpansion128 key = (HW.INVKeyexpansion128 key).map ofH := by
  unfold Portable.INVKeyexpansion128 HW.INVKeyexpansion128
  rw [Keyexpansion128_bridge hk]
  exact INVKeyexpansionOf_bridge (Keyexpansion128_bounded hk) 10

theorem INVKeyexpansion128_bounded {key : List Nat} (hk : ∀ b ∈ key, b < 256) :
    ∀ blk ∈ HW.INVKeyexpansion128 key, HBounded blk :=
  INVKeyexpansionOf_bounded (Keyexpansion128_bounded hk) 10

theorem INVKeyexpansion192_bridge {key : List Nat} (hk : ∀ b ∈ key, b < 256) :
    Portable.INVKeyexpansion192 key = (HW.INVKeyexpansion192 key).map ofH := by
  unfold Portable.INVKeyexpansion192 HW.INVKeyexpansion192
  rw [Keyexpansion192_bridge hk]
  exact INVKeyexpansionOf_bridge (Keyexpansion192_bounded hk) 12

theorem INVKeyexpansion192_bounded {key : List Nat} (hk : ∀ b ∈ key, b < 256) :
    ∀ blk ∈ HW.INVKeyexpansion192 key, HBounded blk :=
  INVKeyexpansionOf_bounded (Keyexpansion192_bounded hk) 12

theorem INVKeyexpansion256_bridge {key : List Nat} (hk : ∀ b ∈ key, b < 256) :
    Portable.INVKeyexpansion256 key = (HW.INVKeyexpansion256 key).map ofH := by
  unfold Portable.INVKeyexpansion256 HW.INVKeyexpansion256
  rw [Keyexpansion256_bridge hk]
  exact INVKeyexpansionOf_bridge (Keyexpansion256_bounded hk) 14

theorem INVKeyexpansion256_bounded {key : List Nat} (hk : ∀ b ∈ key, b < 256) :
    ∀ blk ∈ HW.INVKeyexpansion256 key, HBounded blk :=
  INVKeyexpansionOf_bounded (Keyexpansion256_bounded hk) 14

theorem aesenc_bounded {s k : HBlock} (hs : HBounded s) (hk : HBounded k) :
    HBounded (HW.aesenc s k) :=
  hxor_bounded (mixColumns_bounded (subBytes_bounded (HW.shiftRows s))) hk

theorem aesdec_bounded {s k : HBlock} (hs : HBounded s) (hk : HBounded k) :
    HBounded (HW.aesdec s k) :=
  hxor_bounded (invMixColumns_bounded (invSubBytes_bounded (HW.invShiftRows s))) hk

theorem encRound_bridge {b k : HBlock} (hb : HBounded b) (hk : HBounded k) :
    Portable.pxor (Portable.MixB (Portable.SubstituteB (Portable.Shiftrow (ofH b)))) (ofH k)
      = ofH (HW.aesenc b k) := by
  rw [Shiftrow_bridge hb, SubstituteB_bridge (shiftRows_bounded hb),
    MixB_bridge (subBytes_bounded (HW.shiftRows b)),
    pxor_bridge (mixColumns_bounded (subBytes_bounded (HW.shiftRows b))) hk]
  rfl

theorem decRound_bridge {b k : HBlock} (hb : HBounded b) (hk : HBounded k) :
    Portable.pxor (Portable.INVMixB (Portable.INVSubstituteB (Portable.INVShiftrow (ofH b))))
      (ofH k) = ofH (HW.aesdec b k) := by
  rw [INVShiftrow_bridge hb, INVSubstituteB_bridge (invShiftRows_bounded hb),
    INVMixB_bridge (invSubBytes_bounded (HW.invShiftRows b)),
    pxor_bridge (invMixColumns_bounded (invSubBytes_bounded (HW.invShiftRows b))) hk]
  rfl

theorem foldl_enc_bounded (keys : List HBlock) (hkeys : ∀ b ∈ keys, HBounded b)
    (js : List Nat) : ∀ {b : HBlock}, HBounded b →
      HBounded (js.foldl (fun s j => HW.aesenc s (keys.getD (j + 1) hzero)) b) := by
  induction js with
  | nil => intro b hb; exact hb
  | cons j t ih =>
    intro b hb
    simp only [List.foldl_cons]
    exact ih (aesenc_bounded hb (getD_HB hkeys (j + 1)))

theorem foldl_enc_bridge (keys : List HBlock) (hkeys : ∀ b ∈ keys, HBounded b)
    (js : List Nat) : ∀ {b : HBlock}, HBounded b →
      js.foldl (fun s j => Portable.pxor (Portable.MixB (Portable.SubstituteB
          (Portable.Shiftrow s))) ((keys.map ofH).getD (j + 1) pzero)) (ofH b)
        = ofH (js.foldl (fun s j => HW.aesenc s (keys.getD (j + 1) hzero)) b) := by
  induction js with
  | nil => intro b _; rfl
  | cons j t ih =>
    intro b hb
    simp only [List.foldl_cons]
    rw [getD_map_ofH, encRound_bridge hb (getD_HB hkeys (j + 1))]
    exact ih (aesenc_bounded hb (getD_HB hkeys (j + 1)))

theorem foldl_dec_bounded (keys : List HBlock) (hkeys : ∀ b ∈ keys, HBounded b)
    (js : List Nat) : ∀ {b : HBlock}, HBounded b →
      HBounded (js.foldl (fun s j => HW.aesdec s (keys.getD (j + 1) hzero)) b) := by
  induction js with
  | nil => intro b hb; exact hb
  | cons j t ih =>
    intro b hb
    simp only [List.foldl_cons]
    exact ih (aesdec_bounded hb (getD_HB hkeys (j + 1)))

theorem foldl_dec_bridge (keys : List HBlock) (hkeys : ∀ b ∈ keys, HBounded b)
    (js : List Nat) : ∀ {b : HBlock}, HBounded b →
      js.foldl (fun s j => Portable.pxor (Portable.INVMixB (Portable.INVSubstituteB
          (Portable.INVShiftrow s))) ((keys.map ofH).getD (j + 1) pzero)) (ofH b)
        = ofH (js.foldl (fun s j => HW.aesdec s (keys.getD (j + 1) hzero)) b) := by
  induction js with
  | nil => intro b _; rfl
  | cons j t ih =>
    intro b hb
    simp only [List.foldl_cons]
    rw [getD_map_ofH, decRound_bridge hb (getD_HB hkeys (j + 1))]
    exact ih (aesdec_bounded hb (getD_HB hkeys (j + 1)))

theorem Encryptblock_bridge (R : Nat) {input : HBlock} (hin : HBounded input)
    {keys : List HBlock} (hkeys : ∀ b ∈ keys, HBounded b) :
    Portable.Encryptblock R (ofH input) (keys.map ofH) = ofH (HW.Encryptblock R input keys) := by
  simp only [Portable.Encryptblock, HW.Encryptblock]
  have h0 : HBounded (HW.hxor input (keys.getD 0 hzero)) :=
    hxor_bounded hin (getD_HB hkeys 0)
  have hmid : HBounded ((List.range (R - 1)).foldl
      (fun s j => HW.aesenc s (keys.getD (j + 1) hzero)) (HW.hxor input (keys.getD 0 hzero))) :=
    foldl_enc_bounded keys hkeys (List.range (R - 1)) h0
  rw [getD_map_ofH, pxor_bridge hin (getD_HB hkeys 0),
    foldl_enc_bridge keys hkeys (List.range (R - 1)) h0,
    Shiftrow_bridge hmid, SubstituteB_bridge (shiftRows_bounded hmid), getD_map_ofH,
    pxor_bridge (subBytes_bounded _) (getD_HB hkeys R)]
  rfl

theorem Encryptblock_bounded (R : Nat) {input : HBlock} (hin : HBounded input)
    {keys : List HBlock} (hkeys : ∀ b ∈ keys, HBounded b) :
    HBounded (HW.Encryptblock R input keys) := by
  simp only [HW.Encryptblock]
  exact hxor_bounded (subBytes_bounded _) (getD_HB hkeys R)

theorem Decryptblock_bridge (R : Nat) {input : HBlock} (hin : HBounded input)
    {keys : List HBlock} (hkeys : ∀ b ∈ keys, HBounded b) :
    Portable.Decryptblock R (ofH input) (keys.map ofH) = ofH (HW.Decryptblock R input keys) := by
  simp only [Portable.Decryptblock, HW.Decryptblock]
  have h0 : HBounded (HW.hxor input (keys.getD 0 hzero)) :=
    hxor_bounded hin (getD_HB hkeys 0)
  have hmid : HBounded ((List.range (R - 1)).foldl
      (fun s j => HW.aesdec s (keys.getD (j + 1) hzero)) (HW.hxor input (keys.getD 0 hzero))) :=
    foldl_dec_bounded keys hkeys (List.range (R - 1)) h0
  rw [getD_map_ofH, pxor_bridge hin (getD_HB hkeys 0),
    foldl_dec_bridge keys hkeys (List.range (R - 1)) h0,
    INVShiftrow_bridge hmid, INVSubstituteB_bridge (invShiftRows_bounded hmid), getD_map_ofH,
    pxor_bridge (invSubBytes_bounded _) (getD_HB hkeys R)]
  rfl

theorem Decryptblock_bounded (R : Nat) {input : HBlock} (hin : HBounded input)
    {keys : List HBlock} (hkeys : ∀ b ∈ keys, HBounded b) :
    HBounded (HW.Decryptblock R input keys) := by
  simp only [HW.Decryptblock]
  exact hxor_bounded (invSubBytes_bounded _) (getD_HB hkeys R)

/-! ## Mode-helper equivalence -/

theorem pToBytes_ofH {h : HBlock} (hb : HBounded h) :
    Portable.pToBytes (ofH h) = HW.hBytesL h := by
  obtain ⟨h0, h1, h2, h3, h4, h5, h6, h7, h8, h9, h10, h11, h12, h13, h14, h15⟩ := hb
  unfold Portable.pToBytes ofH HW.hBytesL
  rw [byte0_of h0, byte0_of h4, byte0_of h8, byte0_of h12,
    byte1_of h0 h1, byte1_of h4 h5, byte1_of h8 h9, byte1_of h12 h13,
    byte2_of h0 h1 h2, byte2_of h4 h5 h6, byte2_of h8 h9 h10, byte2_of h12 h13 h14,
    byte3_of h0 h1 h2 h3, byte3_of h4 h5 h6 h7, byte3_of h8 h9 h10 h11,
    byte3_of h12 h13 h14 h15]

theorem bytesToPBlock_ofH (l : List Nat) :
    Portable.bytesToPBlock l = ofH (HW.hOfBytesL l) := rfl

theorem Encryptblock_ECB_bridge (R : Nat) {input : HBlock} (hin : HBounded input)
    {keys : List HBlock} (hkeys : ∀ b ∈ keys, HBounded b) :
    Portable.Encryptblock_ECB R (ofH input) (keys.map ofH)
      = ofH (HW.Encryptblock_ECB R input keys) :=
  Encryptblock_bridge R hin hkeys

theorem Decryptblock_ECB_bridge (R : Nat) {input : HBlock} (hin : HBounded input)
    {keys : List HBlock} (hkeys : ∀ b ∈ keys, HBounded b) :
    Portable.Decryptblock_ECB R (ofH input) (keys.map ofH)
      = ofH (HW.Decryptblock_ECB R input keys) :=
  Decryptblock_bridge R hin hkeys

theorem Encryptblock_CBC_bridge (R : Nat) {St input : HBlock} (hSt : HBounded St)
    (hin : HBounded input) {keys : List HBlock} (hkeys : ∀ b ∈ keys, HBounded b) :
    Portable.Encryptblock_CBC R (ofH St) (ofH input) (keys.map ofH)
      = (ofH (HW.Encryptblock_CBC R St input keys).1,
          ofH (HW.Encryptblock_CBC R St input keys).2) := by
  simp only [Portable.Encryptblock_CBC, HW.Encryptblock_CBC]
  rw [pxor_bridge hSt hin, Encryptblock_bridge R (hxor_bounded hSt hin) hkeys]

theorem Decryptblock_CBC_bridge (R : Nat) {St input : HBlock} (hSt : HBounded St)
    (hin : HBounded input) {keys : List HBlock} (hkeys : ∀ b ∈ keys, HBounded b) :
    Portable.Decryptblock_CBC R (ofH St) (ofH input) (keys.map ofH)
      = (ofH (HW.Decryptblock_CBC R St input keys).1,
          ofH (HW.Decryptblock_CBC R St input keys).2) := by
  simp only [Portable.Decryptblock_CBC, HW.Decryptblock_CBC]
  rw [Decryptblock_bridge R hin hkeys,
    pxor_bridge hSt (Decryptblock_bounded R hin hkeys)]

theorem Encryptblock_CFB_bridge (R : Nat) {St input : HBlock} (hSt : HBounded St)
    (hin : HBounded input) {keys : List HBlock} (hkeys : ∀ b ∈ keys, HBounded b) :
    Portable.Encryptblock_CFB R (ofH St) (ofH input) (keys.map ofH)
      = (ofH (HW.Encryptblock_CFB R St input keys).1,
          ofH (HW.Encryptblock_CFB R St input keys).2) := by
  simp only [Portable.Encryptblock_CFB, HW.Encryptblock_CFB]
  rw [Encryptblock_bridge R hSt hkeys,
    pxor_bridge hin (Encryptblock_bounded R hSt hkeys)]

theorem Decryptblock_CFB_bridge (R : Nat) {St input : HBlock} (hSt : HBounded St)
    (hin : HBounded input) {keys : List HBlock} (hkeys : ∀ b ∈ keys, HBounded b) :
    Portable.Decryptblock_CFB R (ofH St) (ofH input) (keys.map ofH)
      = (ofH (HW.Decryptblock_CFB R St input keys).1,
          ofH (HW.Decryptblock_CFB R St input keys).2) := by
  simp only [Portable.Decryptblock_CFB, HW.Decryptblock_CFB]
  rw [Encryptblock_bridge R hSt hkeys,
    pxor_bridge hin (Encryptblock_bounded R hSt hkeys)]

theorem Encryptblock_CTR_bridge (R cs : Nat) (be : Bool) {St input : HBlock}
    (hSt : HBounded St) (hin : HBounded input) {keys : List HBlock}
    (hkeys : ∀ b ∈ keys, HBounded b) :
    Portable.Encryptblock_CTR R cs be (ofH St) (ofH input) (keys.map ofH)
      = (HW.Encryptblock_CTR R cs be St input keys).map fun p => (ofH p.1, ofH p.2) := by
  simp only [Portable.Encryptblock_CTR, HW.Encryptblock_CTR]
  rw [Encryptblock_bridge R hSt hkeys,
    pxor_bridge hin (Encryptblock_bounded R hSt hkeys), pToBytes_ofH hSt,
    Option.map_map]
  rfl

/-! ## Mix / INVMix are mutually inverse (C9 support) -/

theorem gfmul3_xor {x y : Nat} (hx : x < 256) (hy : y < 256) :
    HW.gfmul3 (x ^^^ y) = HW.gfmul3 x ^^^ HW.gfmul3 y := by
  unfold HW.gfmul3
  rw [xtime_xor hx hy]
  ac_rfl

theorem gfmul9_xor {x y : Nat} (hx : x < 256) (hy : y < 256) :
    HW.gfmul9 (x ^^^ y) = HW.gfmul9 x ^^^ HW.gfmul9 y := by
  unfold HW.gfmul9
  rw [xtime_xor hx hy, xtime_xor (xtime_lt x) (xtime_lt y),
    xtime_xor (xtime_lt _) (xtime_lt _)]
  ac_rfl

theorem gfmul11_xor {x y : Nat} (hx : x < 256) (hy : y < 256) :
    HW.gfmul11 (x ^^^ y) = HW.gfmul11 x ^^^ HW.gfmul11 y := by
  unfold HW.gfmul11
  rw [xtime_xor hx hy, xtime_xor (xtime_lt x) (xtime_lt y),
    xtime_xor (xtime_lt _) (xtime_lt _)]
  ac_rfl

theorem gfmul13_xor {x y : Nat} (hx : x < 256) (hy : y < 256) :
    HW.gfmul13 (x ^^^ y) = HW.gfmul13 x ^^^ HW.gfmul13 y := by
  unfold HW.gfmul13
  rw [xtime_xor hx hy, xtime_xor (xtime_lt x) (xtime_lt y),
    xtime_xor (xtime_lt _) (xtime_lt _)]
  ac_rfl

theorem gfmul14_xor {x y : Nat} (hx : x < 256) (hy : y < 256) :
    HW.gfmul14 (x ^^^ y) = HW.gfmul14 x ^^^ HW.gfmul14 y := by
  unfold HW.gfmul14
  rw [xtime_xor hx hy, xtime_xor (xtime_lt x) (xtime_lt y),
    xtime_xor (xtime_lt _) (xtime_lt _)]
  ac_rfl

theorem qinv0 (x : Nat) (hx : x < 256) :
    HW.gfmul14 (HW.xtime x) ^^^ HW.gfmul11 x ^^^ HW.gfmul13 x ^^^
      HW.gfmul9 (HW.gfmul3 x) = x :=
  (by decide : ∀ y : Fin 256, HW.gfmul14 (HW.xtime y.1) ^^^ HW.gfmul11 y.1 ^^^
    HW.gfmul13 y.1 ^^^ HW.gfmul9 (HW.gfmul3 y.1) = y.1) ⟨x, hx⟩

theorem qinv1 (x : Nat) (hx : x < 256) :
    HW.gfmul14 (HW.gfmul3 x) ^^^ HW.gfmul11 (HW.xtime x) ^^^ HW.gfmul13 x ^^^
      HW.gfmul9 x = 0 :=
  (by decide : ∀ y : Fin 256, HW.gfmul14 (HW.gfmul3 y.1) ^^^ HW.gfmul11 (HW.xtime y.1) ^^^
    HW.gfmul13 y.1 ^^^ HW.gfmul9 y.1 = 0) ⟨x, hx⟩

theorem qinv2 (x : Nat) (hx : x < 256) :
    HW.gfmul14 x ^^^ HW.gfmul11 (HW.gfmul3 x) ^^^ HW.gfmul13 (HW.xtime x) ^^^
      HW.gfmul9 x = 0 :=
  (by decide : ∀ y : Fin 256, HW.gfmul14 y.1 ^^^ HW.gfmul11 (HW.gfmul3 y.1) ^^^
    HW.gfmul13 (HW.xtime y.1) ^^^ HW.gfmul9 y.1 = 0) ⟨x, hx⟩

theorem qinv3 (x : Nat) (hx : x < 256) :
    HW.gfmul14 x ^^^ HW.gfmul11 x ^^^ HW.gfmul13 (HW.gfmul3 x) ^^^
      HW.gfmul9 (HW.xtime x) = 0 :=
  (by decide : ∀ y : Fin 256, HW.gfmul14 y.1 ^^^ HW.gfmul11 y.1 ^^^
    HW.gfmul13 (HW.gfmul3 y.1) ^^^ HW.gfmul9 (HW.xtime y.1) = 0) ⟨x, hx⟩

theorem qfwd0 (x : Nat) (hx : x < 256) :
    HW.xtime (HW.gfmul14 x) ^^^ HW.gfmul3 (HW.gfmul9 x) ^^^ HW.gfmul13 x ^^^
      HW.gfmul11 x = x :=
  (by decide : ∀ y : Fin 256, HW.xtime (HW.gfmul14 y.1) ^^^ HW.gfmul3 (HW.gfmul9 y.1) ^^^
    HW.gfmul13 y.1 ^^^ HW.gfmul11 y.1 = y.1) ⟨x, hx⟩

theorem qfwd1 (x : Nat) (hx : x < 256) :
    HW.xtime (HW.gfmul11 x) ^^^ HW.gfmul3 (HW.gfmul14 x) ^^^ HW.gfmul9 x ^^^
      HW.gfmul13 x = 0 :=
  (by decide : ∀ y : Fin 256, HW.xtime (HW.gfmul11 y.1) ^^^ HW.gfmul3 (HW.gfmul14 y.1) ^^^
    HW.gfmul9 y.1 ^^^ HW.gfmul13 y.1 = 0) ⟨x, hx⟩

theorem qfwd2 (x : Nat) (hx : x < 256) :
    HW.xtime (HW.gfmul13 x) ^^^ HW.gfmul3 (HW.gfmul11 x) ^^^ HW.gfmul14 x ^^^
      HW.gfmul9 x = 0 :=
  (by decide : ∀ y : Fin 256, HW.xtime (HW.gfmul13 y.1) ^^^ HW.gfmul3 (HW.gfmul11 y.1) ^^^
    HW.gfmul14 y.1 ^^^ HW.gfmul9 y.1 = 0) ⟨x, hx⟩

theorem qfwd3 (x : Nat) (hx : x < 256) :
    HW.xtime (HW.gfmul9 x) ^^^ HW.gfmul3 (HW.gfmul13 x) ^^^ HW.gfmul11 x ^^^
      HW.gfmul14 x = 0 :=
  (by decide : ∀ y : Fin 256, HW.xtime (HW.gfmul9 y.1) ^^^ HW.gfmul3 (HW.gfmul13 y.1) ^^^
    HW.gfmul11 y.1 ^^^ HW.gfmul14 y.1 = 0) ⟨x, hx⟩

theorem invRow0 {a b c d : Nat} (ha : a < 256) (hb : b < 256) (hc : c < 256)
    (hd : d < 256) :
    HW.gfmul14 (HW.xtime a ^^^ HW.gfmul3 b ^^^ c ^^^ d)
      ^^^ HW.gfmul11 (a ^^^ HW.xtime b ^^^ HW.gfmul3 c ^^^ d)
      ^^^ HW.gfmul13 (a ^^^ b ^^^ HW.xtime c ^^^ HW.gfmul3 d)
      ^^^ HW.gfmul9 (HW.gfmul3 a ^^^ b ^^^ c ^^^ HW.xtime d) = a := by
  have hx1 : HW.xtime a ^^^ HW.gfmul3 b < 256 :=
    Nat.xor_lt_two_pow (n := 8) (xtime_lt a) (gfmul3_lt b hb)
  have hx2 : HW.xtime a ^^^ HW.gfmul3 b ^^^ c < 256 := Nat.xor_lt_two_pow (n := 8) hx1 hc
  have hy1 : a ^^^ HW.xtime b < 256 := Nat.xor_lt_two_pow (n := 8) ha (xtime_lt b)
  have hy2 : a ^^^ HW.xtime b ^^^ HW.gfmul3 c < 256 :=
    Nat.xor_lt_two_pow (n := 8) hy1 (gfmul3_lt c hc)
  have hz1 : a ^^^ b < 256 := Nat.xor_lt_two_pow (n := 8) ha hb
  have hz2 : a ^^^ b ^^^ HW.xtime c < 256 := Nat.xor_lt_two_pow (n := 8) hz1 (xtime_lt c)
  have hw1 : HW.gfmul3 a ^^^ b < 256 := Nat.xor_lt_two_pow (n := 8) (gfmul3_lt a ha) hb
  have hw2 : HW.gfmul3 a ^^^ b ^^^ c < 256 := Nat.xor_lt_two_pow (n := 8) hw1 hc
  rw [gfmul14_xor hx2 hd, gfmul14_xor hx1 hc, gfmul14_xor (xtime_lt a) (gfmul3_lt b hb),
    gfmul11_xor hy2 hd, gfmul11_xor hy1 (gfmul3_lt c hc), gfmul11_xor ha (xtime_lt b),
    gfmul13_xor hz2 (gfmul3_lt d hd), gfmul13_xor hz1 (xtime_lt c), gfmul13_xor ha hb,
    gfmul9_xor hw2 (xtime_lt d), gfmul9_xor hw1 hc, gfmul9_xor (gfmul3_lt a ha) hb]
  refine Eq.trans (b :=
    (HW.gfmul14 (HW.xtime a) ^^^ HW.gfmul11 a ^^^ HW.gfmul13 a ^^^ HW.gfmul9 (HW.gfmul3 a))
      ^^^ ((HW.gfmul14 (HW.gfmul3 b) ^^^ HW.gfmul11 (HW.xtime b) ^^^ HW.gfmul13 b ^^^
          HW.gfmul9 b)
        ^^^ ((HW.gfmul14 c ^^^ HW.gfmul11 (HW.gfmul3 c) ^^^ HW.gfmul13 (HW.xtime c) ^^^
            HW.gfmul9 c)
          ^^^ (HW.gfmul14 d ^^^ HW.gfmul11 d ^^^ HW.gfmul13 (HW.gfmul3 d) ^^^
            HW.gfmul9 (HW.xtime d))))) (by ac_rfl) ?_
  rw [qinv0 a ha, qinv1 b hb, qinv2 c hc, qinv3 d hd]
  simp

theorem invRow1 {a b c d : Nat} (ha : a < 256) (hb : b < 256) (hc : c < 256)
    (hd : d < 256) :
    HW.gfmul9 (HW.xtime a ^^^ HW.gfmul3 b ^^^ c ^^^ d)
      ^^^ HW.gfmul14 (a ^^^ HW.xtime b ^^^ HW.gfmul3 c ^^^ d)
      ^^^ HW.gfmul11 (a ^^^ b ^^^ HW.xtime c ^^^ HW.gfmul3 d)
      ^^^ HW.gfmul13 (HW.gfmul3 a ^^^ b ^^^ c ^^^ HW.xtime d) = b := by
  have hx1 : HW.xtime a ^^^ HW.gfmul3 b < 256 :=
    Nat.xor_lt_two_pow (n := 8) (xtime_lt a) (gfmul3_lt b hb)
  have hx2 : HW.xtime a ^^^ HW.gfmul3 b ^^^ c < 256 := Nat.xor_lt_two_pow (n := 8) hx1 hc
  have hy1 : a ^^^ HW.xtime b < 256 := Nat.xor_lt_two_pow (n := 8) ha (xtime_lt b)
  have hy2 : a ^^^ HW.xtime b ^^^ HW.gfmul3 c < 256 :=
    Nat.xor_lt_two_pow (n := 8) hy1 (gfmul3_lt c hc)
  have hz1 : a ^^^ b < 256 := Nat.xor_lt_two_pow (n := 8) ha hb
  have hz2 : a ^^^ b ^^^ HW.xtime c < 256 := Nat.xor_lt_two_pow (n := 8) hz1 (xtime_lt c)
  have hw1 : HW.gfmul3 a ^^^ b < 256 := Nat.xor_lt_two_pow (n := 8) (gfmul3_lt a ha) hb
  have hw2 : HW.gfmul3 a ^^^ b ^^^ c < 256 := Nat.xor_lt_two_pow (n := 8) hw1 hc
  rw [gfmul9_xor hx2 hd, gfmul9_xor hx1 hc, gfmul9_xor (xtime_lt a) (gfmul3_lt b hb),
    gfmul14_xor hy2 hd, gfmul14_xor hy1 (gfmul3_lt c hc), gfmul14_xor ha (xtime_lt b),
    gfmul11_xor hz2 (gfmul3_lt d hd), gfmul11_xor hz1 (xtime_lt c), gfmul11_xor ha hb,
    gfmul13_xor hw2 (xtime_lt d), gfmul13_xor hw1 hc, gfmul13_xor (gfmul3_lt a ha) hb]
  refine Eq.trans (b :=
    (HW.gfmul14 a ^^^ HW.gfmul11 a ^^^ HW.gfmul13 (HW.gfmul3 a) ^^^ HW.gfmul9 (HW.xtime a))
      ^^^ ((HW.gfmul14 (HW.xtime b) ^^^ HW.gfmul11 b ^^^ HW.gfmul13 b ^^^
          HW.gfmul9 (HW.gfmul3 b))
        ^^^ ((HW.gfmul14 (HW.gfmul3 c) ^^^ HW.gfmul11 (HW.xtime c) ^^^ HW.gfmul13 c ^^^
            HW.gfmul9 c)
          ^^^ (HW.gfmul14 d ^^^ HW.gfmul11 (HW.gfmul3 d) ^^^ HW.gfmul13 (HW.xtime d) ^^^
            HW.gfmul9 d)))) (by ac_rfl) ?_
  rw [qinv3 a ha, qinv0 b hb, qinv1 c hc, qinv2 d hd]
  simp

theorem invRow2 {a b c d : Nat} (ha : a < 256) (hb : b < 256) (hc : c < 256)
    (hd : d < 256) :
    HW.gfmul13 (HW.xtime a ^^^ HW.gfmul3 b ^^^ c ^^^ d)
      ^^^ HW.gfmul9 (a ^^^ HW.xtime b ^^^ HW.gfmul3 c ^^^ d)
      ^^^ HW.gfmul14 (a ^^^ b ^^^ HW.xtime c ^^^ HW.gfmul3 d)
      ^^^ HW.gfmul11 (HW.gfmul3 a ^^^ b ^^^ c ^^^ HW.xtime d) = c := by
  have hx1 : HW.xtime a ^^^ HW.gfmul3 b < 256 :=
    Nat.xor_lt_two_pow (n := 8) (xtime_lt a) (gfmul3_lt b hb)
  have hx2 : HW.xtime a ^^^ HW.gfmul3 b ^^^ c < 256 := Nat.xor_lt_two_pow (n := 8) hx1 hc
  have hy1 : a ^^^ HW.xtime b < 256 := Nat.xor_lt_two_pow (n := 8) ha (xtime_lt b)
  have hy2 : a ^^^ HW.xtime b ^^^ HW.gfmul3 c < 256 :=
    Nat.xor_lt_two_pow (n := 8) hy1 (gfmul3_lt c hc)
  have hz1 : a ^^^ b < 256 := Nat.xor_lt_two_pow (n := 8) ha hb
  have hz2 : a ^^^ b ^^^ HW.xtime c < 256 := Nat.xor_lt_two_pow (n := 8) hz1 (xtime_lt c)
  have hw1 : HW.gfmul3 a ^^^ b < 256 := Nat.xor_lt_two_pow (n := 8) (gfmul3_lt a ha) hb
  have hw2 : HW.gfmul3 a ^^^ b ^^^ c < 256 := Nat.xor_lt_two_pow (n := 8) hw1 hc
  rw [gfmul13_xor hx2 hd, gfmul13_xor hx1 hc, gfmul13_xor (xtime_lt a) (gfmul3_lt b hb),
    gfmul9_xor hy2 hd, gfmul9_xor hy1 (gfmul3_lt c hc), gfmul9_xor ha (xtime_lt b),
    gfmul14_xor hz2 (gfmul3_lt d hd), gfmul14_xor hz1 (xtime_lt c), gfmul14_xor ha hb,
    gfmul11_xor hw2 (xtime_lt d), gfmul11_xor hw1 hc, gfmul11_xor (gfmul3_lt a ha) hb]
  refine Eq.trans (b :=
    (HW.gfmul14 a ^^^ HW.gfmul11 (HW.gfmul3 a) ^^^ HW.gfmul13 (HW.xtime a) ^^^ HW.gfmul9 a)
      ^^^ ((HW.gfmul14 b ^^^ HW.gfmul11 b ^^^ HW.gfmul13 (HW.gfmul3 b) ^^^
          HW.gfmul9 (HW.xtime b))
        ^^^ ((HW.gfmul14 (HW.xtime c) ^^^ HW.gfmul11 c ^^^ HW.gfmul13 c ^^^
            HW.gfmul9 (HW.gfmul3 c))
          ^^^ (HW.gfmul14 (HW.gfmul3 d) ^^^ HW.gfmul11 (HW.xtime d) ^^^ HW.gfmul13 d ^^^
            HW.gfmul9 d)))) (by ac_rfl) ?_
  rw [qinv2 a ha, qinv3 b hb, qinv0 c hc, qinv1 d hd]
  simp

theorem invRow3 {a b c d : Nat} (ha : a < 256) (hb : b < 256) (hc : c < 256)
    (hd : d < 256) :
    HW.gfmul11 (HW.xtime a ^^^ HW.gfmul3 b ^^^ c ^^^ d)
      ^^^ HW.gfmul13 (a ^^^ HW.xtime b ^^^ HW.gfmul3 c ^^^ d)
      ^^^ HW.gfmul9 (a ^^^ b ^^^ HW.xtime c ^^^ HW.gfmul3 d)
      ^^^ HW.gfmul14 (HW.gfmul3 a ^^^ b ^^^ c ^^^ HW.xtime d) = d := by
  have hx1 : HW.xtime a ^^^ HW.gfmul3 b < 256 :=
    Nat.xor_lt_two_pow (n := 8) (xtime_lt a) (gfmul3_lt b hb)
  have hx2 : HW.xtime a ^^^ HW.gfmul3 b ^^^ c < 256 := Nat.xor_lt_two_pow (n := 8) hx1 hc
  have hy1 : a ^^^ HW.xtime b < 256 := Nat.xor_lt_two_pow (n := 8) ha (xtime_lt b)
  have hy2 : a ^^^ HW.xtime b ^^^ HW.gfmul3 c < 256 :=
    Nat.xor_lt_two_pow (n := 8) hy1 (gfmul3_lt c hc)
  have hz1 : a ^^^ b < 256 := Nat.xor_lt_two_pow (n := 8) ha hb
  have hz2 : a ^^^ b ^^^ HW.xtime c < 256 := Nat.xor_lt_two_pow (n := 8) hz1 (xtime_lt c)
  have hw1 : HW.gfmul3 a ^^^ b < 256 := Nat.xor_lt_two_pow (n := 8) (gfmul3_lt a ha) hb
  have hw2 : HW.gfmul3 a ^^^ b ^^^ c < 256 := Nat.xor_lt_two_pow (n := 8) hw1 hc
  rw [gfmul11_xor hx2 hd, gfmul11_xor hx1 hc, gfmul11_xor (xtime_lt a) (gfmul3_lt b hb),
    gfmul13_xor hy2 hd, gfmul13_xor hy1 (gfmul3_lt c hc), gfmul13_xor ha (xtime_lt b),
    gfmul9_xor hz2 (gfmul3_lt d hd), gfmul9_xor hz1 (xtime_lt c), gfmul9_xor ha hb,
    gfmul14_xor hw2 (xtime_lt d), gfmul14_xor hw1 hc, gfmul14_xor (gfmul3_lt a ha) hb]
  refine Eq.trans (b :=
    (HW.gfmul14 (HW.gfmul3 a) ^^^ HW.gfmul11 (HW.xtime a) ^^^ HW.gfmul13 a ^^^ HW.gfmul9 a)
      ^^^ ((HW.gfmul14 b ^^^ HW.gfmul11 (HW.gfmul3 b) ^^^ HW.gfmul13 (HW.xtime b) ^^^
          HW.gfmul9 b)
        ^^^ ((HW.gfmul14 c ^^^ HW.gfmul11 c ^^^ HW.gfmul13 (HW.gfmul3 c) ^^^
            HW.gfmul9 (HW.xtime c))
          ^^^ (HW.gfmul14 (HW.xtime d) ^^^ HW.gfmul11 d ^^^ HW.gfmul13 d ^^^
            HW.gfmul9 (HW.gfmul3 d))))) (by ac_rfl) ?_
  rw [qinv1 a ha, qinv2 b hb, qinv3 c hc, qinv0 d hd]
  simp

theorem fwdRow0 {a b c d : Nat} (ha : a < 256) (hb : b < 256) (hc : c < 256)
    (hd : d < 256) :
    HW.xtime (HW.gfmul14 a ^^^ HW.gfmul11 b ^^^ HW.gfmul13 c ^^^ HW.gfmul9 d)
      ^^^ HW.gfmul3 (HW.gfmul9 a ^^^ HW.gfmul14 b ^^^ HW.gfmul11 c ^^^ HW.gfmul13 d)
      ^^^ (HW.gfmul13 a ^^^ HW.gfmul9 b ^^^ HW.gfmul14 c ^^^ HW.gfmul11 d)
      ^^^ (HW.gfmul11 a ^^^ HW.gfmul13 b ^^^ HW.gfmul9 c ^^^ HW.gfmul14 d) = a := by
  have hn01 : HW.gfmul14 a ^^^ HW.gfmul11 b < 256 :=
    Nat.xor_lt_two_pow (n := 8) (gfmul14_lt a) (gfmul11_lt b hb)
  have hn02 : HW.gfmul14 a ^^^ HW.gfmul11 b ^^^ HW.gfmul13 c < 256 :=
    Nat.xor_lt_two_pow (n := 8) hn01 (gfmul13_lt c hc)
  have hn11 : HW.gfmul9 a ^^^ HW.gfmul14 b < 256 :=
    Nat.xor_lt_two_pow (n := 8) (gfmul9_lt a ha) (gfmul14_lt b)
  have hn12 : HW.gfmul9 a ^^^ HW.gfmul14 b ^^^ HW.gfmul11 c < 256 :=
    Nat.xor_lt_two_pow (n := 8) hn11 (gfmul11_lt c hc)
  rw [xtime_xor hn02 (gfmul9_lt d hd), xtime_xor hn01 (gfmul13_lt c hc),
    xtime_xor (gfmul14_lt a) (gfmul11_lt b hb),
    gfmul3_xor hn12 (gfmul13_lt d hd), gfmul3_xor hn11 (gfmul11_lt c hc),
    gfmul3_xor (gfmul9_lt a ha) (gfmul14_lt b)]
  refine Eq.trans (b :=
    (HW.xtime (HW.gfmul14 a) ^^^ HW.gfmul3 (HW.gfmul9 a) ^^^ HW.gfmul13 a ^^^ HW.gfmul11 a)
      ^^^ ((HW.xtime (HW.gfmul11 b) ^^^ HW.gfmul3 (HW.gfmul14 b) ^^^ HW.gfmul9 b ^^^
          HW.gfmul13 b)
        ^^^ ((HW.xtime (HW.gfmul13 c) ^^^ HW.gfmul3 (HW.gfmul11 c) ^^^ HW.gfmul14 c ^^^
            HW.gfmul9 c)
          ^^^ (HW.xtime (HW.gfmul9 d) ^^^ HW.gfmul3 (HW.gfmul13 d) ^^^ HW.gfmul11 d ^^^
            HW.gfmul14 d)))) (by ac_rfl) ?_
  rw [qfwd0 a ha, qfwd1 b hb, qfwd2 c hc, qfwd3 d hd]
  simp

theorem fwdRow1 {a b c d : Nat} (ha : a < 256) (hb : b < 256) (hc : c < 256)
    (hd : d < 256) :
    (HW.gfmul14 a ^^^ HW.gfmul11 b ^^^ HW.gfmul13 c ^^^ HW.gfmul9 d)
      ^^^ HW.xtime (HW.gfmul9 a ^^^ HW.gfmul14 b ^^^ HW.gfmul11 c ^^^ HW.gfmul13 d)
      ^^^ HW.gfmul3 (HW.gfmul13 a ^^^ HW.gfmul9 b ^^^ HW.gfmul14 c ^^^ HW.gfmul11 d)
      ^^^ (HW.gfmul11 a ^^^ HW.gfmul13 b ^^^ HW.gfmul9 c ^^^ HW.gfmul14 d) = b := by
  have hn11 : HW.gfmul9 a ^^^ HW.gfmul14 b < 256 :=
    Nat.xor_lt_two_pow (n := 8) (gfmul9_lt a ha) (gfmul14_lt b)
  have hn12 : HW.gfmul9 a ^^^ HW.gfmul14 b ^^^ HW.gfmul11 c < 256 :=
    Nat.xor_lt_two_pow (n := 8) hn11 (gfmul11_lt c hc)
  have hn21 : HW.gfmul13 a ^^^ HW.gfmul9 b < 256 :=
    Nat.xor_lt_two_pow (n := 8) (gfmul13_lt a ha) (gfmul9_lt b hb)
  have hn22 : HW.gfmul13 a ^^^ HW.gfmul9 b ^^^ HW.gfmul14 c < 256 :=
    Nat.xor_lt_two_pow (n := 8) hn21 (gfmul14_lt c)
  rw [xtime_xor hn12 (gfmul13_lt d hd), xtime_xor hn11 (gfmul11_lt c hc),
    xtime_xor (gfmul9_lt a ha) (gfmul14_lt b),
    gfmul3_xor hn22 (gfmul11_lt d hd), gfmul3_xor hn21 (gfmul14_lt c),
    gfmul3_xor (gfmul13_lt a ha) (gfmul9_lt b hb)]
  refine Eq.trans (b :=
    (HW.xtime (HW.gfmul9 a) ^^^ HW.gfmul3 (HW.gfmul13 a) ^^^ HW.gfmul11 a ^^^ HW.gfmul14 a)
      ^^^ ((HW.xtime (HW.gfmul14 b) ^^^ HW.gfmul3 (HW.gfmul9 b) ^^^ HW.gfmul13 b ^^^
          HW.gfmul11 b)
        ^^^ ((HW.xtime (HW.gfmul11 c) ^^^ HW.gfmul3 (HW.gfmul14 c) ^^^ HW.gfmul9 c ^^^
            HW.gfmul13 c)
          ^^^ (HW.xtime (HW.gfmul13 d) ^^^ HW.gfmul3 (HW.gfmul11 d) ^^^ HW.gfmul14 d ^^^
            HW.gfmul9 d)))) (by ac_rfl) ?_
  rw [qfwd3 a ha, qfwd0 b hb, qfwd1 c hc, qfwd2 d hd]
  simp

theorem fwdRow2 {a b c d : Nat} (ha : a < 256) (hb : b < 256) (hc : c < 256)
    (hd : d < 256) :
    (HW.gfmul14 a ^^^ HW.gfmul11 b ^^^ HW.gfmul13 c ^^^ HW.gfmul9 d)
      ^^^ (HW.gfmul9 a ^^^ HW.gfmul14 b ^^^ HW.gfmul11 c ^^^ HW.gfmul13 d)
      ^^^ HW.xtime (HW.gfmul13 a ^^^ HW.gfmul9 b ^^^ HW.gfmul14 c ^^^ HW.gfmul11 d)
      ^^^ HW.gfmul3 (HW.gfmul11 a ^^^ HW.gfmul13 b ^^^ HW.gfmul9 c ^^^ HW.gfmul14 d)
      = c := by
  have hn21 : HW.gfmul13 a ^^^ HW.gfmul9 b < 256 :=
    Nat.xor_lt_two_pow (n := 8) (gfmul13_lt a ha) (gfmul9_lt b hb)
  have hn22 : HW.gfmul13 a ^^^ HW.gfmul9 b ^^^ HW.gfmul14 c < 256 :=
    Nat.xor_lt_two_pow (n := 8) hn21 (gfmul14_lt c)
  have hn31 : HW.gfmul11 a ^^^ HW.gfmul13 b < 256 :=
    Nat.xor_lt_two_pow (n := 8) (gfmul11_lt a ha) (gfmul13_lt b hb)
  have hn32 : HW.gfmul11 a ^^^ HW.gfmul13 b ^^^ HW.gfmul9 c < 256 :=
    Nat.xor_lt_two_pow (n := 8) hn31 (gfmul9_lt c hc)
  rw [xtime_xor hn22 (gfmul11_lt d hd), xtime_xor hn21 (gfmul14_lt c),
    xtime_xor (gfmul13_lt a ha) (gfmul9_lt b hb),
    gfmul3_xor hn32 (gfmul14_lt d), gfmul3_xor hn31 (gfmul9_lt c hc),
    gfmul3_xor (gfmul11_lt a ha) (gfmul13_lt b hb)]
  refine Eq.trans (b :=
    (HW.xtime (HW.gfmul13 a) ^^^ HW.gfmul3 (HW.gfmul11 a) ^^^ HW.gfmul14 a ^^^ HW.gfmul9 a)
      ^^^ ((HW.xtime (HW.gfmul9 b) ^^^ HW.gfmul3 (HW.gfmul13 b) ^^^ HW.gfmul11 b ^^^
          HW.gfmul14 b)
        ^^^ ((HW.xtime (HW.gfmul14 c) ^^^ HW.gfmul3 (HW.gfmul9 c) ^^^ HW.gfmul13 c ^^^
            HW.gfmul11 c)
          ^^^ (HW.xtime (HW.gfmul11 d) ^^^ HW.gfmul3 (HW.gfmul14 d) ^^^ HW.gfmul9 d ^^^
            HW.gfmul13 d)))) (by ac_rfl) ?_
  rw [qfwd2 a ha, qfwd3 b hb, qfwd0 c hc, qfwd1 d hd]
  simp

theorem fwdRow3 {a b c d : Nat} (ha : a < 256) (hb : b < 256) (hc : c < 256)
    (hd : d < 256) :
    HW.gfmul3 (HW.gfmul14 a ^^^ HW.gfmul11 b ^^^ HW.gfmul13 c ^^^ HW.gfmul9 d)
      ^^^ (HW.gfmul9 a ^^^ HW.gfmul14 b ^^^ HW.gfmul11 c ^^^ HW.gfmul13 d)
      ^^^ (HW.gfmul13 a ^^^ HW.gfmul9 b ^^^ HW.gfmul14 c ^^^ HW.gfmul11 d)
      ^^^ HW.xtime (HW.gfmul11 a ^^^ HW.gfmul13 b ^^^ HW.gfmul9 c ^^^ HW.gfmul14 d)
      = d := by
  have hn01 : HW.gfmul14 a ^^^ HW.gfmul11 b < 256 :=
    Nat.xor_lt_two_pow (n := 8) (gfmul14_lt a) (gfmul11_lt b hb)
  have hn02 : HW.gfmul14 a ^^^ HW.gfmul11 b ^^^ HW.gfmul13 c < 256 :=
    Nat.xor_lt_two_pow (n := 8) hn01 (gfmul13_lt c hc)
  have hn31 : HW.gfmul11 a ^^^ HW.gfmul13 b < 256 :=
    Nat.xor_lt_two_pow (n := 8) (gfmul11_lt a ha) (gfmul13_lt b hb)
  have hn32 : HW.gfmul11 a ^^^ HW.gfmul13 b ^^^ HW.gfmul9 c < 256 :=
    Nat.xor_lt_two_pow (n := 8) hn31 (gfmul9_lt c hc)
  rw [gfmul3_xor hn02 (gfmul9_lt d hd), gfmul3_xor hn01 (gfmul13_lt c hc),
    gfmul3_xor (gfmul14_lt a) (gfmul11_lt b hb),
    xtime_xor hn32 (gfmul14_lt d), xtime_xor hn31 (gfmul9_lt c hc),
    xtime_xor (gfmul11_lt a ha) (gfmul13_lt b hb)]
  refine Eq.trans (b :=
    (HW.xtime (HW.gfmul11 a) ^^^ HW.gfmul3 (HW.gfmul14 a) ^^^ HW.gfmul9 a ^^^ HW.gfmul13 a)
      ^^^ ((HW.xtime (HW.gfmul13 b) ^^^ HW.gfmul3 (HW.gfmul11 b) ^^^ HW.gfmul14 b ^^^
          HW.gfmul9 b)
        ^^^ ((HW.xtime (HW.gfmul9 c) ^^^ HW.gfmul3 (HW.gfmul13 c) ^^^ HW.gfmul11 c ^^^
            HW.gfmul14 c)
          ^^^ (HW.xtime (HW.gfmul14 d) ^^^ HW.gfmul3 (HW.gfmul9 d) ^^^ HW.gfmul13 d ^^^
            HW.gfmul11 d)))) (by ac_rfl) ?_
  rw [qfwd1 a ha, qfwd2 b hb, qfwd3 c hc, qfwd0 d hd]
  simp

theorem INVMixw_Mixw {w : Nat} (hw : w < 2 ^ 32) :
    Portable.INVMixw (Portable.Mixw w) = w := by
  obtain ⟨a, b, c, d, ha, hb, hc, hd, rfl⟩ :
      ∃ a b c d, a < 256 ∧ b < 256 ∧ c < 256 ∧ d < 256 ∧ w = ofBytes4 a b c d :=
    ⟨w % 256, w / 256 % 256, w / 65536 % 256, w / 16777216 % 256,
      Nat.mod_lt _ (by norm_num), Nat.mod_lt _ (by norm_num),
      Nat.mod_lt _ (by norm_num), Nat.mod_lt _ (by norm_num), word_decomp w hw⟩
  have hm0 : HW.xtime a ^^^ HW.gfmul3 b ^^^ c ^^^ d < 256 :=
    Nat.xor_lt_two_pow (n := 8)
      (Nat.xor_lt_two_pow (Nat.xor_lt_two_pow (xtime_lt a) (gfmul3_lt b hb)) hc) hd
  have hm1 : a ^^^ HW.xtime b ^^^ HW.gfmul3 c ^^^ d < 256 :=
    Nat.xor_lt_two_pow (n := 8)
      (Nat.xor_lt_two_pow (Nat.xor_lt_two_pow ha (xtime_lt b)) (gfmul3_lt c hc)) hd
  have hm2 : a ^^^ b ^^^ HW.xtime c ^^^ HW.gfmul3 d < 256 :=
    Nat.xor_lt_two_pow (n := 8)
      (Nat.xor_lt_two_pow (Nat.xor_lt_two_pow ha hb) (xtime_lt c)) (gfmul3_lt d hd)
  have hm3 : HW.gfmul3 a ^^^ b ^^^ c ^^^ HW.xtime d < 256 :=
    Nat.xor_lt_two_pow (n := 8)
      (Nat.xor_lt_two_pow (Nat.xor_lt_two_pow (gfmul3_lt a ha) hb) hc) (xtime_lt d)
  rw [Mixw_col ha hb hc hd, INVMixw_col hm0 hm1 hm2 hm3,
    invRow0 ha hb hc hd, invRow1 ha hb hc hd, invRow2 ha hb hc hd, invRow3 ha hb hc hd]

theorem Mixw_INVMixw {w : Nat} (hw : w < 2 ^ 32) :
    Portable.Mixw (Portable.INVMixw w) = w := by
  obtain ⟨a, b, c, d, ha, hb, hc, hd, rfl⟩ :
      ∃ a b c d, a < 256 ∧ b < 256 ∧ c < 256 ∧ d < 256 ∧ w = ofBytes4 a b c d :=
    ⟨w % 256, w / 256 % 256, w / 65536 % 256, w / 16777216 % 256,
      Nat.mod_lt _ (by norm_num), Nat.mod_lt _ (by norm_num),
      Nat.mod_lt _ (by norm_num), Nat.mod_lt _ (by norm_num), word_decomp w hw⟩
  have hn0 : HW.gfmul14 a ^^^ HW.gfmul11 b ^^^ HW.gfmul13 c ^^^ HW.gfmul9 d < 256 :=
    Nat.xor_lt_two_pow (n := 8)
      (Nat.xor_lt_two_pow (Nat.xor_lt_two_pow (gfmul14_lt a) (gfmul11_lt b hb))
        (gfmul13_lt c hc)) (gfmul9_lt d hd)
  have hn1 : HW.gfmul9 a ^^^ HW.gfmul14 b ^^^ HW.gfmul11 c ^^^ HW.gfmul13 d < 256 :=
    Nat.xor_lt_two_pow (n := 8)
      (Nat.xor_lt_two_pow (Nat.xor_lt_two_pow (gfmul9_lt a ha) (gfmul14_lt b))
        (gfmul11_lt c hc)) (gfmul13_lt d hd)
  have hn2 : HW.gfmul13 a ^^^ HW.gfmul9 b ^^^ HW.gfmul14 c ^^^ HW.gfmul11 d < 256 :=
    Nat.xor_lt_two_pow (n := 8)
      (Nat.xor_lt_two_pow (Nat.xor_lt_two_pow (gfmul13_lt a ha) (gfmul9_lt b hb))
        (gfmul14_lt c)) (gfmul11_lt d hd)
  have hn3 : HW.gfmul11 a ^^^ HW.gfmul13 b ^^^ HW.gfmul9 c ^^^ HW.gfmul14 d < 256 :=
    Nat.xor_lt_two_pow (n := 8)
      (Nat.xor_lt_two_pow (Nat.xor_lt_two_pow (gfmul11_lt a ha) (gfmul13_lt b hb))
        (gfmul9_lt c hc)) (gfmul14_lt d)
  rw [INVMixw_col ha hb hc hd, Mixw_col hn0 hn1 hn2 hn3,
    fwdRow0 ha hb hc hd, fwdRow1 ha hb hc hd, fwdRow2 ha hb hc hd, fwdRow3 ha hb hc hd]

theorem INVMixB_MixB {B : PBlock} (h0 : B.w0 < 2 ^ 32) (h1 : B.w1 < 2 ^ 32)
    (h2 : B.w2 < 2 ^ 32) (h3 : B.w3 < 2 ^ 32) :
    Portable.INVMixB (Portable.MixB B) = B := by
  unfold Portable.MixB Portable.INVMixB
  rw [INVMixw_Mixw h0, INVMixw_Mixw h1, INVMixw_Mixw h2, INVMixw_Mixw h3]

theorem MixB_INVMixB {B : PBlock} (h0 : B.w0 < 2 ^ 32) (h1 : B.w1 < 2 ^ 32)
    (h2 : B.w2 < 2 ^ 32) (h3 : B.w3 < 2 ^ 32) :
    Portable.MixB (Portable.INVMixB B) = B := by
  unfold Portable.MixB Portable.INVMixB
  rw [Mixw_INVMixw h0, Mixw_INVMixw h1, Mixw_INVMixw h2, Mixw_INVMixw h3]

/-! ## Padded-decrypt truncation semantics (C7 / C10 support) -/

theorem getLast_eq_getD {l : List Nat} (h : l ≠ []) :
    l.getLast h = l.getD (l.length - 1) 0 := by
  rw [List.getLast_eq_getElem, List.getD_eq_getElem?_getD,
    List.getElem?_eq_getElem (by have := List.length_pos.mpr h; omega)]
  rfl

theorem writeBlock_length {buf : List Nat} {i : Nat} (h : i + 16 ≤ buf.length)
    (B : PBlock) : (Modes.writeBlock buf i B).length = buf.length := by
  simp [Modes.writeBlock, Portable.pToBytes]
  omega

theorem foldl_write_length (step : List Nat → Nat → List Nat)
    (hstep : ∀ buf j, 16 * j + 16 ≤ buf.length → (step buf j).length = buf.length) :
    ∀ (js : List Nat) (buf : List Nat), (∀ j ∈ js, 16 * j + 16 ≤ buf.length) →
      (js.foldl step buf).length = buf.length := by
  intro js
  induction js with
  | nil => intro buf _; rfl
  | cons j t ih =>
    intro buf hb
    have hj : 16 * j + 16 ≤ buf.length := hb j (by simp)
    have hlen := hstep buf j hj
    simp only [List.foldl_cons]
    rw [ih (step buf j) (fun j' hj' => hlen ▸ hb j' (by simp [hj'])), hlen]

theorem foldl_write_length2 (step : PBlock × List Nat → Nat → PBlock × List Nat)
    (hstep : ∀ st j, 16 * j + 16 ≤ st.2.length → (step st j).2.length = st.2.length) :
    ∀ (js : List Nat) (st : PBlock × List Nat), (∀ j ∈ js, 16 * j + 16 ≤ st.2.length) →
      (js.foldl step st).2.length = st.2.length := by
  intro js
  induction js with
  | nil => intro st _; rfl
  | cons j t ih =>
    intro st hb
    have hj : 16 * j + 16 ≤ st.2.length := hb j (by simp)
    have hlen := hstep st j hj
    simp only [List.foldl_cons]
    rw [ih (step st j) (fun j' hj' => hlen ▸ hb j' (by simp [hj'])), hlen]

theorem blockDecryptECB_length (ks R : Nat) (input key : List Nat)
    (h : input.length % 16 = 0) :
    (Modes.blockDecryptECB ks R input key).length = input.length := by
  unfold Modes.blockDecryptECB
  rw [foldl_write_length _
    (fun buf j hj => writeBlock_length hj _) _ _ ?_, List.length_replicate]
  intro j hj
  rw [List.length_replicate]
  rw [List.mem_range] at hj
  omega

theorem blockDecryptCBC_length (ks R : Nat) (input key iv : List Nat)
    (h : input.length % 16 = 0) :
    (Modes.blockDecryptCBC ks R input key iv).length = input.length := by
  unfold Modes.blockDecryptCBC
  rw [foldl_write_length2 _
    (fun st j hj => writeBlock_length hj _) _ _ ?_]
  · simp
  · intro j hj
    rw [List.mem_range] at hj
    simp only [List.length_replicate]
    omega

theorem PaddedDecryptECB_eq (ks R : Nat) (input key : List Nat) :
    Modes.PaddedDecryptECB ks R input key =
      (if input.length % 16 ≠ 0 then none
       else if h0 : (Modes.blockDecryptECB ks R input key).length = 0 then none
       else if (Modes.blockDecryptECB ks R input key).getLast (by simpa using h0) ≤
           (Modes.blockDecryptECB ks R input key).length then
         some ((Modes.blockDecryptECB ks R input key).take
           ((Modes.blockDecryptECB ks R input key).length -
             (Modes.blockDecryptECB ks R input key).getLast (by simpa using h0)))
       else none) := rfl

theorem PaddedDecryptCBC_eq (ks R : Nat) (input key iv : List Nat) :
    Modes.PaddedDecryptCBC ks R input key iv =
      (if input.length % 16 ≠ 0 then none
       else if h0 : (Modes.blockDecryptCBC ks R input key iv).length = 0 then none
       else if (Modes.blockDecryptCBC ks R input key iv).getLast (by simpa using h0) ≤
           (Modes.blockDecryptCBC ks R input key iv).length then
         some ((Modes.blockDecryptCBC ks R input key iv).take
           ((Modes.blockDecryptCBC ks R input key iv).length -
             (Modes.blockDecryptCBC ks R input key iv).getLast (by simpa using h0)))
       else none) := rfl

theorem PaddedDecryptECB_trunc (ks R : Nat) (input key : List Nat)
    (h16 : input.length % 16 = 0) (hne : input ≠ [])
    (hk : (Modes.blockDecryptECB ks R input key).getD (input.length - 1) 0 ≤
      input.length) :
    Modes.PaddedDecryptECB ks R input key =
      some ((Modes.blockDecryptECB ks R input key).take
        (input.length - (Modes.blockDecryptECB ks R input key).getD
          (input.length - 1) 0)) := by
  have hlen := blockDecryptECB_length ks R input key h16
  have hpos : input.length ≠ 0 := fun h => hne (List.length_eq_zero.mp h)
  rw [PaddedDecryptECB_eq, if_neg (by simp [h16]), dif_neg (by rw [hlen]; exact hpos),
    getLast_eq_getD, hlen, if_pos hk]

/-! ## Mul128 semantics (C4 support) -/

theorem Mul128_none (B : PBlock) : Portable.Mul128 B = none := rfl

theorem and128_shift {y : Nat} (hy : y < 256) : (y &&& 128) >>> 7 = y >>> 7 :=
  (by decide : ∀ z : Fin 256, (z.1 &&& 128) >>> 7 = z.1 >>> 7) ⟨y, hy⟩

theorem shl_or_bit {x t : Nat} (hx : x < 256) (ht : t ≤ 1) :
    ((x <<< 1) % 256) ||| t = ((x <<< 1) % 256) ^^^ t :=
  (by decide : ∀ z : Fin 256, ∀ u : Fin 2,
    ((z.1 <<< 1) % 256) ||| u.1 = ((z.1 <<< 1) % 256) ^^^ u.1) ⟨x, hx⟩ ⟨t, by omega⟩

theorem shl_xor_mod {x t : Nat} (hx : x < 256) (ht : t ≤ 1) :
    ((x <<< 1) ^^^ t * 135) % 256 = ((x <<< 1) % 256) ^^^ t * 135 :=
  (by decide : ∀ z : Fin 256, ∀ u : Fin 2,
    ((z.1 <<< 1) ^^^ u.1 * 135) % 256 = ((z.1 <<< 1) % 256) ^^^ u.1 * 135)
    ⟨x, hx⟩ ⟨t, by omega⟩

theorem shl_or_mod {x t : Nat} (hx : x < 256) (ht : t ≤ 1) :
    ((x <<< 1) ||| t) % 256 = ((x <<< 1) % 256) ^^^ t :=
  (by decide : ∀ z : Fin 256, ∀ u : Fin 2,
    ((z.1 <<< 1) ||| u.1) % 256 = ((z.1 <<< 1) % 256) ^^^ u.1) ⟨x, hx⟩ ⟨t, by omega⟩

theorem hw_byte0 {x y : Nat} (hx : x < 256) (hy : y < 256) :
    (((x <<< 1) % 256) ||| 0) ^^^ (if ((y &&& 128) >>> 7) = 0 then 0 else 135)
      = ((x <<< 1) % 256) ^^^ (y >>> 7) * 135 := by
  rw [Nat.or_zero, and128_shift hy]
  rcases Nat.le_one_iff_eq_zero_or_eq_one.mp (shiftRight7_le_one hy) with h | h <;>
    rw [h] <;> norm_num

theorem hBytesL_Mul128 (b : HBlock) :
    HW.hBytesL (HW.Mul128 b) =
      [(((b.b0 <<< 1) % 256) ||| 0) ^^^
          (if ((b.b15 &&& 128) >>> 7) = 0 then 0 else 135),
        ((b.b1 <<< 1) % 256) ||| ((b.b0 &&& 128) >>> 7),
        ((b.b2 <<< 1) % 256) ||| ((b.b1 &&& 128) >>> 7),
        ((b.b3 <<< 1) % 256) ||| ((b.b2 &&& 128) >>> 7),
        ((b.b4 <<< 1) % 256) ||| ((b.b3 &&& 128) >>> 7),
        ((b.b5 <<< 1) % 256) ||| ((b.b4 &&& 128) >>> 7),
        ((b.b6 <<< 1) % 256) ||| ((b.b5 &&& 128) >>> 7),
        ((b.b7 <<< 1) % 256) ||| ((b.b6 &&& 128) >>> 7),
        ((b.b8 <<< 1) % 256) ||| ((b.b7 &&& 128) >>> 7),
        ((b.b9 <<< 1) % 256) ||| ((b.b8 &&& 128) >>> 7),
        ((b.b10 <<< 1) % 256) ||| ((b.b9 &&& 128) >>> 7),
        ((b.b11 <<< 1) % 256) ||| ((b.b10 &&& 128) >>> 7),
        ((b.b12 <<< 1) % 256) ||| ((b.b11 &&& 128) >>> 7),
        ((b.b13 <<< 1) % 256) ||| ((b.b12 &&& 128) >>> 7),
        ((b.b14 <<< 1) % 256) ||| ((b.b13 &&& 128) >>> 7),
        ((b.b15 <<< 1) % 256) ||| ((b.b14 &&& 128) >>> 7)] := by
  simp [HW.Mul128, HW.hBytesL, HW.hOfBytesL,
    show (List.range 16) = [0, 1, 2, 3, 4, 5, 6, 7, 8, 9, 10, 11, 12, 13, 14, 15]
      from rfl]

theorem Mul128_eq_spec {b : HBlock} (hb : HBounded b) :
    HW.hBytesL (HW.Mul128 b) = mulAlphaSpec (HW.hBytesL b) := by
  obtain ⟨h0, h1, h2, h3, h4, h5, h6, h7, h8, h9, h10, h11, h12, h13, h14, h15⟩ := hb
  rw [hBytesL_Mul128,
    show mulAlphaSpec (HW.hBytesL b) =
      [((b.b0 <<< 1) % 256) ^^^ (b.b15 >>> 7) * 135,
        ((b.b1 <<< 1) % 256) ^^^ (b.b0 >>> 7),
        ((b.b2 <<< 1) % 256) ^^^ (b.b1 >>> 7),
        ((b.b3 <<< 1) % 256) ^^^ (b.b2 >>> 7),
        ((b.b4 <<< 1) % 256) ^^^ (b.b3 >>> 7),
        ((b.b5 <<< 1) % 256) ^^^ (b.b4 >>> 7),
        ((b.b6 <<< 1) % 256) ^^^ (b.b5 >>> 7),
        ((b.b7 <<< 1) % 256) ^^^ (b.b6 >>> 7),
        ((b.b8 <<< 1) % 256) ^^^ (b.b7 >>> 7),
        ((b.b9 <<< 1) % 256) ^^^ (b.b8 >>> 7),
        ((b.b10 <<< 1) % 256) ^^^ (b.b9 >>> 7),
        ((b.b11 <<< 1) % 256) ^^^ (b.b10 >>> 7),
        ((b.b12 <<< 1) % 256) ^^^ (b.b11 >>> 7),
        ((b.b13 <<< 1) % 256) ^^^ (b.b12 >>> 7),
        ((b.b14 <<< 1) % 256) ^^^ (b.b13 >>> 7),
        ((b.b15 <<< 1) % 256) ^^^ (b.b14 >>> 7)] from rfl]
  simp only [List.cons.injEq, and_true]
  exact ⟨hw_byte0 h0 h15,
    by rw [and128_shift h0, shl_or_bit h1 (shiftRight7_le_one h0)],
    by rw [and128_shift h1, shl_or_bit h2 (shiftRight7_le_one h1)],
    by rw [and128_shift h2, shl_or_bit h3 (shiftRight7_le_one h2)],
    by rw [and128_shift h3, shl_or_bit h4 (shiftRight7_le_one h3)],
    by rw [and128_shift h4, shl_or_bit h5 (shiftRight7_le_one h4)],
    by rw [and128_shift h5, shl_or_bit h6 (shiftRight7_le_one h5)],
    by rw [and128_shift h6, shl_or_bit h7 (shiftRight7_le_one h6)],
    by rw [and128_shift h7, shl_or_bit h8 (shiftRight7_le_one h7)],
    by rw [and128_shift h8, shl_or_bit h9 (shiftRight7_le_one h8)],
    by rw [and128_shift h9, shl_or_bit h10 (shiftRight7_le_one h9)],
    by rw [and128_shift h10, shl_or_bit h11 (shiftRight7_le_one h10)],
    by rw [and128_shift h11, shl_or_bit h12 (shiftRight7_le_one h11)],
    by rw [and128_shift h12, shl_or_bit h13 (shiftRight7_le_one h12)],
    by rw [and128_shift h13, shl_or_bit h14 (shiftRight7_le_one h13)],
    by rw [and128_shift h14, shl_or_bit h15 (shiftRight7_le_one h14)]⟩

theorem MUL128_ofBytes (b : HBlock) (hb : HBounded b) :
    Modes.MUL128 (ofH b) = Portable.bytesToPBlock
      [((b.b0 <<< 1) ^^^ (b.b15 >>> 7) * 135) % 256,
        ((b.b1 <<< 1) ||| (b.b0 >>> 7)) % 256,
        ((b.b2 <<< 1) ||| (b.b1 >>> 7)) % 256,
        ((b.b3 <<< 1) ||| (b.b2 >>> 7)) % 256,
        ((b.b4 <<< 1) ||| (b.b3 >>> 7)) % 256,
        ((b.b5 <<< 1) ||| (b.b4 >>> 7)) % 256,
        ((b.b6 <<< 1) ||| (b.b5 >>> 7)) % 256,
        ((b.b7 <<< 1) ||| (b.b6 >>> 7)) % 256,
        ((b.b8 <<< 1) ||| (b.b7 >>> 7)) % 256,
        ((b.b9 <<< 1) ||| (b.b8 >>> 7)) % 256,
        ((b.b10 <<< 1) ||| (b.b9 >>> 7)) % 256,
        ((b.b11 <<< 1) ||| (b.b10 >>> 7)) % 256,
        ((b.b12 <<< 1) ||| (b.b11 >>> 7)) % 256,
        ((b.b13 <<< 1) ||| (b.b12 >>> 7)) % 256,
        ((b.b14 <<< 1) ||| (b.b13 >>> 7)) % 256,
        ((b.b15 <<< 1) ||| (b.b14 >>> 7)) % 256] := by
  simp only [Modes.MUL128]
  rw [pToBytes_ofH hb]
  simp [HW.hBytesL,
    show (List.range 16) = [0, 1, 2, 3, 4, 5, 6, 7, 8, 9, 10, 11, 12, 13, 14, 15]
      from rfl]

theorem MUL128_eq_spec {b : HBlock} (hb : HBounded b) :
    Portable.pToBytes (Modes.MUL128 (ofH b)) = mulAlphaSpec (HW.hBytesL b) := by
  obtain ⟨h0, h1, h2, h3, h4, h5, h6, h7, h8, h9, h10, h11, h12, h13, h14, h15⟩ := hb
  rw [MUL128_ofBytes b
    ⟨h0, h1, h2, h3, h4, h5, h6, h7, h8, h9, h10, h11, h12, h13, h14, h15⟩,
    bytesToPBlock_ofH, pToBytes_ofH
      ⟨Nat.mod_lt _ (by norm_num), Nat.mod_lt _ (by norm_num),
        Nat.mod_lt _ (by norm_num), Nat.mod_lt _ (by norm_num),
        Nat.mod_lt _ (by norm_num), Nat.mod_lt _ (by norm_num),
        Nat.mod_lt _ (by norm_num), Nat.mod_lt _ (by norm_num),
        Nat.mod_lt _ (by norm_num), Nat.mod_lt _ (by norm_num),
        Nat.mod_lt _ (by norm_num), Nat.mod_lt _ (by norm_num),
        Nat.mod_lt _ (by norm_num), Nat.mod_lt _ (by norm_num),
        Nat.mod_lt _ (by norm_num), Nat.mod_lt _ (by norm_num)⟩,
    show mulAlphaSpec (HW.hBytesL b) =
      [((b.b0 <<< 1) % 256) ^^^ (b.b15 >>> 7) * 135,
        ((b.b1 <<< 1) % 256) ^^^ (b.b0 >>> 7),
        ((b.b2 <<< 1) % 256) ^^^ (b.b1 >>> 7),
        ((b.b3 <<< 1) % 256) ^^^ (b.b2 >>> 7),
        ((b.b4 <<< 1) % 256) ^^^ (b.b3 >>> 7),
        ((b.b5 <<< 1) % 256) ^^^ (b.b4 >>> 7),
        ((b.b6 <<< 1) % 256) ^^^ (b.b5 >>> 7),
        ((b.b7 <<< 1) % 256) ^^^ (b.b6 >>> 7),
        ((b.b8 <<< 1) % 256) ^^^ (b.b7 >>> 7),
        ((b.b9 <<< 1) % 256) ^^^ (b.b8 >>> 7),
        ((b.b10 <<< 1) % 256) ^^^ (b.b9 >>> 7),
        ((b.b11 <<< 1) % 256) ^^^ (b.b10 >>> 7),
        ((b.b12 <<< 1) % 256) ^^^ (b.b11 >>> 7),
        ((b.b13 <<< 1) % 256) ^^^ (b.b12 >>> 7),
        ((b.b14 <<< 1) % 256) ^^^ (b.b13 >>> 7),
        ((b.b15 <<< 1) % 256) ^^^ (b.b14 >>> 7)] from rfl]
  show [((b.b0 <<< 1) ^^^ (b.b15 >>> 7) * 135) % 256,
      ((b.b1 <<< 1) ||| (b.b0 >>> 7)) % 256,
      ((b.b2 <<< 1) ||| (b.b1 >>> 7)) % 256,
      ((b.b3 <<< 1) ||| (b.b2 >>> 7)) % 256,
      ((b.b4 <<< 1) ||| (b.b3 >>> 7)) % 256,
      ((b.b5 <<< 1) ||| (b.b4 >>> 7)) % 256,
      ((b.b6 <<< 1) ||| (b.b5 >>> 7)) % 256,
      ((b.b7 <<< 1) ||| (b.b6 >>> 7)) % 256,
      ((b.b8 <<< 1) ||| (b.b7 >>> 7)) % 256,
      ((b.b9 <<< 1) ||| (b.b8 >>> 7)) % 256,
      ((b.b10 <<< 1) ||| (b.b9 >>> 7)) % 256,
      ((b.b11 <<< 1) ||| (b.b10 >>> 7)) % 256,
      ((b.b12 <<< 1) ||| (b.b11 >>> 7)) % 256,
      ((b.b13 <<< 1) ||| (b.b12 >>> 7)) % 256,
      ((b.b14 <<< 1) ||| (b.b13 >>> 7)) % 256,
      ((b.b15 <<< 1) ||| (b.b14 >>> 7)) % 256] = _
  simp only [List.cons.injEq, and_true]
  exact ⟨shl_xor_mod h0 (shiftRight7_le_one h15),
    shl_or_mod h1 (shiftRight7_le_one h0),
    shl_or_mod h2 (shiftRight7_le_one h1),
    shl_or_mod h3 (shiftRight7_le_one h2),
    shl_or_mod h4 (shiftRight7_le_one h3),
    shl_or_mod h5 (shiftRight7_le_one h4),
    shl_or_mod h6 (shiftRight7_le_one h5),
    shl_or_mod h7 (shiftRight7_le_one h6),
    shl_or_mod h8 (shiftRight7_le_one h7),
    shl_or_mod h9 (shiftRight7_le_one h8),
    shl_or_mod h10 (shiftRight7_le_one h9),
    shl_or_mod h11 (shiftRight7_le_one h10),
    shl_or_mod h12 (shiftRight7_le_one h11),
    shl_or_mod h13 (shiftRight7_le_one h12),
    shl_or_mod h14 (shiftRight7_le_one h13),
    shl_or_mod h15 (shiftRight7_le_one h14)⟩

theorem PaddedDecryptCBC_trunc (ks R : Nat) (input key iv : List Nat)
    (h16 : input.length % 16 = 0) (hne : input ≠ [])
    (hk : (Modes.blockDecryptCBC ks R input key iv).getD (input.length - 1) 0 ≤
      input.length) :
    Modes.PaddedDecryptCBC ks R input key iv =
      some ((Modes.blockDecryptCBC ks R input key iv).take
        (input.length - (Modes.blockDecryptCBC ks R input key iv).getD
          (input.length - 1) 0)) := by
  have hlen := blockDecryptCBC_length ks R input key iv h16
  have hpos : input.length ≠ 0 := fun h => hne (List.length_eq_zero.mp h)
  rw [PaddedDecryptCBC_eq, if_neg (by simp [h16]), dif_neg (by rw [hlen]; exact hpos),
    getLast_eq_getD, hlen, if_pos hk]

/-! ## Claim theorems -/

/-- C1 (amended): for every key size, the HW and portable paths agree
bit-for-bit on the key expansions (forward and inverse), the block
transforms, and the ECB/CBC/CFB/CTR-encrypt per-block mode helpers (under
`ofH`, the `bit_cast` between the two `Block_t` representations).  The XEX
helpers are excluded: the portable `Mul128` they call is out-of-bounds UB on
every input (see the counterexample), and the HW XEX/CTR-decrypt drivers are
ill-typed/ill-formed in the source. -/
theorem C1_path_equivalence (key : List Nat) (keys : List HBlock) (St input : HBlock)
    (R cs : Nat) (be : Bool) (hkey : ∀ b ∈ key, b < 256)
    (hkeys : ∀ b ∈ keys, HBounded b) (hSt : HBounded St) (hin : HBounded input) :
    Portable.Keyexpansion128 key = (HW.Keyexpansion128 key).map ofH
    ∧ Portable.Keyexpansion192 key = (HW.Keyexpansion192 key).map ofH
    ∧ Portable.Keyexpansion256 key = (HW.Keyexpansion256 key).map ofH
    ∧ Portable.INVKeyexpansion128 key = (HW.INVKeyexpansion128 key).map ofH
    ∧ Portable.INVKeyexpansion192 key = (HW.INVKeyexpansion192 key).map ofH
    ∧ Portable.INVKeyexpansion256 key = (HW.INVKeyexpansion256 key).map ofH
    ∧ Portable.Encryptblock R (ofH input) (keys.map ofH)
        = ofH (HW.Encryptblock R input keys)
    ∧ Portable.Decryptblock R (ofH input) (keys.map ofH)
        = ofH (HW.Decryptblock R input keys)
    ∧ Portable.Encryptblock_ECB R (ofH input) (keys.map ofH)
        = ofH (HW.Encryptblock_ECB R input keys)
    ∧ Portable.Decryptblock_ECB R (ofH input) (keys.map ofH)
        = ofH (HW.Decryptblock_ECB R input keys)
    ∧ Portable.Encryptblock_CBC R (ofH St) (ofH input) (keys.map ofH)
        = (ofH (HW.Encryptblock_CBC R St input keys).1,
            ofH (HW.Encryptblock_CBC R St input keys).2)
    ∧ Portable.Decryptblock_CBC R (ofH St) (ofH input) (keys.map ofH)
        = (ofH (HW.Decryptblock_CBC R St input keys).1,
            ofH (HW.Decryptblock_CBC R St input keys).2)
    ∧ Portable.Encryptblock_CFB R (ofH St) (ofH input) (keys.map ofH)
        = (ofH (HW.Encryptblock_CFB R St input keys).1,
            ofH (HW.Encryptblock_CFB R St input keys).2)
    ∧ Portable.Decryptblock_CFB R (ofH St) (ofH input) (keys.map ofH)
        = (ofH (HW.Decryptblock_CFB R St input keys).1,
            ofH (HW.Decryptblock_CFB R St input keys).2)
    ∧ Portable.Encryptblock_CTR R cs be (ofH St) (ofH input) (keys.map ofH)
        = (HW.Encryptblock_CTR R cs be St input keys).map fun p => (ofH p.1, ofH p.2) :=
  ⟨Keyexpansion128_bridge hkey, Keyexpansion192_bridge hkey,
    Keyexpansion256_bridge hkey, INVKeyexpansion128_bridge hkey,
    INVKeyexpansion192_bridge hkey, INVKeyexpansion256_bridge hkey,
    Encryptblock_bridge R hin hkeys, Decryptblock_bridge R hin hkeys,
    Encryptblock_ECB_bridge R hin hkeys, Decryptblock_ECB_bridge R hin hkeys,
    Encryptblock_CBC_bridge R hSt hin hkeys, Decryptblock_CBC_bridge R hSt hin hkeys,
    Encryptblock_CFB_bridge R hSt hin hkeys, Decryptblock_CFB_bridge R hSt hin hkeys,
    Encryptblock_CTR_bridge R cs be hSt hin hkeys⟩

/-- C1 counterexample: the claimed equivalence cannot extend to the XEX mode
helpers — the portable `Encryptblock_XEX` hits the `Mul128` out-of-bounds
access on every call (here: zero state, zero input, empty schedule). -/
theorem C1_path_equivalence_counterexample :
    Portable.Encryptblock_XEX 10 pzero pzero [] = none := rfl

/-- C1 witness: the equivalence instantiated at the FIPS-197 128-bit key, a
singleton zero schedule, zero state and zero input, `R = 10`, 32-bit
big-endian counter. -/
theorem C1_path_equivalence_witness :
    (∀ b ∈ FIPSKey128, b < 256) ∧ (∀ b ∈ [hzero], HBounded b) ∧ HBounded hzero ∧
    (Portable.Keyexpansion128 FIPSKey128 = (HW.Keyexpansion128 FIPSKey128).map ofH
    ∧ Portable.Keyexpansion192 FIPSKey128 = (HW.Keyexpansion192 FIPSKey128).map ofH
    ∧ Portable.Keyexpansion256 FIPSKey128 = (HW.Keyexpansion256 FIPSKey128).map ofH
    ∧ Portable.INVKeyexpansion128 FIPSKey128
        = (HW.INVKeyexpansion128 FIPSKey128).map ofH
    ∧ Portable.INVKeyexpansion192 FIPSKey128
        = (HW.INVKeyexpansion192 FIPSKey128).map ofH
    ∧ Portable.INVKeyexpansion256 FIPSKey128
        = (HW.INVKeyexpansion256 FIPSKey128).map ofH
    ∧ Portable.Encryptblock 10 (ofH hzero) ([hzero].map ofH)
        = ofH (HW.Encryptblock 10 hzero [hzero])
    ∧ Portable.Decryptblock 10 (ofH hzero) ([hzero].map ofH)
        = ofH (HW.Decryptblock 10 hzero [hzero])
    ∧ Portable.Encryptblock_ECB 10 (ofH hzero) ([hzero].map ofH)
        = ofH (HW.Encryptblock_ECB 10 hzero [hzero])
    ∧ Portable.Decryptblock_ECB 10 (ofH hzero) ([hzero].map ofH)
        = ofH (HW.Decryptblock_ECB 10 hzero [hzero])
    ∧ Portable.Encryptblock_CBC 10 (ofH hzero) (ofH hzero) ([hzero].map ofH)
        = (ofH (HW.Encryptblock_CBC 10 hzero hzero [hzero]).1,
            ofH (HW.Encryptblock_CBC 10 hzero hzero [hzero]).2)
    ∧ Portable.Decryptblock_CBC 10 (ofH hzero) (ofH hzero) ([hzero].map ofH)
        = (ofH (HW.Decryptblock_CBC 10 hzero hzero [hzero]).1,
            ofH (HW.Decryptblock_CBC 10 hzero hzero [hzero]).2)
    ∧ Portable.Encryptblock_CFB 10 (ofH hzero) (ofH hzero) ([hzero].map ofH)
        = (ofH (HW.Encryptblock_CFB 10 hzero hzero [hzero]).1,
            ofH (HW.Encryptblock_CFB 10 hzero hzero [hzero]).2)
    ∧ Portable.Decryptblock_CFB 10 (ofH hzero) (ofH hzero) ([hzero].map ofH)
        = (ofH (HW.Decryptblock_CFB 10 hzero hzero [hzero]).1,
            ofH (HW.Decryptblock_CFB 10 hzero hzero [hzero]).2)
    ∧ Portable.Encryptblock_CTR 10 32 true (ofH hzero) (ofH hzero) ([hzero].map ofH)
        = (HW.Encryptblock_CTR 10 32 true hzero hzero [hzero]).map
            fun p => (ofH p.1, ofH p.2)) :=
  ⟨by decide, by decide, by decide,
    C1_path_equivalence FIPSKey128 [hzero] hzero hzero 10 32 true
      (by decide) (by decide) (by decide) (by decide)⟩

/-- C2: the round-trip property fails.  On the repository's own unittest
vectors, CBC Decrypt(Encrypt(P)) is not P (every Decrypt driver expands the
key with the forward `Keyexpansion` but feeds it to `Decryptblock`, which
needs the inverse schedule); the repo's `static_assert(AESData == DEC_AES128)`
cannot hold.  Padded round trips are equally broken: the empty-input padded
ECB ciphertext does not decrypt to the empty output, XTS "encrypts" the empty
input to sixteen raw zero bytes, and padded XTS decryption dies in the
out-of-bounds `Mul128` on any nonempty input. -/
theorem C2_roundtrip_failure :
    ((Modes.UnpaddedEncryptCBC 4 10 AESData AES128Key AESIV).bind
        fun ct => Modes.UnpaddedDecryptCBC 4 10 ct AES128Key AESIV) ≠ some AESData
    ∧ ((Modes.PaddedEncryptECB 4 10 [] zeroKey16).bind
        fun ct => Modes.PaddedDecryptECB 4 10 ct zeroKey16) ≠ some []
    ∧ Modes.PaddedEncryptXTS 4 10 [] zeroKey16 zeroKey16 0 0
        = some (List.replicate 16 0)
    ∧ Modes.PaddedDecryptXTS 4 10 (List.replicate 16 0) zeroKey16 zeroKey16 0 0
        = none := by
  refine ⟨?_, ?_, by decide, by decide⟩
  · simp only [Modes.UnpaddedDecryptCBC, Portable.Decryptblock, Portable.INVSubstituteB,
      Portable.INVSubstituteW, INVSBoxL_eq_fips]
    decide
  · simp only [Modes.PaddedDecryptECB, Portable.Decryptblock, Portable.INVSubstituteB,
      Portable.INVSubstituteW, INVSBoxL_eq_fips]
    decide

/-- C3: the CTR increment does not add exactly 1 in the counter window.  The
loop `if (NC[15-i]==0) NC[14-i]+=1` carries on *any* zero byte, not on a
rollover: incrementing an all-zero block (32-bit big-endian counter) sets
bytes 13 and 11 as well as byte 15, corrupting the window and a byte outside
it; incrementing the claimed `0xFFFFFFFF` case writes 1 into byte 11, outside
the 4-byte window; the little-endian variant likewise writes outside its
window; and a 128-bit counter rollover indexes `NC[-1]`/`NC[16]`, out of
bounds (`none`). -/
theorem C3_ctr_increment_bug :
    ctrInc 32 true (List.replicate 16 0)
      = some [0, 0, 0, 0, 0, 0, 0, 0, 0, 0, 0, 1, 0, 1, 0, 1]
    ∧ ctrInc 32 true [0, 0, 0, 0, 0, 0, 0, 0, 0, 0, 0, 0, 255, 255, 255, 255]
      = some [0, 0, 0, 0, 0, 0, 0, 0, 0, 0, 0, 1, 0, 0, 0, 0]
    ∧ ctrInc 32 false [255, 255, 255, 255, 0, 0, 0, 0, 0, 0, 0, 0, 0, 0, 0, 0]
      = some [0, 0, 0, 0, 1, 0, 0, 0, 0, 0, 0, 0, 0, 0, 0, 0]
    ∧ ctrInc 128 false (List.replicate 16 255) = none := by
  refine ⟨by decide, by decide, by decide, by decide⟩

/-- C4: of the three multiply-by-alpha functions, `HW::Mul128` and
`Modes::MUL128` both compute the spec's GF(2^128) multiply-by-alpha
(`mulAlphaSpec`: left shift by one bit, byte 0 low-order, `0x87` XORed into
byte 0 exactly when byte 15's top bit was set) — but `Portable::Mul128`
indexes `Result[15..0]` on a four-element word array and is out-of-bounds UB
on every input, so the three do not compute the same function on any block. -/
theorem C4_mul128 :
    (∀ B : PBlock, Portable.Mul128 B = none)
    ∧ (∀ b : HBlock, HBounded b → HW.hBytesL (HW.Mul128 b) = mulAlphaSpec (HW.hBytesL b))
    ∧ (∀ b : HBlock, HBounded b →
        Portable.pToBytes (Modes.MUL128 (ofH b)) = mulAlphaSpec (HW.hBytesL b)) :=
  ⟨Mul128_none, fun _ hb => Mul128_eq_spec hb, fun _ hb => MUL128_eq_spec hb⟩

/-- C4 witness: the three functions evaluated on the block `01 00 .. 00 80`
(top bit of byte 15 set, so the `0x87` reduction fires). -/
theorem C4_mul128_witness :
    Portable.Mul128 pzero = none
    ∧ HBounded ⟨1, 0, 0, 0, 0, 0, 0, 0, 0, 0, 0, 0, 0, 0, 0, 128⟩
    ∧ HW.hBytesL (HW.Mul128 ⟨1, 0, 0, 0, 0, 0, 0, 0, 0, 0, 0, 0, 0, 0, 0, 128⟩)
        = mulAlphaSpec (HW.hBytesL ⟨1, 0, 0, 0, 0, 0, 0, 0, 0, 0, 0, 0, 0, 0, 0, 128⟩)
    ∧ Portable.pToBytes
        (Modes.MUL128 (ofH ⟨1, 0, 0, 0, 0, 0, 0, 0, 0, 0, 0, 0, 0, 0, 0, 128⟩))
        = mulAlphaSpec (HW.hBytesL ⟨1, 0, 0, 0, 0, 0, 0, 0, 0, 0, 0, 0, 0, 0, 0, 128⟩) :=
  ⟨C4_mul128.1 pzero, by decide,
    C4_mul128.2.1 ⟨1, 0, 0, 0, 0, 0, 0, 0, 0, 0, 0, 0, 0, 0, 0, 128⟩ (by decide),
    C4_mul128.2.2 ⟨1, 0, 0, 0, 0, 0, 0, 0, 0, 0, 0, 0, 0, 0, 0, 128⟩ (by decide)⟩

/-- C5: the FIPS-197 known-answer vectors hold for AES-128 and AES-256 (on
both paths for 128), but AES-192 produces `27cd3b84...` instead of the
published `dda97ca4...`: the 192-bit expansion applies the round constant on
an `i/2` cadence that does not match FIPS-197, so the claim that all three
key sizes match fails. -/
theorem C5_fips_vectors :
    Portable.pToBytes (Portable.Encryptblock 10 (Portable.bytesToPBlock FIPSPT)
        (Portable.Keyexpansion128 FIPSKey128)) = FIPSCT128
    ∧ HW.hBytesL (HW.Encryptblock 10 (HW.hOfBytesL FIPSPT)
        (HW.Keyexpansion128 FIPSKey128)) = FIPSCT128
    ∧ Portable.pToBytes (Portable.Encryptblock 14 (Portable.bytesToPBlock FIPSPT)
        (Portable.Keyexpansion256 FIPSKey256)) = FIPSCT256
    ∧ Portable.pToBytes (Portable.Encryptblock 12 (Portable.bytesToPBlock FIPSPT)
        (Portable.Keyexpansion192 FIPSKey192)) ≠ FIPSCT192
    ∧ Portable.pToBytes (Portable.Encryptblock 12 (Portable.bytesToPBlock FIPSPT)
        (Portable.Keyexpansion192 FIPSKey192))
      = [0x27, 0xcd, 0x3b, 0x84, 0x6f, 0x42, 0x89, 0x28, 0x87, 0x85, 0x42, 0x20,
          0xb9, 0x1e, 0xb1, 0xb3] := by
  refine ⟨by decide, by decide, by decide, by decide, by decide⟩

/-- C6: the padded Encrypt does not accept every length and does not always
append encrypted padding.  Aligned ECB input of length 16 does produce 32
bytes and the empty input 16 bytes, but *unaligned* input makes the regular
loop `memcpy` read past the end of the input (out of bounds, `none`); padded
XTS yields sixteen *raw zero* bytes for the empty input (its buffer's padding
region is never encrypted — there is no last-block section) and dies in the
out-of-bounds `Mul128` on any nonempty input. -/
theorem C6_padded_encrypt_length :
    (Modes.PaddedEncryptECB 4 10 (List.replicate 16 0) zeroKey16).map List.length
      = some 32
    ∧ (Modes.PaddedEncryptECB 4 10 [] zeroKey16).map List.length = some 16
    ∧ Modes.PaddedEncryptECB 4 10 (List.replicate 1 0) zeroKey16 = none
    ∧ Modes.PaddedEncryptXTS 4 10 [] zeroKey16 zeroKey16 0 0
      = some (List.replicate 16 0)
    ∧ Modes.PaddedEncryptXTS 4 10 (List.replicate 16 0) zeroKey16 zeroKey16 0 0
      = none := by
  refine ⟨by decide, by decide, by decide, by decide, by decide⟩

/-- C7 (amended): padded CBC Decrypt removes padding by truncating the
block-wise decryption by its trailing byte value, with no check that the
value lies in [1,16] — the only guards on the path are the block-alignment
assertion and the `size_t` underflow of `resize` (modelled: trailing byte at
most the length). -/
theorem C7_padding_validation (ks R : Nat) (input key iv : List Nat)
    (h16 : input.length % 16 = 0) (hne : input ≠ [])
    (hk : (Modes.blockDecryptCBC ks R input key iv).getD (input.length - 1) 0 ≤
      input.length) :
    Modes.PaddedDecryptCBC ks R input key iv =
      some ((Modes.blockDecryptCBC ks R input key iv).take
        (input.length - (Modes.blockDecryptCBC ks R input key iv).getD
          (input.length - 1) 0)) :=
  PaddedDecryptCBC_trunc ks R input key iv h16 hne hk

/-- C7 counterexample: a block-aligned ciphertext whose final decrypted byte
is 0 — outside [1,16] — is *not* detected: padded ECB Decrypt returns the
full 16-byte block-wise decryption. -/
theorem C7_padding_validation_counterexample :
    Modes.PaddedDecryptECB 4 10 padCiphertext0 zeroKey16
      = some (Modes.blockDecryptECB 4 10 padCiphertext0 zeroKey16)
    ∧ (Modes.blockDecryptECB 4 10 padCiphertext0 zeroKey16).getD 15 0 = 0
    ∧ (Modes.blockDecryptECB 4 10 padCiphertext0 zeroKey16).length = 16 := by
  refine ⟨?_, ?_, ?_⟩ <;>
    (simp only [Modes.PaddedDecryptECB, Modes.blockDecryptECB, Portable.Decryptblock,
      Portable.INVSubstituteB, Portable.INVSubstituteW, INVSBoxL_eq_fips]
     decide)

/-- C7 witness: the amended truncation semantics at the `padCiphertext0`
ciphertext under the zero key and zero IV (trailing byte 0: nothing is
removed). -/
theorem C7_padding_validation_witness :
    padCiphertext0.length % 16 = 0 ∧ padCiphertext0 ≠ [] ∧
    (Modes.blockDecryptCBC 4 10 padCiphertext0 zeroKey16 zeroKey16).getD
        (padCiphertext0.length - 1) 0 ≤ padCiphertext0.length ∧
    Modes.PaddedDecryptCBC 4 10 padCiphertext0 zeroKey16 zeroKey16 =
      some ((Modes.blockDecryptCBC 4 10 padCiphertext0 zeroKey16 zeroKey16).take
        (padCiphertext0.length -
          (Modes.blockDecryptCBC 4 10 padCiphertext0 zeroKey16 zeroKey16).getD
            (padCiphertext0.length - 1) 0)) :=
  ⟨by decide, by decide,
    by
      simp only [Modes.blockDecryptCBC, Portable.Decryptblock, Portable.INVSubstituteB,
        Portable.INVSubstituteW, INVSBoxL_eq_fips]
      decide,
    C7_padding_validation 4 10 padCiphertext0 zeroKey16 zeroKey16
      (by decide) (by decide)
      (by
        simp only [Modes.blockDecryptCBC, Portable.Decryptblock, Portable.INVSubstituteB,
          Portable.INVSubstituteW, INVSBoxL_eq_fips]
        decide)⟩

/-- C8: the S-box generator terminates and is total: from `P = Q = 1` the
loop returns `P` to 1 after exactly 255 iterations (`SBoxRun`), the `P`
sequence (`pIter`) covers every index 1..255, the final buffer holds the
affine transform of the paired `Q` sequence (`qIter`) at every such index,
`Buffer[0]` is set to `0x63` separately, and the inverse table is the
point-wise inverse of the forward table; everything here is evaluated by the
kernel, witnessing compile-time computability. -/
theorem C8_sbox_generator :
    Portable.SBoxRun.1 = 1 ∧ Portable.SBoxRun.2.1 = 255
    ∧ (∀ i : Fin 256, 1 ≤ i.1 → i.1 ∈ (List.range 255).map fun k => pIter (k + 1))
    ∧ (∀ k : Fin 255, Portable.SBoxRun.2.2.getD (pIter (k.1 + 1)) 0 =
        Portable.affine (qIter (k.1 + 1)))
    ∧ Portable.SBoxL.getD 0 0 = 0x63
    ∧ (∀ i : Fin 256, Portable.INVSBoxL.getD (Portable.SBoxL.getD i.1 0) 0 = i.1) := by
  refine ⟨by decide, by decide, by decide, by decide, by decide, ?_⟩
  simp only [SBoxL_eq_fips, INVSBoxL_eq_fips]
  decide

/-- C8 witness: index 5 of the cycle coverage (the only hypothesis-bearing
conjunct) at a concrete index. -/
theorem C8_sbox_generator_witness :
    1 ≤ (5 : Nat) ∧ (5 : Nat) ∈ (List.range 255).map fun k => pIter (k + 1) :=
  ⟨by decide, C8_sbox_generator.2.2.1 ⟨5, by decide⟩ (by decide)⟩

/-- C9: the portable word-level `Mix` and `INVMix` are mutually inverse on
every 32-bit word, and hence the block-level `MixB`/`INVMixB` are mutually
inverse bijections on every block of 32-bit words. -/
theorem C9_mix_inverse :
    (∀ w : Nat, w < 2 ^ 32 →
      Portable.INVMixw (Portable.Mixw w) = w ∧ Portable.Mixw (Portable.INVMixw w) = w)
    ∧ (∀ B : PBlock, B.w0 < 2 ^ 32 → B.w1 < 2 ^ 32 → B.w2 < 2 ^ 32 → B.w3 < 2 ^ 32 →
        Portable.INVMixB (Portable.MixB B) = B
        ∧ Portable.MixB (Portable.INVMixB B) = B) :=
  ⟨fun _ hw => ⟨INVMixw_Mixw hw, Mixw_INVMixw hw⟩,
    fun _ h0 h1 h2 h3 => ⟨INVMixB_MixB h0 h1 h2 h3, MixB_INVMixB h0 h1 h2 h3⟩⟩

/-- C9 witness: the word-level double inversion at `0x01020304`. -/
theorem C9_mix_inverse_witness :
    (0x01020304 : Nat) < 2 ^ 32
    ∧ (Portable.INVMixw (Portable.Mixw 0x01020304) = 0x01020304
        ∧ Portable.Mixw (Portable.INVMixw 0x01020304) = 0x01020304) :=
  ⟨by decide, C9_mix_inverse.1 0x01020304 (by decide)⟩

/-- C10: padded ECB Decrypt never validates the padding value: for every
block-aligned nonempty ciphertext whose block-wise decryption ends in a byte
`k` with `k` at most the length, the result is exactly the first
`length - k` bytes of the block-wise decryption, whatever `k` is — no check
that `k` lies in [1,16] occurs on any path (only the `size_t`-underflow guard
`k ≤ length`, modelled by the hypothesis, and the alignment assertion). -/
theorem C10_padded_truncation (ks R : Nat) (input key : List Nat)
    (h16 : input.length % 16 = 0) (hne : input ≠ [])
    (hk : (Modes.blockDecryptECB ks R input key).getD (input.length - 1) 0 ≤
      input.length) :
    Modes.PaddedDecryptECB ks R input key =
      some ((Modes.blockDecryptECB ks R input key).take
        (input.length - (Modes.blockDecryptECB ks R input key).getD
          (input.length - 1) 0)) :=
  PaddedDecryptECB_trunc ks R input key h16 hne hk

/-- C10 witness: the truncation semantics at `padCiphertext7` under the zero
key (trailing decrypted byte 7, nine bytes survive). -/
theorem C10_padded_truncation_witness :
    padCiphertext7.length % 16 = 0 ∧ padCiphertext7 ≠ [] ∧
    (Modes.blockDecryptECB 4 10 padCiphertext7 zeroKey16).getD
        (padCiphertext7.length - 1) 0 ≤ padCiphertext7.length ∧
    Modes.PaddedDecryptECB 4 10 padCiphertext7 zeroKey16 =
      some ((Modes.blockDecryptECB 4 10 padCiphertext7 zeroKey16).take
        (padCiphertext7.length -
          (Modes.blockDecryptECB 4 10 padCiphertext7 zeroKey16).getD
            (padCiphertext7.length - 1) 0)) :=
  ⟨by decide, by decide,
    by
      simp only [Modes.blockDecryptECB, Portable.Decryptblock, Portable.INVSubstituteB,
        Portable.INVSubstituteW, INVSBoxL_eq_fips]
      decide,
    C10_padded_truncation 4 10 padCiphertext7 zeroKey16
      (by decide) (by decide)
      (by
        simp only [Modes.blockDecryptECB, Portable.Decryptblock, Portable.INVSubstituteB,
          Portable.INVSubstituteW, INVSBoxL_eq_fips]
        decide)⟩

end AESVerify
